import Mathlib

/-!
# Mesh peering management (mesh_mpm.c) and mesh RSN (mesh_rsn.c)

A shallow embedding of the mesh peering code of wpa_supplicant.

Conventions of the embedding.

* Bytes, lengths and 16-bit link IDs are natural numbers; a C byte array is the
  list of its bytes.
* The `struct sta_info` records live in a pool (`hostapd_data.sta_pool`); a
  `struct sta_info *` is an index into that pool, and the two linked lists that
  thread the records (`sta_list` through `next`, `sta_hash[h]` through `hnext`)
  are lists of such indices.
* A function returns `none` when the C code would dereference a NULL or wild
  pointer.
* Calls into the driver are recorded, oldest first, in `wpa_supplicant.drv`;
  their return values are only logged by the C code and are not modelled.
* Heap allocation may fail: the n-th allocation of a run fails exactly when
  `alloc_fail n` holds.
* Constants, macros and library functions that are declared outside the three
  source files are parameters, collected in `mesh_defs`, `suite_defs`,
  `sae_lib` and `crypto_lib`.
-/

set_option autoImplicit false

/-! ## Data model -/

/-- The enumeration plink_event of mesh_mpm.c. -/
inductive plink_event where
  | PLINK_UNDEFINED
  | OPN_ACPT
  | OPN_RJCT
  | OPN_IGNR
  | CNF_ACPT
  | CNF_RJCT
  | CNF_IGNR
  | CLS_ACPT
  | CLS_IGNR
  deriving DecidableEq, Repr

/-- Modelled from the spec: the enumeration mesh_plink_state is declared outside
src/; its seven enumerators are the states of section 4.5. `PLINK_INVALID`
stands for a value of the C enum that is none of the seven enumerators, which
is what zero-initialised storage holds when the enumeration starts at 1. -/
inductive mesh_plink_state where
  | PLINK_LISTEN
  | PLINK_OPEN_SENT
  | PLINK_OPEN_RCVD
  | PLINK_CNF_RCVD
  | PLINK_ESTAB
  | PLINK_HOLDING
  | PLINK_BLOCKED
  | PLINK_INVALID
  deriving DecidableEq, Repr

/-- Modelled from the spec: the state of an SAE session (common/sae.h is outside
src/); section 3 lists nothing, committed, confirmed and accepted. -/
inductive sae_state where
  | SAE_NOTHING
  | SAE_COMMITTED
  | SAE_CONFIRMED
  | SAE_ACCEPTED
  deriving DecidableEq, Repr

open plink_event mesh_plink_state sae_state

/-- Modelled from the spec: the part of struct sae_data (common/sae.h, outside
src/) that the mesh code reads or writes: the session state and the PMK. The
field `group` is the group chosen by sae_set_group and `tmp` is the library's
own working data, which the mesh code never inspects. -/
structure sae_data where
  state : sae_state
  pmk : List Nat
  group : Int
  tmp : List Nat
  deriving DecidableEq, Repr

/-- The fields of struct sta_info that mesh_mpm.c and mesh_rsn.c use. The
pointers `next` and `hnext` are represented by the lists of hostapd_data. -/
structure sta_info where
  addr : List Nat
  plink_state : mesh_plink_state
  my_lid : Nat
  peer_lid : Nat
  my_nonce : List Nat
  peer_nonce : List Nat
  aek : List Nat
  mtk : List Nat
  mgtk : List Nat
  sae : Option sae_data
  sae_auth_retry : Nat
  supported_rates : List Nat
  auth_alg : Nat
  deriving DecidableEq, Repr

/-- The fields of struct hostapd_data used by the peer table, and the SAE group
list of its configuration (`conf->sae_groups`, NULL when not configured). -/
structure hostapd_data where
  sta_pool : List sta_info
  sta_list : List Nat
  sta_hash : Nat → List Nat
  num_sta : Int
  max_num_sta : Int
  sae_groups : Option (List Int)

/-- The fields of struct ieee802_11_elems read by the mesh code. The rates
elements read by copy_supp_rates are pointers into the frame (NULL when absent)
together with their lengths, here the lists of the bytes they point to. The MIC
element read by mesh_rsn_process_ampe takes part in pointer arithmetic: `mic`
is the offset of its payload in the frame (`none` for NULL) and `mic_len` the
length its header gives. -/
structure ieee802_11_elems where
  supp_rates : Option (List Nat)
  ext_supp_rates : Option (List Nat)
  mic : Option Nat := none
  mic_len : Nat := 0
  deriving DecidableEq, Repr

/-- The fields of struct hostapd_sta_add_params that the mesh code fills in;
every other field is zeroed by os_memset. -/
structure hostapd_sta_add_params where
  addr : List Nat
  aid : Nat
  supp_rates : List Nat
  listen_interval : Nat
  flags : Nat
  set : Nat
  plink_state : mesh_plink_state
  deriving DecidableEq, Repr

/-- Modelled from the spec: the authentication frame of section 6 that
mesh_rsn_send_auth fills in (struct ieee80211_mgmt is declared outside src/):
header fields, the three fixed fields of the authentication body and the SAE
payload. -/
structure auth_frame where
  frame_control : Nat
  da : List Nat
  sa : List Nat
  bssid : List Nat
  auth_alg : Nat
  auth_transaction : Nat
  status_code : Nat
  payload : List Nat
  deriving DecidableEq, Repr

/-- Modelled from the spec: the calls of the driver adapter of section 6
(driver_i.h is outside src/), with the arguments the mesh code passes. -/
inductive drv_call where
  | sta_add (params : hostapd_sta_add_params)
  | send_action (freq : Int) (wait : Nat) (dst src bssid : List Nat)
      (data : List Nat) (no_cck : Nat)
  | send_mlme (frame : auth_frame) (len : Nat) (noack : Nat)
  deriving DecidableEq, Repr

/-- The fields of struct wpa_ssid read by the mesh code. -/
structure wpa_ssid where
  passphrase : Option (List Nat)
  mode : Nat
  deriving DecidableEq, Repr

/-- The structure mesh_rsn of mesh_rsn.h, with the authenticator reduced to its
own address and the group key `mgtk` that mesh_rsn.c keeps in it. -/
structure mesh_rsn where
  auth_addr : List Nat
  mgtk : List Nat
  sae_token : Option (List Nat)
  sae_group_index : Int
  deriving DecidableEq, Repr

/-- A timeout registered with eloop_register_timeout for mesh_auth_timer: the
delay and the station pointer given as user data. -/
structure eloop_timeout where
  secs : Nat
  usecs : Nat
  sta : Nat
  deriving DecidableEq, Repr

/-- The fields of struct wpa_supplicant used by the mesh code (`bss0` is
`wpa_s->ifmsh->bss[0]`), followed by the environment of the embedding: the
driver calls made so far, the registered timeouts and the heap oracle. -/
structure wpa_supplicant where
  own_addr : List Nat
  assoc_freq : Int
  bss0 : hostapd_data
  mesh_rsn : Option mesh_rsn
  current_ssid : Option wpa_ssid
  wpa_state : Nat
  drv : List drv_call
  timeouts : List eloop_timeout
  alloc_fail : Nat → Bool
  alloc_count : Nat

/-- Constants, sizes and macros that the three source files take from headers
outside src/. -/
structure mesh_defs where
  WLAN_ACTION_SELF_PROTECTED : Nat
  WPA_STA_WMM : Nat
  WPA_STA_AUTHORIZED : Nat
  sizeof_supported_rates : Nat
  sizeof_aek : Nat
  sizeof_mtk : Nat
  STA_HASH : List Nat → Nat
  plink_state_zero : mesh_plink_state
  WPA_AUTHENTICATING : Nat
  IEEE80211_HDRLEN : Nat
  sizeof_auth : Nat
  auth_frame_control : Nat
  WLAN_AUTH_SAE : Nat

/-! ## Environment: memory, heap and driver -/

/-- The constant ETH_ALEN. -/
def ETH_ALEN : Nat := 6

/-- The byte at offset i of a buffer; offsets past the end of the model list
read as 0 (fixed-size C arrays are lists of their size). -/
def byte_at (b : List Nat) (i : Nat) : Nat := b.getD i 0

/-- The C function memcmp on the first n bytes: zero when they agree, otherwise
the difference of the first pair of bytes that differ. -/
def os_memcmp : List Nat → List Nat → Nat → Int
  | _, _, 0 => 0
  | a, b, n + 1 =>
    if a.headD 0 = b.headD 0 then os_memcmp a.tail b.tail n
    else (a.headD 0 : Int) - (b.headD 0 : Int)

/-- The n bytes that os_memcpy copies out of a source buffer. -/
def os_memcpy (src : List Nat) (n : Nat) : List Nat :=
  (List.range n).map (byte_at src)

/-- One heap allocation (os_zalloc, wpabuf_alloc): whether it succeeded, and
the machine with the allocation counted. -/
def os_alloc (wpa_s : wpa_supplicant) : Bool × wpa_supplicant :=
  (!(wpa_s.alloc_fail wpa_s.alloc_count),
   { wpa_s with alloc_count := wpa_s.alloc_count + 1 })

/-- Modelled from the spec: the driver call sta_add of section 6 (driver_i.h is
outside src/); the call is recorded. -/
def wpa_drv_sta_add (wpa_s : wpa_supplicant) (params : hostapd_sta_add_params) :
    wpa_supplicant :=
  { wpa_s with drv := wpa_s.drv ++ [drv_call.sta_add params] }

/-- Modelled from the spec: the driver call send_action of section 6
(driver_i.h is outside src/); the call is recorded. -/
def wpa_drv_send_action (wpa_s : wpa_supplicant) (freq : Int) (wait : Nat)
    (dst src bssid : List Nat) (data : List Nat) (no_cck : Nat) : wpa_supplicant :=
  { wpa_s with drv := wpa_s.drv ++ [drv_call.send_action freq wait dst src bssid data no_cck] }

/-- Modelled from the spec: merge_byte_arrays (utils/common.c, outside src/)
writes the basic rates followed by the extended rates, cut at the capacity of
the destination (section 3: merged basic+extended supported rates, at most the
platform cap). An absent source contributes nothing. -/
def merge_byte_arrays (res_len : Nat) (src1 src2 : Option (List Nat)) : List Nat :=
  ((src1.getD []) ++ (src2.getD [])).take res_len

/-- Modelled from the spec: the action subtypes of section 6 (OPEN=1,
CONFIRM=2, CLOSE=3); the enumeration plink_action_field is declared outside
src/. -/
def PLINK_OPEN : Nat := 1

/-- Modelled from the spec: the action subtype CONFIRM=2 of section 6. -/
def PLINK_CONFIRM : Nat := 2

/-- Modelled from the spec: the action subtype CLOSE=3 of section 6. -/
def PLINK_CLOSE : Nat := 3

/-! ## mesh_mpm.c -/

/-- The function plink_free_count of mesh_mpm.c. -/
def plink_free_count : Int := 99

/-- The function copy_supp_rates of mesh_mpm.c. The C function returns
WLAN_STATUS_SUCCESS (zero) or WLAN_STATUS_UNSPECIFIED_FAILURE (non-zero) and
its caller only tests the status against zero: the model returns `none` for the
failure status and the updated record for success. -/
def copy_supp_rates (K : mesh_defs) (sta : sta_info) (elems : ieee802_11_elems) :
    Option sta_info :=
  match elems.supp_rates with
  | none => none
  | some sr =>
    if sr.length + (elems.ext_supp_rates.getD []).length > K.sizeof_supported_rates then
      none
    else
      some { sta with
        supported_rates :=
          merge_byte_arrays K.sizeof_supported_rates (some sr) elems.ext_supp_rates }

/-- The record behind a station pointer, `none` for a wild pointer. -/
def sta_deref (data : hostapd_data) (p : Nat) : Option sta_info :=
  data.sta_pool[p]?

/-- The store through a station pointer. -/
def sta_store (data : hostapd_data) (p : Nat) (sta : sta_info) : hostapd_data :=
  { data with sta_pool := data.sta_pool.set p sta }

/-- The loop of mesh_get_sta along one hash chain: the first record whose
address equals the one looked for. The outer `none` is a wild pointer in the
chain, the inner `none` is the NULL result. -/
def mesh_get_sta_chain (data : hostapd_data) (sta : List Nat) :
    List Nat → Option (Option Nat)
  | [] => some none
  | s :: hnext =>
    match sta_deref data s with
    | none => none
    | some r =>
      if os_memcmp r.addr sta 6 ≠ 0 then mesh_get_sta_chain data sta hnext
      else some (some s)

/-- The function mesh_get_sta of mesh_mpm.c. -/
def mesh_get_sta (K : mesh_defs) (data : hostapd_data) (sta : List Nat) :
    Option (Option Nat) :=
  mesh_get_sta_chain data sta (data.sta_hash (K.STA_HASH sta))

/-- The function mesh_sta_hash_add of mesh_mpm.c, for the record at pointer p
with address addr. -/
def mesh_sta_hash_add (K : mesh_defs) (data : hostapd_data) (p : Nat) (addr : List Nat) :
    hostapd_data :=
  { data with
    sta_hash := fun h =>
      if h = K.STA_HASH addr then p :: data.sta_hash h else data.sta_hash h }

/-- The record that os_zalloc returns: every field zero. -/
def sta_info_zero (K : mesh_defs) : sta_info :=
  { addr := List.replicate ETH_ALEN 0
    plink_state := K.plink_state_zero
    my_lid := 0
    peer_lid := 0
    my_nonce := List.replicate 32 0
    peer_nonce := List.replicate 32 0
    aek := List.replicate K.sizeof_aek 0
    mtk := List.replicate K.sizeof_mtk 0
    mgtk := List.replicate 16 0
    sae := none
    sae_auth_retry := 0
    supported_rates := []
    auth_alg := 0 }

/-- The function mesh_sta_add of mesh_mpm.c on the table `wpa_s->ifmsh->bss[0]`
(its only call site). Returns the station pointer (`none` for NULL) and the
machine; the outer `none` is a wild pointer met during the lookup. -/
def mesh_sta_add (K : mesh_defs) (wpa_s : wpa_supplicant) (addr : List Nat) :
    Option (Option Nat × wpa_supplicant) :=
  let data := wpa_s.bss0
  match mesh_get_sta K data addr with
  | none => none
  | some (some sta) => some (some sta, wpa_s)
  | some none =>
    if data.num_sta ≥ data.max_num_sta then some (none, wpa_s)
    else
      let (ok, wpa_s1) := os_alloc wpa_s
      if !ok then some (none, wpa_s1)
      else
        let sta := data.sta_pool.length
        let r := { sta_info_zero K with addr := os_memcpy addr ETH_ALEN }
        let data1 : hostapd_data :=
          { data with
            sta_pool := data.sta_pool ++ [r]
            sta_list := sta :: data.sta_list
            num_sta := data.num_sta + 1 }
        let data2 := mesh_sta_hash_add K data1 sta r.addr
        some (some sta, { wpa_s1 with bss0 := data2 })

/-- The function wpa_mesh_set_plink_state of mesh_mpm.c. -/
def wpa_mesh_set_plink_state (wpa_s : wpa_supplicant) (sta : sta_info)
    (state : mesh_plink_state) : wpa_supplicant × sta_info :=
  let sta1 := { sta with plink_state := state }
  let params : hostapd_sta_add_params :=
    { addr := sta1.addr, aid := 0, supp_rates := [], listen_interval := 0,
      flags := 0, set := 1, plink_state := state }
  (wpa_drv_sta_add wpa_s params, sta1)

/-- The function wpa_mesh_new_mesh_peer of mesh_mpm.c. -/
def wpa_mesh_new_mesh_peer (K : mesh_defs) (wpa_s : wpa_supplicant) (addr : List Nat)
    (elems : ieee802_11_elems) : Option wpa_supplicant :=
  match mesh_sta_add K wpa_s addr with
  | none => none
  | some (none, wpa_s1) => some wpa_s1
  | some (some p, wpa_s1) =>
    match sta_deref wpa_s1.bss0 p with
    | none => none
    | some sta =>
      match copy_supp_rates K sta elems with
      | none => some wpa_s1
      | some sta1 =>
        let sta2 := { sta1 with plink_state := PLINK_LISTEN }
        let params : hostapd_sta_add_params :=
          { addr := addr, aid := 1, supp_rates := sta2.supported_rates,
            listen_interval := 100,
            flags := (0 ||| K.WPA_STA_WMM) ||| K.WPA_STA_AUTHORIZED,
            set := 0, plink_state := sta2.plink_state }
        let wpa_s2 := wpa_drv_sta_add wpa_s1 params
        let (wpa_s3, sta3) := wpa_mesh_set_plink_state wpa_s2 sta2 PLINK_ESTAB
        some { wpa_s3 with bss0 := sta_store wpa_s3.bss0 p sta3 }

/-- The function mesh_mpm_send_plink_action of mesh_mpm.c: the frame holds the
category and the action subtype only; nothing is sent when the buffer cannot be
allocated. -/
def mesh_mpm_send_plink_action (K : mesh_defs) (wpa_s : wpa_supplicant) (sta : sta_info)
    (type : Nat) (_close_reason : Nat) : wpa_supplicant :=
  let (ok, wpa_s1) := os_alloc wpa_s
  if !ok then wpa_s1
  else
    let buf := [K.WLAN_ACTION_SELF_PROTECTED, type]
    wpa_drv_send_action wpa_s1 wpa_s1.assoc_freq 0 sta.addr wpa_s1.own_addr
      wpa_s1.own_addr buf 0

/-- The function mesh_mpm_fsm_restart of mesh_mpm.c. -/
def mesh_mpm_fsm_restart (sta : sta_info) : sta_info :=
  { sta with plink_state := PLINK_LISTEN }

/-- The function mesh_mpm_fsm of mesh_mpm.c: the machine after the frames it
sent, and the station record after the transition. -/
def mesh_mpm_fsm (K : mesh_defs) (wpa_s : wpa_supplicant) (sta : sta_info)
    (next_state : plink_event) : wpa_supplicant × sta_info :=
  let reason := 0
  match sta.plink_state with
  | PLINK_LISTEN =>
    match next_state with
    | CLS_ACPT => (wpa_s, mesh_mpm_fsm_restart sta)
    | OPN_ACPT =>
      let wpa_s1 := mesh_mpm_send_plink_action K wpa_s sta PLINK_OPEN 0
      (mesh_mpm_send_plink_action K wpa_s1 sta PLINK_CONFIRM 0, sta)
    | _ => (wpa_s, sta)
  | PLINK_OPEN_SENT =>
    match next_state with
    | OPN_RJCT | CNF_RJCT | CLS_ACPT =>
      let sta1 := { sta with plink_state := PLINK_HOLDING }
      (mesh_mpm_send_plink_action K wpa_s sta1 PLINK_CLOSE reason, sta1)
    | OPN_ACPT =>
      let sta1 := { sta with plink_state := PLINK_OPEN_RCVD }
      (mesh_mpm_send_plink_action K wpa_s sta1 PLINK_CONFIRM 0, sta1)
    | CNF_ACPT => (wpa_s, { sta with plink_state := PLINK_CNF_RCVD })
    | _ => (wpa_s, sta)
  | PLINK_OPEN_RCVD =>
    match next_state with
    | OPN_RJCT | CNF_RJCT | CLS_ACPT =>
      let sta1 := { sta with plink_state := PLINK_HOLDING }
      (mesh_mpm_send_plink_action K wpa_s sta1 PLINK_CLOSE reason, sta1)
    | OPN_ACPT => (mesh_mpm_send_plink_action K wpa_s sta PLINK_CONFIRM 0, sta)
    | CNF_ACPT => (wpa_s, { sta with plink_state := PLINK_ESTAB })
    | _ => (wpa_s, sta)
  | PLINK_CNF_RCVD =>
    match next_state with
    | OPN_RJCT | CNF_RJCT | CLS_ACPT =>
      let sta1 := { sta with plink_state := PLINK_HOLDING }
      (mesh_mpm_send_plink_action K wpa_s sta1 PLINK_CLOSE reason, sta1)
    | OPN_ACPT =>
      let sta1 := { sta with plink_state := PLINK_ESTAB }
      (mesh_mpm_send_plink_action K wpa_s sta1 PLINK_CONFIRM 0, sta1)
    | _ => (wpa_s, sta)
  | PLINK_ESTAB =>
    match next_state with
    | CLS_ACPT =>
      let sta1 := { sta with plink_state := PLINK_HOLDING }
      (mesh_mpm_send_plink_action K wpa_s sta1 PLINK_CLOSE reason, sta1)
    | OPN_ACPT => (mesh_mpm_send_plink_action K wpa_s sta PLINK_CONFIRM 0, sta)
    | _ => (wpa_s, sta)
  | PLINK_HOLDING =>
    match next_state with
    | CLS_ACPT => (wpa_s, mesh_mpm_fsm_restart sta)
    | OPN_ACPT | CNF_ACPT | OPN_RJCT | CNF_RJCT =>
      (mesh_mpm_send_plink_action K wpa_s sta PLINK_CLOSE reason, sta)
    | _ => (wpa_s, sta)
  | _ => (wpa_s, sta)

/-- The call `mesh_mpm_fsm(wpa_s, sta, event)` for the record behind the station
pointer p, whose current content is `sta`: the state machine runs on the record
and the record is written back through the pointer. -/
def mesh_mpm_fsm_at (K : mesh_defs) (wpa_s : wpa_supplicant) (p : Nat) (sta : sta_info)
    (event : plink_event) : wpa_supplicant :=
  let r := mesh_mpm_fsm K wpa_s sta event
  { r.1 with bss0 := sta_store r.1.bss0 p r.2 }

/-- The fields of struct rx_action read by mesh_mpm_action_rx: the sender, the
category and the frame body (`data` with its length `len`). -/
structure rx_action where
  sa : List Nat
  category : Nat
  data : List Nat
  deriving DecidableEq, Repr

/-- The switch of mesh_mpm_action_rx that picks the event for a frame with the
given action field, with the local variables plid and llid, which the function
initialises to 0 and never assigns. The result is the event and the record
(an accepted OPEN stores plid in it); `none` is the return taken for an
unknown frame subtype. -/
def mesh_mpm_action_rx_event (sta : sta_info) (action_field : Nat) :
    Option (plink_event × sta_info) :=
  let plid : Nat := 0
  let llid : Nat := 0
  if action_field = PLINK_OPEN then
    if plink_free_count = 0 ∨ (sta.peer_lid ≠ 0 ∧ sta.peer_lid ≠ plid) then
      some (OPN_IGNR, sta)
    else
      some (OPN_ACPT, { sta with peer_lid := plid })
  else if action_field = PLINK_CONFIRM then
    if plink_free_count = 0 ∨ (sta.my_lid ≠ llid ∨ sta.peer_lid ≠ plid) then
      some (CNF_IGNR, sta)
    else
      some (CNF_ACPT, sta)
  else if action_field = PLINK_CLOSE then
    if sta.plink_state = PLINK_ESTAB then some (CLS_ACPT, sta)
    else if sta.peer_lid ≠ plid then some (CLS_IGNR, sta)
    else some (CLS_ACPT, sta)
  else
    none

/-- The function mesh_mpm_action_rx of mesh_mpm.c. -/
def mesh_mpm_action_rx (K : mesh_defs) (wpa_s : wpa_supplicant) (rx : rx_action) :
    Option wpa_supplicant :=
  if rx.category ≠ K.WLAN_ACTION_SELF_PROTECTED then some wpa_s
  else if rx.data.length < 1 + 2 + 2 then some wpa_s
  else
    let action_field := byte_at rx.data 0
    match mesh_get_sta K wpa_s.bss0 rx.sa with
    | none => none
    | some none => some wpa_s
    | some (some p) =>
      match sta_deref wpa_s.bss0 p with
      | none => none
      | some sta =>
        if sta.plink_state = PLINK_BLOCKED then some wpa_s
        else
          match mesh_mpm_action_rx_event sta action_field with
          | none => some wpa_s
          | some (event, sta1) => some (mesh_mpm_fsm_at K wpa_s p sta1 event)

/-! ## mesh_rsn.c -/

/-- The SAE library (common/sae.c, outside src/) as the mesh code calls it. Each
function returns its status and the session it leaves behind;
sae_write_commit returns the bytes it writes into the buffer. -/
structure sae_lib where
  sae_set_group : sae_data → Int → Int × sae_data
  sae_prepare_commit : List Nat → List Nat → List Nat → sae_data → Int × sae_data
  sae_write_commit : sae_data → Option (List Nat) → List Nat

/-- The crypto primitives (crypto/sha256.h, outside src/) as the mesh code calls
them: sha256_prf takes the key, the label, the context and the output length. -/
structure crypto_lib where
  sha256_prf : List Nat → String → List Nat → Nat → List Nat

/-- Cipher suite constants and the selector lookup of common/wpa_common.h
(outside src/). -/
structure suite_defs where
  WPA_CIPHER_GCMP : Int
  WPA_CIPHER_CCMP : Int
  WPA_PROTO_RSN : Int
  wpa_cipher_to_suite : Int → Int → Nat

/-- The constant MESH_AUTH_TIMEOUT of mesh_rsn.c. -/
def MESH_AUTH_TIMEOUT : Nat := 10

/-- The constant MESH_AUTH_RETRY of mesh_rsn.c. -/
def MESH_AUTH_RETRY : Nat := 3

/-- Modelled from the spec: the numeric value of an SAE state, used by
mesh_rsn_auth_sae_sta as the transaction number of the commit message (section
4.4: auth_transaction=1 for COMMIT). -/
def sae_state_value : sae_state → Nat
  | SAE_NOTHING => 0
  | SAE_COMMITTED => 1
  | SAE_CONFIRMED => 2
  | SAE_ACCEPTED => 3

/-- Modelled from the spec: the status code SUCCESS of section 4.4
(ieee802_11_defs.h is outside src/). -/
def WLAN_STATUS_SUCCESS : Nat := 0

/-- Modelled from the spec: the driver call send_mlme of section 6 (driver_i.h
is outside src/); the call is recorded. -/
def wpa_drv_send_mlme (wpa_s : wpa_supplicant) (frame : auth_frame) (len : Nat)
    (noack : Nat) : wpa_supplicant :=
  { wpa_s with drv := wpa_s.drv ++ [drv_call.send_mlme frame len noack] }

/-- The function index_within_array of mesh_rsn.c from loop index i on, with
`rest` the entries of the array from index i; `none` is a read past the end of
the array. -/
def index_within_array_loop (idx : Int) : List Int → Nat → Option Int
  | [], i => if (i : Int) < idx then none else some 1
  | a :: rest, i =>
    if (i : Int) < idx then
      if a = -1 then some 0 else index_within_array_loop idx rest (i + 1)
    else some 1

/-- The function index_within_array of mesh_rsn.c. -/
def index_within_array (array : List Int) (idx : Int) : Option Int :=
  index_within_array_loop idx array 0

/-- The loop of mesh_rsn_sae_group from cursor value idx on, with `rest` the
entries of the group list from that index: the status, the cursor and the SAE
session it leaves; `none` is a read past the end of the list. -/
def mesh_rsn_sae_group_loop (L : sae_lib) :
    List Int → Int → sae_data → Option (Int × Int × sae_data)
  | [], _, _ => none
  | group :: rest, idx, sae =>
    if group < 0 then some (-1, idx, sae)
    else
      let r := L.sae_set_group sae group
      if r.1 = 0 then some (0, idx, r.2)
      else mesh_rsn_sae_group_loop L rest (idx + 1) r.2

/-- The function mesh_rsn_sae_group of mesh_rsn.c. A NULL group list has no
entry that can be read. -/
def mesh_rsn_sae_group (L : sae_lib) (wpa_s : wpa_supplicant) (sae : sae_data) :
    Option (Int × wpa_supplicant × sae_data) :=
  let groups := wpa_s.bss0.sae_groups.getD []
  match wpa_s.mesh_rsn with
  | none => none
  | some rsn =>
    match index_within_array groups rsn.sae_group_index with
    | none => none
    | some within =>
      if within = 0 then some (-1, wpa_s, sae)
      else if rsn.sae_group_index < 0 then none
      else
        match mesh_rsn_sae_group_loop L (groups.drop rsn.sae_group_index.toNat)
            rsn.sae_group_index sae with
        | none => none
        | some (ret, idx, sae1) =>
          some (ret, { wpa_s with mesh_rsn := some { rsn with sae_group_index := idx } }, sae1)

/-- The function mesh_rsn_build_sae_commit of mesh_rsn.c, called with
`sta->sae` not NULL: the buffer (`none` for NULL), the machine and the SAE
session. The outer `none` is a NULL or out-of-bounds access. -/
def mesh_rsn_build_sae_commit (L : sae_lib) (wpa_s : wpa_supplicant)
    (ssid : Option wpa_ssid) (sta : sta_info) (sae : sae_data) :
    Option (Option (List Nat) × wpa_supplicant × sae_data) :=
  match ssid with
  | none => none
  | some ssid =>
    match ssid.passphrase with
    | none => some (none, wpa_s, sae)
    | some passphrase =>
      match mesh_rsn_sae_group L wpa_s sae with
      | none => none
      | some (ret, wpa_s1, sae1) =>
        if ret < 0 then some (none, wpa_s1, sae1)
        else
          let r := L.sae_prepare_commit wpa_s1.own_addr sta.addr passphrase sae1
          if r.1 < 0 then some (none, wpa_s1, r.2)
          else
            match wpa_s1.mesh_rsn with
            | none => none
            | some rsn =>
              let (ok, wpa_s2) := os_alloc wpa_s1
              if !ok then some (none, wpa_s2, r.2)
              else some (some (L.sae_write_commit r.2 rsn.sae_token), wpa_s2, r.2)

/-- The function mesh_rsn_send_auth of mesh_rsn.c; nothing is sent when the
frame cannot be allocated. -/
def mesh_rsn_send_auth (K : mesh_defs) (wpa_s : wpa_supplicant) (dst src : List Nat)
    (auth_transaction resp : Nat) (data : List Nat) : wpa_supplicant :=
  let len := K.IEEE80211_HDRLEN + K.sizeof_auth + data.length
  let (ok, wpa_s1) := os_alloc wpa_s
  if !ok then wpa_s1
  else
    let auth : auth_frame :=
      { frame_control := K.auth_frame_control
        da := os_memcpy dst ETH_ALEN
        sa := os_memcpy src ETH_ALEN
        bssid := os_memcpy dst ETH_ALEN
        auth_alg := K.WLAN_AUTH_SAE
        auth_transaction := auth_transaction
        status_code := resp
        payload := data }
    wpa_drv_send_mlme wpa_s1 auth len 0

/-- The session that os_zalloc returns for `sta->sae`: every field zero. -/
def sae_data_zero : sae_data :=
  { state := SAE_NOTHING, pmk := List.replicate 32 0, group := 0, tmp := [] }

/-- Modelled from the spec: wpa_supplicant_set_state (outside src/) records the
new state of the interface. -/
def wpa_supplicant_set_state (wpa_s : wpa_supplicant) (state : Nat) : wpa_supplicant :=
  { wpa_s with wpa_state := state }

/-- Modelled from the spec: eloop_register_timeout (utils/eloop.h, outside
src/) for the handler mesh_auth_timer: the registration is recorded. -/
def eloop_register_timeout (wpa_s : wpa_supplicant) (secs usecs : Nat) (sta : Nat) :
    wpa_supplicant :=
  { wpa_s with timeouts := wpa_s.timeouts ++ [{ secs := secs, usecs := usecs, sta := sta }] }

/-- The part of mesh_rsn_auth_sae_sta that follows the creation of the session:
`sae` is the session `sta->sae` points to. -/
def mesh_rsn_auth_sae_sta_commit (K : mesh_defs) (L : sae_lib) (wpa_s : wpa_supplicant)
    (p : Nat) (sta : sta_info) (sae : sae_data) : Option (Int × wpa_supplicant × sta_info) :=
  let ssid := wpa_s.current_ssid
  match mesh_rsn_build_sae_commit L wpa_s ssid sta sae with
  | none => none
  | some (none, wpa_s1, sae1) => some (-1, wpa_s1, { sta with sae := some sae1 })
  | some (some buf, wpa_s1, sae1) =>
    let sta1 := { sta with sae := some { sae1 with state := SAE_COMMITTED } }
    let wpa_s2 := wpa_supplicant_set_state wpa_s1 K.WPA_AUTHENTICATING
    let wpa_s3 := mesh_rsn_send_auth K wpa_s2 sta1.addr wpa_s2.own_addr
      (sae_state_value SAE_COMMITTED) WLAN_STATUS_SUCCESS buf
    some (0, eloop_register_timeout wpa_s3 MESH_AUTH_TIMEOUT 0 p, sta1)

/-- The function mesh_rsn_auth_sae_sta of mesh_rsn.c for the record `sta` stored
at pointer p: the status, the machine and the record. The outer `none` is a
NULL or out-of-bounds access. -/
def mesh_rsn_auth_sae_sta (K : mesh_defs) (L : sae_lib) (wpa_s : wpa_supplicant) (p : Nat)
    (sta : sta_info) : Option (Int × wpa_supplicant × sta_info) :=
  match sta.sae with
  | some sae => mesh_rsn_auth_sae_sta_commit K L wpa_s p sta sae
  | none =>
    let (ok, wpa_s1) := os_alloc wpa_s
    if !ok then some (-1, wpa_s1, sta)
    else
      mesh_rsn_auth_sae_sta_commit K L wpa_s1 p sta
        { sae_data_zero with state := SAE_NOTHING }

/-- The function mesh_auth_timer of mesh_rsn.c; `user_data` is the station
pointer (`none` for NULL). The result `none` is a NULL or wild pointer access,
in particular the read of `sta->sae->state` when the record has no session. -/
def mesh_auth_timer (K : mesh_defs) (L : sae_lib) (wpa_s : wpa_supplicant)
    (user_data : Option Nat) : Option wpa_supplicant :=
  match user_data with
  | none => some wpa_s
  | some p =>
    match sta_deref wpa_s.bss0 p with
    | none => none
    | some sta =>
      match sta.sae with
      | none => none
      | some sae =>
        if sae.state ≠ SAE_ACCEPTED then
          if sta.sae_auth_retry < MESH_AUTH_RETRY then
            match mesh_rsn_auth_sae_sta K L wpa_s p sta with
            | none => none
            | some (_, wpa_s1, sta1) =>
              let sta2 := { sta1 with sae_auth_retry := sta1.sae_auth_retry + 1 }
              some { wpa_s1 with bss0 := sta_store wpa_s1.bss0 p sta2 }
          else
            let sta1 :=
              { sta with plink_state := PLINK_BLOCKED
                         sae := some { sae with state := SAE_NOTHING } }
            let sta2 := { sta1 with sae_auth_retry := sta1.sae_auth_retry + 1 }
            some { wpa_s with bss0 := sta_store wpa_s.bss0 p sta2 }
        else some wpa_s

/-- The macro RSN_SELECTOR_PUT: the 32-bit selector in four big-endian bytes. -/
def RSN_SELECTOR_PUT (val : Nat) : List Nat :=
  [(val >>> 24) &&& 0xff, (val >>> 16) &&& 0xff, (val >>> 8) &&& 0xff, val &&& 0xff]

/-- The two bytes that mesh_rsn_derive_mtk writes for a link ID. -/
def lid_bytes (lid : Nat) : List Nat :=
  [(lid >>> 8) &&& 0xff, lid &&& 0xff]

/-- The 84-byte context that mesh_rsn_derive_mtk builds. -/
def mesh_rsn_mtk_context (S : suite_defs) (wpa_s : wpa_supplicant) (sta : sta_info) :
    List Nat :=
  let nonce_len := 32
  let lid_len := 2
  let myaddr := wpa_s.own_addr
  let peer := sta.addr
  let nonces :=
    if os_memcmp sta.my_nonce sta.peer_nonce nonce_len < 0 then
      (sta.my_nonce, sta.peer_nonce)
    else (sta.peer_nonce, sta.my_nonce)
  let lids :=
    if sta.my_lid < sta.peer_lid then (lid_bytes sta.my_lid, lid_bytes sta.peer_lid)
    else (lid_bytes sta.peer_lid, lid_bytes sta.my_lid)
  let addrs :=
    if os_memcmp myaddr peer ETH_ALEN < 0 then (myaddr, peer) else (peer, myaddr)
  os_memcpy nonces.1 nonce_len ++ os_memcpy nonces.2 nonce_len
    ++ os_memcpy lids.1 lid_len ++ os_memcpy lids.2 lid_len
    ++ RSN_SELECTOR_PUT (S.wpa_cipher_to_suite 0 S.WPA_CIPHER_GCMP)
    ++ os_memcpy addrs.1 ETH_ALEN ++ os_memcpy addrs.2 ETH_ALEN

/-- The function mesh_rsn_derive_mtk of mesh_rsn.c: the status and the record
with its mtk written; `none` is the read of `sta->sae->pmk` when the record has
no session. -/
def mesh_rsn_derive_mtk (K : mesh_defs) (S : suite_defs) (C : crypto_lib)
    (wpa_s : wpa_supplicant) (sta : sta_info) : Option (Int × sta_info) :=
  let context := mesh_rsn_mtk_context S wpa_s sta
  match sta.sae with
  | none => none
  | some sae =>
    some (0, { sta with
      mtk := C.sha256_prf sae.pmk ("Temporal Key Derivation") context K.sizeof_mtk })

/-! ## Runs of the peer table -/

/-- The peer table of a freshly created interface: no record, empty lists. -/
def peer_table_empty (wpa_s : wpa_supplicant) : Prop :=
  wpa_s.bss0.sta_pool = [] ∧ wpa_s.bss0.sta_list = [] ∧
    (∀ h, wpa_s.bss0.sta_hash h = []) ∧ wpa_s.bss0.num_sta = 0

/-- One call of wpa_mesh_new_mesh_peer, mesh_mpm_action_rx or mesh_auth_timer
that returns, with any arguments. -/
inductive mesh_step (K : mesh_defs) (L : sae_lib) : wpa_supplicant → wpa_supplicant → Prop
  | new_mesh_peer (w w1 : wpa_supplicant) (addr : List Nat) (elems : ieee802_11_elems) :
      wpa_mesh_new_mesh_peer K w addr elems = some w1 → mesh_step K L w w1
  | action_rx (w w1 : wpa_supplicant) (rx : rx_action) :
      mesh_mpm_action_rx K w rx = some w1 → mesh_step K L w w1
  | auth_timer (w w1 : wpa_supplicant) (user_data : Option Nat) :
      mesh_auth_timer K L w user_data = some w1 → mesh_step K L w w1

/-- The states reachable from an empty peer table by calls of
wpa_mesh_new_mesh_peer, mesh_mpm_action_rx and mesh_auth_timer. -/
inductive mesh_reachable (K : mesh_defs) (L : sae_lib) : wpa_supplicant → Prop
  | init (w : wpa_supplicant) : peer_table_empty w → mesh_reachable K L w
  | step (w w1 : wpa_supplicant) :
      mesh_reachable K L w → mesh_step K L w w1 → mesh_reachable K L w1

/-! ## The event rule of the specification -/

/-- The rule of section 4.5.2 for an OPEN frame, in the words of the
specification: `free` is the free-peer-slot count and `plid` the link ID the
frame carries. The result is the event and the record after it. -/
def spec_open_event (free : Int) (sta : sta_info) (plid : Nat) : plink_event × sta_info :=
  if free = 0 ∨ (sta.peer_lid ≠ 0 ∧ sta.peer_lid ≠ plid) then (OPN_IGNR, sta)
  else (OPN_ACPT, { sta with peer_lid := plid })

/-- The rule of section 4.5.2 for a CONFIRM frame, in the words of the
specification: `llid` and `plid` are the link IDs the frame carries. -/
def spec_confirm_event (free : Int) (sta : sta_info) (llid plid : Nat) : plink_event :=
  if free = 0 ∨ sta.my_lid ≠ llid ∨ sta.peer_lid ≠ plid then CNF_IGNR else CNF_ACPT

/-- The rule of section 4.5.2 for a CLOSE frame, in the words of the
specification: `plid` is the link ID the frame carries. -/
def spec_close_event (sta : sta_info) (plid : Nat) : plink_event :=
  if sta.plink_state = PLINK_ESTAB then CLS_ACPT
  else if sta.peer_lid ≠ plid then CLS_IGNR
  else CLS_ACPT

/-! ## Sample values -/

/-- A sample of the header constants, with the values of the hostap headers
(STA_HASH is the last byte of the address). -/
def hostap_defs : mesh_defs :=
  { WLAN_ACTION_SELF_PROTECTED := 15
    WPA_STA_WMM := 2
    WPA_STA_AUTHORIZED := 1
    sizeof_supported_rates := 32
    sizeof_aek := 32
    sizeof_mtk := 16
    STA_HASH := fun sta => byte_at sta 5
    plink_state_zero := PLINK_INVALID
    WPA_AUTHENTICATING := 4
    IEEE80211_HDRLEN := 24
    sizeof_auth := 6
    auth_frame_control := 176
    WLAN_AUTH_SAE := 3 }

/-- A sample SAE library that accepts every group and writes an empty commit. -/
def sample_sae_lib : sae_lib :=
  { sae_set_group := fun sae group => (0, { sae with group := group })
    sae_prepare_commit := fun _ _ _ sae => (0, sae)
    sae_write_commit := fun _ _ => [] }

/-- A sample interface with address 02:00:00:00:00:01, an empty peer table with
room for `max_num_sta` = 4 records, and a heap that never fails. -/
def sample_wpa_s : wpa_supplicant :=
  { own_addr := [2, 0, 0, 0, 0, 1]
    assoc_freq := 2412
    bss0 :=
      { sta_pool := []
        sta_list := []
        sta_hash := fun _ => []
        num_sta := 0
        max_num_sta := 4
        sae_groups := none }
    mesh_rsn := none
    current_ssid := none
    wpa_state := 0
    drv := []
    timeouts := []
    alloc_fail := fun _ => false
    alloc_count := 0 }

/-- The peer address 02:11:22:33:44:55 of scenario A. -/
def sample_peer : List Nat := [2, 0x11, 0x22, 0x33, 0x44, 0x55]

/-- Elements with eight basic rates and no extended rates. -/
def sample_elems : ieee802_11_elems :=
  { supp_rates := some [0x82, 0x84, 0x8b, 0x96, 0x0c, 0x12, 0x18, 0x24]
    ext_supp_rates := none }

/-- A sample record for the peer of scenario A in a given peering state, with
no link IDs assigned and no SAE session. -/
def sample_sta (state : mesh_plink_state) : sta_info :=
  { sta_info_zero hostap_defs with addr := sample_peer, plink_state := state }

/-! ## Statement vocabulary -/

/-- The driver call by which mesh_mpm_send_plink_action transmits the action
frame of a given subtype to a station: the frame body is the category followed
by the subtype. -/
def plink_frame_tx (K : mesh_defs) (wpa_s : wpa_supplicant) (sta : sta_info) (type : Nat) :
    drv_call :=
  drv_call.send_action wpa_s.assoc_freq 0 sta.addr wpa_s.own_addr wpa_s.own_addr
    [K.WLAN_ACTION_SELF_PROTECTED, type] 0

/-- The next heap allocation of the machine succeeds. -/
def next_alloc_ok (wpa_s : wpa_supplicant) : Prop :=
  wpa_s.alloc_fail wpa_s.alloc_count = false

/-- The next two heap allocations of the machine succeed. -/
def next_two_allocs_ok (wpa_s : wpa_supplicant) : Prop :=
  wpa_s.alloc_fail wpa_s.alloc_count = false ∧
    wpa_s.alloc_fail (wpa_s.alloc_count + 1) = false

/-- The sample interface with one record in its peer table: the record is
stored at pointer 0 and linked into the hash chain of its address. -/
def sample_wpa_s_with (r : sta_info) : wpa_supplicant :=
  { sample_wpa_s with
    bss0 :=
      { sta_pool := [r]
        sta_list := [0]
        sta_hash := fun h => if h = hostap_defs.STA_HASH r.addr then [0] else []
        num_sta := 1
        max_num_sta := 4
        sae_groups := none } }

/-- A received self-protected action frame from the sample peer with the given
action field, followed by four further bytes. -/
def sample_rx (action_field : Nat) : rx_action :=
  { sa := sample_peer, category := 15, data := [action_field, 0, 0, 0, 0] }

/-- A record on which no peering has taken place: no link ID is assigned, there
is no SAE session (hence no PMK), and the mtk is the zero-initialised buffer. -/
def sta_unpeered (K : mesh_defs) (sta : sta_info) : Prop :=
  sta.my_lid = 0 ∧ sta.peer_lid = 0 ∧ sta.sae = none ∧
    sta.mtk = List.replicate K.sizeof_mtk 0

/-! ## Key schedule of mesh_rsn.c and its specification -/

/-- Modelled from the spec: the constant AES_BLOCK_SIZE (crypto/aes.h is outside
src/) is the 16 of the 16-byte context, the 16-byte synthetic IV and the MIC
length of sections 4.1 to 4.3. -/
def AES_BLOCK_SIZE : Nat := 16

/-- The 16-byte context that mesh_rsn_derive_aek builds: the selector, then the
two addresses, the local one first when os_memcmp puts it before the peer's. -/
def mesh_rsn_aek_context (S : suite_defs) (rsn : mesh_rsn) (sta : sta_info) : List Nat :=
  let myaddr := rsn.auth_addr
  let peer := sta.addr
  let addrs :=
    if os_memcmp myaddr peer ETH_ALEN < 0 then (myaddr, peer) else (peer, myaddr)
  RSN_SELECTOR_PUT (S.wpa_cipher_to_suite 0 S.WPA_CIPHER_GCMP)
    ++ os_memcpy addrs.1 ETH_ALEN ++ os_memcpy addrs.2 ETH_ALEN

/-- The function mesh_rsn_derive_aek of mesh_rsn.c: the record with its aek
written; `none` is the read of `sta->sae->pmk` when the record has no
session. -/
def mesh_rsn_derive_aek (K : mesh_defs) (S : suite_defs) (C : crypto_lib)
    (rsn : mesh_rsn) (sta : sta_info) : Option sta_info :=
  let context := mesh_rsn_aek_context S rsn sta
  match sta.sae with
  | none => none
  | some sae =>
    some { sta with aek := C.sha256_prf sae.pmk ("AEK Derivation") context K.sizeof_aek }

/-- The lexicographically smaller of two byte strings, in the words of section
4.2 of the specification; of two equal strings, their common value. -/
def lex_min (a b : List Nat) : List Nat := if a < b then a else b

/-- The lexicographically larger of two byte strings, in the words of section
4.2 of the specification. -/
def lex_max (a b : List Nat) : List Nat := if a < b then b else a

/-- A 16-bit number as 2 big-endian bytes, in the words of section 4.2 of the
specification. -/
def be16 (n : Nat) : List Nat := [n / 256, n % 256]

/-- The AEK context of section 4.2 of the specification:
`suite_selector || min(M,P) || max(M,P)`. -/
def spec_aek_context (selector M P : List Nat) : List Nat :=
  selector ++ lex_min M P ++ lex_max M P

/-- The MTK context of section 4.2 of the specification:
`min(n_loc,n_peer) || max(n_loc,n_peer) || min(lid_loc,lid_peer) ||
max(lid_loc,lid_peer) || suite_selector || min(M,P) || max(M,P)`, the link IDs
in 2 big-endian bytes. -/
def spec_mtk_context (selector n_loc n_peer : List Nat) (lid_loc lid_peer : Nat)
    (M P : List Nat) : List Nat :=
  lex_min n_loc n_peer ++ lex_max n_loc n_peer
    ++ be16 (min lid_loc lid_peer) ++ be16 (max lid_loc lid_peer)
    ++ selector ++ lex_min M P ++ lex_max M P

/-- The record a station keeps for one peer, as far as the key schedule reads
it: the peer's address, the two nonces, the two link IDs and a session holding
the PMK; every other field is that of `base` and of `session`. -/
def peer_record (base : sta_info) (session : sae_data) (peer my_nonce peer_nonce : List Nat)
    (my_lid peer_lid : Nat) (pmk : List Nat) : sta_info :=
  { base with
    addr := peer
    my_nonce := my_nonce
    peer_nonce := peer_nonce
    my_lid := my_lid
    peer_lid := peer_lid
    sae := some { session with pmk := pmk } }

/-- A sample of the cipher suite constants, with the values of the hostap
headers: CCMP is bit 4, GCMP bit 6, RSN protocol bit 1; the selectors are
00-0F-AC:4 (RSN CCMP), 00-50-F2:4 (WPA CCMP) and 00-0F-AC:8 (GCMP). -/
def hostap_suites : suite_defs :=
  { WPA_CIPHER_GCMP := 64
    WPA_CIPHER_CCMP := 16
    WPA_PROTO_RSN := 2
    wpa_cipher_to_suite := fun proto cipher =>
      if cipher = 16 then (if proto = 2 then 0x000FAC04 else 0x0050F204)
      else if cipher = 64 then 0x000FAC08
      else 0 }

/-- A sample PRF for concrete evaluation: it returns the first bytes of the key
followed by the context. It is not SHA-256. -/
def sample_crypto : crypto_lib :=
  { sha256_prf := fun key _ data n => os_memcpy (key ++ data) n }

/-- The RSN context of the sample interface: its own address, a group key of
sixteen bytes 0xaa, no anti-clogging token, group cursor 0. -/
def sample_rsn : mesh_rsn :=
  { auth_addr := [2, 0, 0, 0, 0, 1]
    mgtk := List.replicate 16 0xaa
    sae_token := none
    sae_group_index := 0 }

/-- A sample record of the sample peer after an SAE exchange: local nonce of
32 bytes 7, peer nonce of 32 bytes 5, link IDs 0x0102 and 0x00ff, and a session
holding a PMK of 32 bytes 9. -/
def sample_keyed_sta : sta_info :=
  peer_record (sample_sta PLINK_LISTEN) { sae_data_zero with state := SAE_ACCEPTED }
    sample_peer (List.replicate 32 7) (List.replicate 32 5) 0x0102 0x00ff (List.replicate 32 9)

/-! ## AMPE frame codec of mesh_rsn.c -/

/-- Element IDs and error numbers that mesh_rsn.c takes from headers outside
src/ (ieee802_11_defs.h, errno.h). -/
structure ampe_defs where
  WLAN_EID_AMPE : Nat
  WLAN_EID_MIC : Nat
  EINVAL : Int
  ENOMEM : Int

/-- The AES-SIV library (crypto/aes_siv.h, outside src/) as the mesh code calls
it, with three AAD components: the key, the input, the AAD components; each
function returns its status and the bytes it leaves in its output buffer. -/
structure aes_siv_lib where
  aes_siv_encrypt : List Nat → List Nat → List (List Nat) → Int × List Nat
  aes_siv_decrypt : List Nat → List Nat → List (List Nat) → Int × List Nat

/-- Modelled from the spec: the size of struct ieee80211_ampe_ie
(ieee802_11_defs.h is outside src/), the AMPE payload of section 4.3:
selected pairwise suite (4), local nonce (32), peer nonce (32), MGTK (16), key
RSC (8), key expiration (4). -/
def sizeof_ampe_ie : Nat := 4 + 32 + 32 + 16 + 8 + 4

/-- Modelled from the spec: a frame buffer under construction (utils/wpabuf.h is
outside src/): its capacity and the bytes written so far. -/
structure wpabuf where
  size : Nat
  data : List Nat
  deriving DecidableEq, Repr

/-- Modelled from the spec: the room left in a frame buffer. -/
def wpabuf_tailroom (buf : wpabuf) : Nat := buf.size - buf.data.length

/-- Modelled from the spec: wpabuf_put and wpabuf_put_data append bytes to the
buffer; `none` is the abort on a buffer without enough room. -/
def wpabuf_put_data (buf : wpabuf) (d : List Nat) : Option wpabuf :=
  if d.length > wpabuf_tailroom buf then none
  else some { buf with data := buf.data ++ d }

/-- The plaintext AMPE element that mesh_rsn_protect_frame builds in `ampe_ie`:
the two header bytes and the fields of struct ieee80211_ampe_ie in the order
of section 4.3; the key RSC is left as os_zalloc zeroed it. -/
def ampe_ie_plain (A : ampe_defs) (S : suite_defs) (rsn : mesh_rsn) (sta : sta_info) :
    List Nat :=
  [A.WLAN_EID_AMPE, sizeof_ampe_ie]
    ++ RSN_SELECTOR_PUT (S.wpa_cipher_to_suite S.WPA_PROTO_RSN S.WPA_CIPHER_CCMP)
    ++ os_memcpy sta.my_nonce 32
    ++ os_memcpy sta.peer_nonce 32
    ++ os_memcpy rsn.mgtk 16
    ++ List.replicate 8 0
    ++ List.replicate 4 0xff

/-- The three AAD components of mesh_rsn_protect_frame: the local address, the
peer's address, and the buffer from the category byte (offset `cat`) to its end
at entry, which is where the MIC element is put. -/
def protect_frame_aad (rsn : mesh_rsn) (sta : sta_info) (cat : Nat) (buf : wpabuf) :
    List (List Nat) :=
  [os_memcpy rsn.auth_addr ETH_ALEN, os_memcpy sta.addr ETH_ALEN,
   os_memcpy (buf.data.drop cat) (buf.data.length - cat)]

/-- The function mesh_rsn_protect_frame of mesh_rsn.c: the status, the machine
(two allocations) and the buffer. `cat` is the offset of the category byte in
the buffer. The result `none` is a category pointer behind the end of the
buffer, whose AAD length wraps around. -/
def mesh_rsn_protect_frame (A : ampe_defs) (S : suite_defs) (V : aes_siv_lib)
    (wpa_s : wpa_supplicant) (rsn : mesh_rsn) (sta : sta_info) (cat : Nat) (buf : wpabuf) :
    Option (Int × wpa_supplicant × wpabuf) :=
  let ie := buf.data.length
  if AES_BLOCK_SIZE + 2 + sizeof_ampe_ie + 2 > wpabuf_tailroom buf then
    some (-A.EINVAL, wpa_s, buf)
  else
    let (ok1, wpa_s1) := os_alloc wpa_s
    if !ok1 then some (-A.ENOMEM, wpa_s1, buf)
    else
      let (ok2, wpa_s2) := os_alloc wpa_s1
      if !ok2 then some (-A.ENOMEM, wpa_s2, buf)
      else
        let ampe_ie := ampe_ie_plain A S rsn sta
        let mic_ie := [A.WLAN_EID_MIC, AES_BLOCK_SIZE]
        match wpabuf_put_data buf mic_ie with
        | none => none
        | some buf1 =>
          if cat > ie then none
          else
            let r := V.aes_siv_encrypt sta.aek ampe_ie (protect_frame_aad rsn sta cat buf)
            let mic_payload := os_memcpy r.2 (2 + sizeof_ampe_ie + AES_BLOCK_SIZE)
            match wpabuf_put_data buf1 mic_payload with
            | none => none
            | some buf2 =>
              if r.1 ≠ 0 then some (-A.ENOMEM, wpa_s2, buf2)
              else some (0, wpa_s2, buf2)

/-- The region `crypt` that mesh_rsn_process_ampe copies out of the frame: the
`crypt_len` bytes from the MIC payload on. -/
def process_ampe_crypt (frame : List Nat) (mic crypt_len : Nat) : List Nat :=
  os_memcpy (frame.drop mic) crypt_len

/-- The three AAD components of mesh_rsn_process_ampe: the sender's address
(the address of the record), the local address, and the frame from the category
byte (offset `cat`) up to the header of the MIC element (offset `mic - 2`). -/
def process_ampe_aad (rsn : mesh_rsn) (sta : sta_info) (frame : List Nat) (cat mic : Nat) :
    List (List Nat) :=
  [os_memcpy sta.addr ETH_ALEN, os_memcpy rsn.auth_addr ETH_ALEN,
   os_memcpy (frame.drop cat) (mic - 2 - cat)]

/-- The field `local_nonce` of the AMPE element in the plaintext buffer. -/
def ampe_local_nonce (ampe_buf : List Nat) : List Nat := os_memcpy (ampe_buf.drop (2 + 4)) 32

/-- The field `peer_nonce` of the AMPE element in the plaintext buffer. -/
def ampe_peer_nonce (ampe_buf : List Nat) : List Nat :=
  os_memcpy (ampe_buf.drop (2 + 4 + 32)) 32

/-- The field `mgtk` of the AMPE element in the plaintext buffer. -/
def ampe_mgtk (ampe_buf : List Nat) : List Nat :=
  os_memcpy (ampe_buf.drop (2 + 4 + 32 + 32)) 16

/-- The function mesh_rsn_process_ampe of mesh_rsn.c: the status, the machine
(two allocations) and the record. `frame` is the memory holding the received
frame; `cat`, `start` and the MIC pointer of `elems` are offsets into it, and
`elems_len` is the length of the element region that begins at `start`, so
that `crypt_len = elems_len - (elems->mic - start)` is the distance from the
MIC payload to the end of the region. The result `none` stands for: a NULL
`wpa_s->mesh_rsn`; lengths that wrap around (an element region that ends before
the MIC payload, a category byte behind the MIC header); a read of the AMPE
fields past the end of the plaintext buffer, which has `crypt_len` bytes. -/
def mesh_rsn_process_ampe (A : ampe_defs) (V : aes_siv_lib) (wpa_s : wpa_supplicant)
    (sta : sta_info) (elems : ieee802_11_elems) (frame : List Nat)
    (cat start elems_len : Nat) : Option (Int × wpa_supplicant × sta_info) :=
  let null_nonce := List.replicate 32 0
  match wpa_s.mesh_rsn with
  | none => none
  | some rsn =>
    match elems.mic with
    | none => some (-1, wpa_s, sta)
    | some mic =>
      if elems.mic_len < AES_BLOCK_SIZE then some (-1, wpa_s, sta)
      else if start + elems_len < mic then none
      else
        let crypt_len := start + elems_len - mic
        if crypt_len < 2 then some (-1, wpa_s, sta)
        else
          let (ok1, wpa_s1) := os_alloc wpa_s
          if !ok1 then some (-A.ENOMEM, wpa_s1, sta)
          else
            let (ok2, wpa_s2) := os_alloc wpa_s1
            if !ok2 then some (-A.ENOMEM, wpa_s2, sta)
            else
              let crypt := process_ampe_crypt frame mic crypt_len
              if mic < cat + 2 then none
              else
                let r := V.aes_siv_decrypt sta.aek crypt (process_ampe_aad rsn sta frame cat mic)
                if r.1 ≠ 0 then some (-1, wpa_s2, sta)
                else
                  let ampe_buf := os_memcpy r.2 crypt_len
                  let ampe_eid := byte_at ampe_buf 0
                  let ampe_ie_len := byte_at ampe_buf 1
                  if ampe_eid ≠ A.WLAN_EID_AMPE ∨ ampe_ie_len < sizeof_ampe_ie then
                    some (-1, wpa_s2, sta)
                  else if crypt_len < 2 + 4 + 32 + 32 then none
                  else if os_memcmp (ampe_peer_nonce ampe_buf) null_nonce 32 ≠ 0 ∧
                      os_memcmp (ampe_peer_nonce ampe_buf) sta.my_nonce 32 ≠ 0 then
                    some (-1, wpa_s2, sta)
                  else if crypt_len < 2 + 4 + 32 + 32 + 16 then none
                  else
                    some (0, wpa_s2,
                      { sta with
                        peer_nonce := ampe_local_nonce ampe_buf
                        mgtk := ampe_mgtk ampe_buf })

/-- The status that aes_siv_encrypt returns to mesh_rsn_protect_frame. -/
def protect_frame_status (A : ampe_defs) (S : suite_defs) (V : aes_siv_lib) (rsn : mesh_rsn)
    (sta : sta_info) (cat : Nat) (buf : wpabuf) : Int :=
  (V.aes_siv_encrypt sta.aek (ampe_ie_plain A S rsn sta) (protect_frame_aad rsn sta cat buf)).1

/-- The output that aes_siv_encrypt leaves for mesh_rsn_protect_frame: the
synthetic IV followed by the encrypted AMPE element. -/
def protect_frame_ct (A : ampe_defs) (S : suite_defs) (V : aes_siv_lib) (rsn : mesh_rsn)
    (sta : sta_info) (cat : Nat) (buf : wpabuf) : List Nat :=
  (V.aes_siv_encrypt sta.aek (ampe_ie_plain A S rsn sta) (protect_frame_aad rsn sta cat buf)).2

/-- The machine after its next two heap allocations. -/
def after_two_allocs (wpa_s : wpa_supplicant) : wpa_supplicant :=
  { wpa_s with alloc_count := wpa_s.alloc_count + 1 + 1 }

/-- A sample of the element IDs and error numbers: AMPE is element 139, MIC
element 140, EINVAL 22 and ENOMEM 12. -/
def hostap_ampe_defs : ampe_defs :=
  { WLAN_EID_AMPE := 139, WLAN_EID_MIC := 140, EINVAL := 22, ENOMEM := 12 }

/-- The 16-byte tag of the sample AES-SIV stand-in: a byte sum of the key, the
input and the AAD components, followed by fifteen zero bytes. -/
def sample_siv_tag (key pw : List Nat) (aad : List (List Nat)) : List Nat :=
  ((key.sum + pw.sum + (aad.map List.sum).sum) % 256) :: List.replicate 15 0

/-- A stand-in for AES-SIV, for concrete evaluation only: the output is the tag
followed by the input unchanged; decryption checks the tag. It is not a
cipher. -/
def sample_siv : aes_siv_lib :=
  { aes_siv_encrypt := fun key pw aad => (0, sample_siv_tag key pw aad ++ pw)
    aes_siv_decrypt := fun key c aad =>
      if c.length < 16 then (-1, [])
      else if c.take 16 = sample_siv_tag key (c.drop 16) aad then (0, c.drop 16)
      else (-1, []) }

/-- A sample frame buffer: category SELF_PROTECTED, action OPEN, two further
bytes, and room for 200 bytes in all. -/
def sample_buf : wpabuf := { size := 200, data := [15, 1, 0, 0] }

/-- A sample sender record: the record station 02:00:00:00:00:01 keeps for the
sample peer, with an AEK of 32 bytes 3, local nonce of 32 bytes 7 and no peer
nonce yet. -/
def sample_sender_sta : sta_info :=
  { sample_sta PLINK_LISTEN with
    aek := List.replicate 32 3
    my_nonce := List.replicate 32 7 }

/-- The record the sample peer keeps for station 02:00:00:00:00:01: the same
AEK, local nonce of 32 bytes 5. -/
def sample_receiver_sta : sta_info :=
  { sample_sta PLINK_LISTEN with
    addr := [2, 0, 0, 0, 0, 1]
    aek := List.replicate 32 3
    my_nonce := List.replicate 32 5 }

/-- The interface of the sample peer 02:11:22:33:44:55, with its RSN context
and a group key of sixteen bytes 0xbb. -/
def sample_receiver_wpa_s : wpa_supplicant :=
  { sample_wpa_s with
    own_addr := sample_peer
    mesh_rsn := some { auth_addr := sample_peer, mgtk := List.replicate 16 0xbb,
                       sae_token := none, sae_group_index := 0 } }

/-- The frame the sample sender builds: the sample buffer after
mesh_rsn_protect_frame, category byte at offset 0. -/
def sample_frame : List Nat :=
  match mesh_rsn_protect_frame hostap_ampe_defs hostap_suites sample_siv sample_wpa_s sample_rsn
      sample_sender_sta 0 sample_buf with
  | some (_, _, buf) => buf.data
  | none => []

/-- The element view of the sample frame at the receiver: no rates, the MIC
payload at offset 6 (after the four bytes of the sample buffer and the
two-byte MIC header), MIC length 16. -/
def sample_rx_elems : ieee802_11_elems :=
  { supp_rates := none, ext_supp_rates := none, mic := some 6, mic_len := 16 }

/-- The RSN context of the sample peer 02:11:22:33:44:55. -/
def sample_receiver_rsn : mesh_rsn :=
  { auth_addr := sample_peer, mgtk := List.replicate 16 0xbb,
    sae_token := none, sae_group_index := 0 }

/-! ## The authentication timer over several ticks -/

/-- The machine after n expiries of the authentication timer of the station at
pointer p, with nothing else happening in between (the peer never answers). -/
def mesh_auth_timer_ticks (K : mesh_defs) (L : sae_lib) (p : Nat) :
    Nat → wpa_supplicant → Option wpa_supplicant
  | 0, wpa_s => some wpa_s
  | n + 1, wpa_s =>
    (mesh_auth_timer_ticks K L p n wpa_s).bind (fun w => mesh_auth_timer K L w (some p))

/-- The status mesh_rsn_auth_sae_sta returns when called in machine `wpa_s` for
the station at pointer p (`none` when the call does not return). -/
def auth_start_status (K : mesh_defs) (L : sae_lib) (wpa_s : wpa_supplicant) (p : Nat) :
    Option Int :=
  (sta_deref wpa_s.bss0 p).bind
    (fun sta => (mesh_rsn_auth_sae_sta K L wpa_s p sta).map (fun r => r.1))

/-- A fresh record of the sample peer on which authentication has just been
started: session in COMMITTED, no retry counted. -/
def sample_auth_sta : sta_info :=
  { sample_sta PLINK_LISTEN with
    sae := some { sae_data_zero with state := SAE_COMMITTED }
    sae_auth_retry := 0 }

/-- The sample interface as a secured mesh with a passphrase, SAE group list
19 and the record sample_auth_sta at pointer 0. -/
def sample_auth_wpa_s : wpa_supplicant :=
  { sample_wpa_s_with sample_auth_sta with
    bss0 := { (sample_wpa_s_with sample_auth_sta).bss0 with sae_groups := some [19, -1] }
    mesh_rsn := some sample_rsn
    current_ssid := some { passphrase := some [0x73, 0x65, 0x63, 0x72, 0x65, 0x74], mode := 5 } }

/-- The AUTH frames in a driver log. -/
def auth_frames (drv : List drv_call) : List auth_frame :=
  drv.filterMap (fun c => match c with
    | drv_call.send_mlme frame _ _ => some frame
    | _ => none)

/-! ## Statement vocabulary of the SAE group selection -/

/-- The machine with the group cursor `mesh_rsn->sae_group_index` of its RSN
context `rsn` set to idx. -/
def set_sae_group_index (wpa_s : wpa_supplicant) (rsn : mesh_rsn) (idx : Int) :
    wpa_supplicant :=
  { wpa_s with mesh_rsn := some { rsn with sae_group_index := idx } }

/-- The machine after a reconfiguration of the SAE group list
`conf->sae_groups`. -/
def set_sae_groups (wpa_s : wpa_supplicant) (groups : List Int) : wpa_supplicant :=
  { wpa_s with bss0 := { wpa_s.bss0 with sae_groups := some groups } }

/-- The session after sae_set_group has been called on it for each group of a
list in turn. -/
def sae_after (L : sae_lib) : sae_data → List Int → sae_data
  | sae, [] => sae
  | sae, g :: l => sae_after L (L.sae_set_group sae g).2 l

/-- Every group of the list is non-negative and is rejected by sae_set_group
when the groups are tried in turn on the session. -/
def sae_rejects (L : sae_lib) : sae_data → List Int → Prop
  | _, [] => True
  | sae, g :: l =>
    0 ≤ g ∧ (L.sae_set_group sae g).1 ≠ 0 ∧ sae_rejects L (L.sae_set_group sae g).2 l

/-- A sample SAE library that does not support group 19 and accepts every
other group. -/
def sample_sae_lib_no19 : sae_lib :=
  { sae_set_group := fun sae group =>
      if group = 19 then (-1, sae) else (0, { sae with group := group })
    sae_prepare_commit := fun _ _ _ sae => (0, sae)
    sae_write_commit := fun _ _ => [] }

/-- The sample interface with an RSN context, a given SAE group list and a
given group cursor. -/
def sample_group_wpa_s (groups : List Int) (cursor : Int) : wpa_supplicant :=
  set_sae_group_index (set_sae_groups sample_wpa_s groups) sample_rsn cursor

/-! ## Statement vocabulary of the peer table -/

/-- A well-formed peer table: every listed pointer is valid, every record in a
hash chain is listed, every listed record has a 6-byte address and is in the
hash chain of its address, and no two listed records have the same address. -/
def peer_table_ok (K : mesh_defs) (data : hostapd_data) : Prop :=
  (∀ p ∈ data.sta_list, p < data.sta_pool.length) ∧
  (∀ h, ∀ p ∈ data.sta_hash h, p ∈ data.sta_list) ∧
  (∀ p ∈ data.sta_list, ∀ r, sta_deref data p = some r →
    r.addr.length = 6 ∧ p ∈ data.sta_hash (K.STA_HASH r.addr)) ∧
  (∀ p ∈ data.sta_list, ∀ q ∈ data.sta_list, ∀ r1 r2,
    sta_deref data p = some r1 → sta_deref data q = some r2 → r1.addr = r2.addr → p = q)

/-- A run of mesh_sta_add calls, one for each address of a list in turn. -/
def mesh_sta_add_run (K : mesh_defs) : wpa_supplicant → List (List Nat) → Option wpa_supplicant
  | wpa_s, [] => some wpa_s
  | wpa_s, addr :: rest =>
    match mesh_sta_add K wpa_s addr with
    | none => none
    | some (_, wpa_s1) => mesh_sta_add_run K wpa_s1 rest

/-- An AMPE element cut short: the header (EID AMPE, length 96) followed by
sixteen zero bytes, 18 bytes in all. -/
def sample_short_plain : List Nat := [139, 96] ++ List.replicate 16 0

/-- A frame for the sample peer from station 02:00:00:00:00:01 that carries the
short element: the four bytes of the sample buffer, the MIC header, and the 34
bytes the stand-in cipher gives for the short element under the shared AEK and
the AAD of the frame. -/
def sample_short_frame : List Nat :=
  sample_buf.data ++ [140, 16] ++
    (sample_siv.aes_siv_encrypt sample_receiver_sta.aek sample_short_plain
      [[2, 0, 0, 0, 0, 1], sample_peer, sample_buf.data]).2

/-! ## Lemmas on sending -/

theorem mesh_mpm_send_plink_action_sent (K : mesh_defs) (wpa_s : wpa_supplicant)
    (sta : sta_info) (type reason : Nat) (h : next_alloc_ok wpa_s) :
    mesh_mpm_send_plink_action K wpa_s sta type reason =
      { wpa_s with
        alloc_count := wpa_s.alloc_count + 1
        drv := wpa_s.drv ++ [plink_frame_tx K wpa_s sta type] } := by
  unfold next_alloc_ok at h
  simp [mesh_mpm_send_plink_action, os_alloc, h, wpa_drv_send_action, plink_frame_tx]

/-! ## The peering state machine -/

/-- C1 (as the code behaves): for every peer record in state LISTEN, when the
two frame buffers can be allocated, mesh_mpm_fsm applied to OPN_ACPT transmits
exactly one OPEN and then exactly one CONFIRM action frame, and returns the
record unchanged: plink_state is still LISTEN, not OPEN_SENT. -/
theorem mesh_mpm_fsm_listen_opn_acpt (K : mesh_defs) (wpa_s : wpa_supplicant)
    (sta : sta_info) (hst : sta.plink_state = PLINK_LISTEN)
    (hmem : next_two_allocs_ok wpa_s) :
    (mesh_mpm_fsm K wpa_s sta OPN_ACPT).1.drv =
        wpa_s.drv ++ [plink_frame_tx K wpa_s sta PLINK_OPEN,
                      plink_frame_tx K wpa_s sta PLINK_CONFIRM] ∧
      (mesh_mpm_fsm K wpa_s sta OPN_ACPT).2 = sta ∧
      (mesh_mpm_fsm K wpa_s sta OPN_ACPT).2.plink_state = PLINK_LISTEN ∧
      (mesh_mpm_fsm K wpa_s sta OPN_ACPT).2.plink_state ≠ PLINK_OPEN_SENT := by
  obtain ⟨h1, h2⟩ := hmem
  have e1 := mesh_mpm_send_plink_action_sent K wpa_s sta PLINK_OPEN 0 h1
  unfold mesh_mpm_fsm
  simp only [hst]
  rw [e1]
  rw [mesh_mpm_send_plink_action_sent K _ sta PLINK_CONFIRM 0 (by exact h2)]
  simp [plink_frame_tx, hst]

/-- Scenario A, second step, on the code: the record of peer 02:11:22:33:44:55
in LISTEN receives OPN_ACPT; OPEN and CONFIRM go out and the record stays in
LISTEN. -/
theorem mesh_mpm_fsm_listen_opn_acpt_witness :
    (sample_sta PLINK_LISTEN).plink_state = PLINK_LISTEN ∧
    next_two_allocs_ok sample_wpa_s ∧
    (mesh_mpm_fsm hostap_defs sample_wpa_s (sample_sta PLINK_LISTEN) OPN_ACPT).1.drv =
        sample_wpa_s.drv ++
          [plink_frame_tx hostap_defs sample_wpa_s (sample_sta PLINK_LISTEN) PLINK_OPEN,
           plink_frame_tx hostap_defs sample_wpa_s (sample_sta PLINK_LISTEN) PLINK_CONFIRM] ∧
    (mesh_mpm_fsm hostap_defs sample_wpa_s (sample_sta PLINK_LISTEN) OPN_ACPT).2.plink_state
      = PLINK_LISTEN :=
  have h := mesh_mpm_fsm_listen_opn_acpt hostap_defs sample_wpa_s (sample_sta PLINK_LISTEN)
    rfl ⟨rfl, rfl⟩
  ⟨rfl, ⟨rfl, rfl⟩, h.1, h.2.2.1⟩

/-- C7: for every plink_state (every record) and each of the events OPN_IGNR,
CNF_IGNR and CLS_IGNR, mesh_mpm_fsm returns the machine and the record as they
were: plink_state is unchanged and no action frame is transmitted. -/
theorem mesh_mpm_fsm_ignr (K : mesh_defs) (wpa_s : wpa_supplicant) (sta : sta_info) :
    mesh_mpm_fsm K wpa_s sta OPN_IGNR = (wpa_s, sta) ∧
    mesh_mpm_fsm K wpa_s sta CNF_IGNR = (wpa_s, sta) ∧
    mesh_mpm_fsm K wpa_s sta CLS_IGNR = (wpa_s, sta) ∧
    (∀ ev, ev = OPN_IGNR ∨ ev = CNF_IGNR ∨ ev = CLS_IGNR →
      (mesh_mpm_fsm K wpa_s sta ev).2.plink_state = sta.plink_state ∧
      (mesh_mpm_fsm K wpa_s sta ev).1.drv = wpa_s.drv) := by
  have h1 : mesh_mpm_fsm K wpa_s sta OPN_IGNR = (wpa_s, sta) := by
    unfold mesh_mpm_fsm; cases sta.plink_state <;> rfl
  have h2 : mesh_mpm_fsm K wpa_s sta CNF_IGNR = (wpa_s, sta) := by
    unfold mesh_mpm_fsm; cases sta.plink_state <;> rfl
  have h3 : mesh_mpm_fsm K wpa_s sta CLS_IGNR = (wpa_s, sta) := by
    unfold mesh_mpm_fsm; cases sta.plink_state <;> rfl
  refine ⟨h1, h2, h3, ?_⟩
  intro ev hev
  rcases hev with h | h | h <;> subst h
  · rw [h1]; exact ⟨rfl, rfl⟩
  · rw [h2]; exact ⟨rfl, rfl⟩
  · rw [h3]; exact ⟨rfl, rfl⟩

/-- C9: teardown transitions. For every peer in OPEN_SENT, OPEN_RCVD or
CNF_RCVD and every event among OPN_RJCT, CNF_RJCT and CLS_ACPT, and for every
peer in ESTAB with event CLS_ACPT, mesh_mpm_fsm (the frame buffer being
allocated) sets plink_state to HOLDING, changes nothing else in the record, and
transmits exactly one CLOSE frame and no other frame. -/
theorem mesh_mpm_fsm_teardown (K : mesh_defs) (wpa_s : wpa_supplicant) (sta : sta_info)
    (ev : plink_event) (hmem : next_alloc_ok wpa_s)
    (h : ((sta.plink_state = PLINK_OPEN_SENT ∨ sta.plink_state = PLINK_OPEN_RCVD ∨
            sta.plink_state = PLINK_CNF_RCVD) ∧
          (ev = OPN_RJCT ∨ ev = CNF_RJCT ∨ ev = CLS_ACPT)) ∨
         (sta.plink_state = PLINK_ESTAB ∧ ev = CLS_ACPT)) :
    (mesh_mpm_fsm K wpa_s sta ev).2 = { sta with plink_state := PLINK_HOLDING } ∧
      (mesh_mpm_fsm K wpa_s sta ev).1.drv =
        wpa_s.drv ++ [plink_frame_tx K wpa_s sta PLINK_CLOSE] := by
  have e := fun s => mesh_mpm_send_plink_action_sent K wpa_s s PLINK_CLOSE 0 hmem
  rcases h with ⟨hs, he⟩ | ⟨hs, he⟩
  · rcases hs with hs | hs | hs <;> rcases he with he | he | he <;> subst he <;>
      unfold mesh_mpm_fsm <;> simp only [hs] <;> rw [e] <;> simp [plink_frame_tx]
  · subst he
    unfold mesh_mpm_fsm
    simp only [hs]
    rw [e]
    simp [plink_frame_tx]

/-- Teardown at a concrete input: the sample peer in CNF_RCVD receives
CNF_RJCT. -/
theorem mesh_mpm_fsm_teardown_witness :
    next_alloc_ok sample_wpa_s ∧
    (mesh_mpm_fsm hostap_defs sample_wpa_s (sample_sta PLINK_CNF_RCVD) CNF_RJCT).2 =
      sample_sta PLINK_HOLDING ∧
    (mesh_mpm_fsm hostap_defs sample_wpa_s (sample_sta PLINK_CNF_RCVD) CNF_RJCT).1.drv =
      [plink_frame_tx hostap_defs sample_wpa_s (sample_sta PLINK_CNF_RCVD) PLINK_CLOSE] :=
  have h := mesh_mpm_fsm_teardown hostap_defs sample_wpa_s (sample_sta PLINK_CNF_RCVD)
    CNF_RJCT rfl (Or.inl ⟨Or.inr (Or.inr rfl), Or.inr (Or.inl rfl)⟩)
  ⟨rfl, h.1, h.2⟩

/-- C10: handshake progress. With the frame buffer allocated, mesh_mpm_fsm
takes OPEN_SENT + OPN_ACPT to OPEN_RCVD with exactly one CONFIRM sent,
OPEN_SENT + CNF_ACPT to CNF_RCVD with no frame sent, OPEN_RCVD + CNF_ACPT to
ESTAB with no frame sent, CNF_RCVD + OPN_ACPT to ESTAB with exactly one CONFIRM
sent, and on CNF_RCVD + CNF_ACPT it changes nothing and sends nothing. Where
no frame is sent the machine is returned as it was. -/
theorem mesh_mpm_fsm_progress (K : mesh_defs) (wpa_s : wpa_supplicant) (sta : sta_info)
    (hmem : next_alloc_ok wpa_s) :
    (sta.plink_state = PLINK_OPEN_SENT →
      (mesh_mpm_fsm K wpa_s sta OPN_ACPT).2 = { sta with plink_state := PLINK_OPEN_RCVD } ∧
      (mesh_mpm_fsm K wpa_s sta OPN_ACPT).1.drv =
        wpa_s.drv ++ [plink_frame_tx K wpa_s sta PLINK_CONFIRM]) ∧
    (sta.plink_state = PLINK_OPEN_SENT →
      mesh_mpm_fsm K wpa_s sta CNF_ACPT =
        (wpa_s, { sta with plink_state := PLINK_CNF_RCVD })) ∧
    (sta.plink_state = PLINK_OPEN_RCVD →
      mesh_mpm_fsm K wpa_s sta CNF_ACPT =
        (wpa_s, { sta with plink_state := PLINK_ESTAB })) ∧
    (sta.plink_state = PLINK_CNF_RCVD →
      (mesh_mpm_fsm K wpa_s sta OPN_ACPT).2 = { sta with plink_state := PLINK_ESTAB } ∧
      (mesh_mpm_fsm K wpa_s sta OPN_ACPT).1.drv =
        wpa_s.drv ++ [plink_frame_tx K wpa_s sta PLINK_CONFIRM]) ∧
    (sta.plink_state = PLINK_CNF_RCVD →
      mesh_mpm_fsm K wpa_s sta CNF_ACPT = (wpa_s, sta)) := by
  have e := fun s => mesh_mpm_send_plink_action_sent K wpa_s s PLINK_CONFIRM 0 hmem
  refine ⟨?_, ?_, ?_, ?_, ?_⟩ <;> intro hs <;> unfold mesh_mpm_fsm <;> simp only [hs]
  · rw [e]; simp [plink_frame_tx]
  · rw [e]; simp [plink_frame_tx]

/-- Handshake progress at concrete inputs: the sample peer in OPEN_SENT,
OPEN_RCVD and CNF_RCVD. -/
theorem mesh_mpm_fsm_progress_witness :
    next_alloc_ok sample_wpa_s ∧
    (mesh_mpm_fsm hostap_defs sample_wpa_s (sample_sta PLINK_OPEN_SENT) OPN_ACPT).2 =
      sample_sta PLINK_OPEN_RCVD ∧
    (mesh_mpm_fsm hostap_defs sample_wpa_s (sample_sta PLINK_OPEN_SENT) OPN_ACPT).1.drv =
      [plink_frame_tx hostap_defs sample_wpa_s (sample_sta PLINK_OPEN_SENT) PLINK_CONFIRM] ∧
    mesh_mpm_fsm hostap_defs sample_wpa_s (sample_sta PLINK_OPEN_SENT) CNF_ACPT =
      (sample_wpa_s, sample_sta PLINK_CNF_RCVD) ∧
    mesh_mpm_fsm hostap_defs sample_wpa_s (sample_sta PLINK_OPEN_RCVD) CNF_ACPT =
      (sample_wpa_s, sample_sta PLINK_ESTAB) ∧
    (mesh_mpm_fsm hostap_defs sample_wpa_s (sample_sta PLINK_CNF_RCVD) OPN_ACPT).2 =
      sample_sta PLINK_ESTAB ∧
    mesh_mpm_fsm hostap_defs sample_wpa_s (sample_sta PLINK_CNF_RCVD) CNF_ACPT =
      (sample_wpa_s, sample_sta PLINK_CNF_RCVD) :=
  have a := mesh_mpm_fsm_progress hostap_defs sample_wpa_s (sample_sta PLINK_OPEN_SENT) rfl
  have b := mesh_mpm_fsm_progress hostap_defs sample_wpa_s (sample_sta PLINK_OPEN_RCVD) rfl
  have c := mesh_mpm_fsm_progress hostap_defs sample_wpa_s (sample_sta PLINK_CNF_RCVD) rfl
  ⟨rfl, (a.1 rfl).1, (a.1 rfl).2, a.2.1 rfl, b.2.2.1 rfl, (c.2.2.2.1 rfl).1, c.2.2.2.2 rfl⟩

/-! ## Lemmas on the peer table and on frame reception -/

theorem sta_deref_lt (data : hostapd_data) (p : Nat) (sta : sta_info)
    (h : sta_deref data p = some sta) : p < data.sta_pool.length := by
  unfold sta_deref at h
  by_contra hlt
  rw [List.getElem?_eq_none (Nat.le_of_not_lt hlt)] at h
  cases h

theorem sta_deref_store (data : hostapd_data) (p : Nat) (sta sta1 : sta_info)
    (h : sta_deref data p = some sta) : sta_deref (sta_store data p sta1) p = some sta1 := by
  have hlt := sta_deref_lt data p sta h
  simp [sta_deref, sta_store, hlt]

theorem mesh_mpm_action_rx_dispatch (K : mesh_defs) (wpa_s : wpa_supplicant)
    (rx : rx_action) (p : Nat) (sta sta1 : sta_info) (ev : plink_event)
    (hcat : rx.category = K.WLAN_ACTION_SELF_PROTECTED) (hlen : 5 ≤ rx.data.length)
    (hget : mesh_get_sta K wpa_s.bss0 rx.sa = some (some p))
    (hsta : sta_deref wpa_s.bss0 p = some sta)
    (hnb : sta.plink_state ≠ PLINK_BLOCKED)
    (hev : mesh_mpm_action_rx_event sta (byte_at rx.data 0) = some (ev, sta1)) :
    mesh_mpm_action_rx K wpa_s rx = some (mesh_mpm_fsm_at K wpa_s p sta1 ev) := by
  have hl : ¬ rx.data.length < 1 + 2 + 2 := by omega
  unfold mesh_mpm_action_rx
  simp only [hcat, ne_eq, not_true_eq_false, if_false, hl, hget, hsta, hnb, hev]

theorem mesh_mpm_fsm_close_eq (K : mesh_defs) (wpa_s : wpa_supplicant) (sta : sta_info)
    (hst : sta.plink_state = PLINK_ESTAB) (hmem : next_alloc_ok wpa_s) :
    mesh_mpm_fsm K wpa_s sta CLS_ACPT =
      ({ wpa_s with
          alloc_count := wpa_s.alloc_count + 1
          drv := wpa_s.drv ++ [plink_frame_tx K wpa_s sta PLINK_CLOSE] },
       { sta with plink_state := PLINK_HOLDING }) := by
  unfold mesh_mpm_fsm
  simp only [hst]
  rw [mesh_mpm_send_plink_action_sent K wpa_s _ PLINK_CLOSE 0 hmem]
  simp [plink_frame_tx]

/-- C8: for every peer in state BLOCKED and every received action frame from it
(any category, length and subtype), mesh_mpm_action_rx returns the machine as
it was: no action frame is transmitted and the peer record (plink_state and
link IDs) is unchanged. Likewise mesh_mpm_fsm on a BLOCKED record returns the
machine and the record as they were, for every event. -/
theorem mesh_mpm_blocked_silent (K : mesh_defs) (wpa_s : wpa_supplicant) (rx : rx_action)
    (p : Nat) (sta : sta_info)
    (hget : mesh_get_sta K wpa_s.bss0 rx.sa = some (some p))
    (hsta : sta_deref wpa_s.bss0 p = some sta)
    (hb : sta.plink_state = PLINK_BLOCKED) :
    mesh_mpm_action_rx K wpa_s rx = some wpa_s ∧
      ∀ (w : wpa_supplicant) (ev : plink_event), mesh_mpm_fsm K w sta ev = (w, sta) := by
  constructor
  · unfold mesh_mpm_action_rx
    by_cases hcat : rx.category = K.WLAN_ACTION_SELF_PROTECTED
    · by_cases hl : rx.data.length < 1 + 2 + 2
      · simp [hcat, hl]
      · simp [hcat, hl, hget, hsta, hb]
    · simp [hcat]
  · intro w ev
    unfold mesh_mpm_fsm
    simp only [hb]

/-- The BLOCKED peer at a concrete input: the sample peer is BLOCKED and an
OPEN frame arrives from it. -/
theorem mesh_mpm_blocked_silent_witness :
    mesh_get_sta hostap_defs (sample_wpa_s_with (sample_sta PLINK_BLOCKED)).bss0
        (sample_rx PLINK_OPEN).sa = some (some 0) ∧
    sta_deref (sample_wpa_s_with (sample_sta PLINK_BLOCKED)).bss0 0 =
        some (sample_sta PLINK_BLOCKED) ∧
    mesh_mpm_action_rx hostap_defs (sample_wpa_s_with (sample_sta PLINK_BLOCKED))
        (sample_rx PLINK_OPEN) = some (sample_wpa_s_with (sample_sta PLINK_BLOCKED)) :=
  ⟨by decide, rfl,
    (mesh_mpm_blocked_silent hostap_defs (sample_wpa_s_with (sample_sta PLINK_BLOCKED))
      (sample_rx PLINK_OPEN) 0 (sample_sta PLINK_BLOCKED) (by decide) rfl rfl).1⟩

/-! ## Event derivation -/

/-- C4 (amended): for every peer in ESTAB and every received CLOSE frame from
it, whatever the frame carries and whatever peer_lid is stored,
mesh_mpm_action_rx derives CLS_ACPT, the peer moves from ESTAB to HOLDING and
(the frame buffer being allocated) exactly one CLOSE is transmitted. For a
peer in any other state the derived event is CLS_IGNR when the stored peer_lid
differs from 0 and CLS_ACPT otherwise: the link IDs of the frame are not read,
the local plid is fixed at 0. In every non-BLOCKED state the derived event is
the one handed to mesh_mpm_fsm. -/
theorem mesh_mpm_action_rx_close (K : mesh_defs) (wpa_s : wpa_supplicant) (rx : rx_action)
    (p : Nat) (sta : sta_info)
    (hcat : rx.category = K.WLAN_ACTION_SELF_PROTECTED) (hlen : 5 ≤ rx.data.length)
    (hact : byte_at rx.data 0 = PLINK_CLOSE)
    (hget : mesh_get_sta K wpa_s.bss0 rx.sa = some (some p))
    (hsta : sta_deref wpa_s.bss0 p = some sta)
    (hmem : next_alloc_ok wpa_s) :
    (sta.plink_state = PLINK_ESTAB →
      mesh_mpm_action_rx_event sta PLINK_CLOSE = some (CLS_ACPT, sta) ∧
      mesh_mpm_action_rx K wpa_s rx =
        some { wpa_s with
          alloc_count := wpa_s.alloc_count + 1
          drv := wpa_s.drv ++ [plink_frame_tx K wpa_s sta PLINK_CLOSE]
          bss0 := sta_store wpa_s.bss0 p { sta with plink_state := PLINK_HOLDING } } ∧
      sta_deref (sta_store wpa_s.bss0 p { sta with plink_state := PLINK_HOLDING }) p =
        some { sta with plink_state := PLINK_HOLDING }) ∧
    (sta.plink_state ≠ PLINK_ESTAB →
      mesh_mpm_action_rx_event sta PLINK_CLOSE =
        some (if sta.peer_lid ≠ 0 then CLS_IGNR else CLS_ACPT, sta)) ∧
    (sta.plink_state ≠ PLINK_BLOCKED →
      ∃ ev, mesh_mpm_action_rx_event sta PLINK_CLOSE = some (ev, sta) ∧
        ev = spec_close_event sta 0 ∧
        mesh_mpm_action_rx K wpa_s rx = some (mesh_mpm_fsm_at K wpa_s p sta ev)) := by
  have hev : mesh_mpm_action_rx_event sta PLINK_CLOSE =
      some (spec_close_event sta 0, sta) := by
    unfold mesh_mpm_action_rx_event spec_close_event
    simp only [PLINK_CLOSE, PLINK_OPEN, PLINK_CONFIRM]
    by_cases h1 : sta.plink_state = PLINK_ESTAB
    · simp [h1]
    · by_cases h2 : sta.peer_lid = 0 <;> simp [h1, h2]
  refine ⟨?_, ?_, ?_⟩
  · intro hst
    have hE : spec_close_event sta 0 = CLS_ACPT := by simp [spec_close_event, hst]
    have hnb : sta.plink_state ≠ PLINK_BLOCKED := by rw [hst]; decide
    refine ⟨by rw [hev, hE], ?_, sta_deref_store _ _ _ _ hsta⟩
    rw [mesh_mpm_action_rx_dispatch K wpa_s rx p sta sta CLS_ACPT hcat hlen hget hsta hnb
      (by rw [hact, hev, hE])]
    unfold mesh_mpm_fsm_at
    rw [mesh_mpm_fsm_close_eq K wpa_s sta hst hmem]
  · intro hst
    rw [hev]
    simp [spec_close_event, hst]
  · intro hnb
    exact ⟨spec_close_event sta 0, hev, rfl,
      mesh_mpm_action_rx_dispatch K wpa_s rx p sta sta _ hcat hlen hget hsta hnb
        (by rw [hact, hev])⟩

/-- Scenario B on the code: the sample peer is in ESTAB and a CLOSE frame
arrives; the peer moves to HOLDING and one CLOSE is sent. -/
theorem mesh_mpm_action_rx_close_witness :
    mesh_mpm_action_rx hostap_defs (sample_wpa_s_with (sample_sta PLINK_ESTAB))
        (sample_rx PLINK_CLOSE) =
      some { sample_wpa_s_with (sample_sta PLINK_HOLDING) with
        alloc_count := 1
        drv := [plink_frame_tx hostap_defs sample_wpa_s (sample_sta PLINK_ESTAB) PLINK_CLOSE] } :=
  ((mesh_mpm_action_rx_close hostap_defs (sample_wpa_s_with (sample_sta PLINK_ESTAB))
      (sample_rx PLINK_CLOSE) 0 (sample_sta PLINK_ESTAB) rfl (by decide) rfl (by decide) rfl
      rfl).1 rfl).2.1.trans (by
        simp [sample_wpa_s_with, sta_store, sample_wpa_s, sample_sta, plink_frame_tx])

/-- C4 as stated fails: the sample peer is in OPEN_SENT with stored peer_lid 0
and a CLOSE frame arrives that carries plid 7 (after the action field, a Mesh
Peering Management element, ID 117, with protocol 1, the sender's link ID 7,
the receiver's link ID 0 and reason 52). The rule of the specification gives
CLS_IGNR (the stored peer_lid differs from the plid of the frame), the code
derives CLS_ACPT, moves the peer to HOLDING and sends a CLOSE. -/
theorem mesh_mpm_action_rx_close_counterexample :
    (sample_sta PLINK_OPEN_SENT).peer_lid = 0 ∧
    spec_close_event (sample_sta PLINK_OPEN_SENT) 7 = CLS_IGNR ∧
    mesh_mpm_action_rx_event (sample_sta PLINK_OPEN_SENT) PLINK_CLOSE =
      some (CLS_ACPT, sample_sta PLINK_OPEN_SENT) ∧
    (mesh_mpm_action_rx hostap_defs (sample_wpa_s_with (sample_sta PLINK_OPEN_SENT))
        { sa := sample_peer, category := 15, data := [PLINK_CLOSE, 117, 8, 1, 0, 7, 0, 0, 0, 52, 0] }
      ).map (fun w => (w.bss0.sta_pool, w.drv)) =
      some ([sample_sta PLINK_HOLDING],
        [plink_frame_tx hostap_defs sample_wpa_s (sample_sta PLINK_OPEN_SENT) PLINK_CLOSE]) := by
  refine ⟨rfl, by decide, by decide, by decide⟩

/-- C5 (amended): the event mesh_mpm_action_rx derives for OPEN and CONFIRM
frames equals the reference rule evaluated with plid = 0 and llid = 0, whatever
link IDs the frame carries (they are not read), and with the free-peer-slot
count 99, which is never zero. So for OPEN the event is OPN_IGNR iff the stored
peer_lid is non-zero, and otherwise peer_lid is set to 0 and the event is
OPN_ACPT; for CONFIRM the event is CNF_IGNR iff my_lid or peer_lid is non-zero,
and otherwise CNF_ACPT. For a non-BLOCKED sender this event, with the record
the rule leaves, is what mesh_mpm_action_rx hands to mesh_mpm_fsm. -/
theorem mesh_mpm_action_rx_event_rule (sta : sta_info) :
    mesh_mpm_action_rx_event sta PLINK_OPEN =
        some (spec_open_event plink_free_count sta 0) ∧
    mesh_mpm_action_rx_event sta PLINK_CONFIRM =
        some (spec_confirm_event plink_free_count sta 0 0, sta) ∧
    plink_free_count ≠ 0 ∧
    (mesh_mpm_action_rx_event sta PLINK_OPEN = some (OPN_IGNR, sta) ↔ sta.peer_lid ≠ 0) ∧
    (sta.peer_lid = 0 →
      mesh_mpm_action_rx_event sta PLINK_OPEN = some (OPN_ACPT, { sta with peer_lid := 0 })) ∧
    (mesh_mpm_action_rx_event sta PLINK_CONFIRM = some (CNF_IGNR, sta) ↔
      (sta.my_lid ≠ 0 ∨ sta.peer_lid ≠ 0)) ∧
    (¬ (sta.my_lid ≠ 0 ∨ sta.peer_lid ≠ 0) →
      mesh_mpm_action_rx_event sta PLINK_CONFIRM = some (CNF_ACPT, sta)) ∧
    (∀ (K : mesh_defs) (wpa_s : wpa_supplicant) (rx : rx_action) (p : Nat),
      rx.category = K.WLAN_ACTION_SELF_PROTECTED → 5 ≤ rx.data.length →
      mesh_get_sta K wpa_s.bss0 rx.sa = some (some p) →
      sta_deref wpa_s.bss0 p = some sta → sta.plink_state ≠ PLINK_BLOCKED →
      (byte_at rx.data 0 = PLINK_OPEN →
        mesh_mpm_action_rx K wpa_s rx =
          some (mesh_mpm_fsm_at K wpa_s p (spec_open_event plink_free_count sta 0).2
            (spec_open_event plink_free_count sta 0).1)) ∧
      (byte_at rx.data 0 = PLINK_CONFIRM →
        mesh_mpm_action_rx K wpa_s rx =
          some (mesh_mpm_fsm_at K wpa_s p sta
            (spec_confirm_event plink_free_count sta 0 0)))) := by
  have hf : plink_free_count ≠ 0 := by decide
  have ho : mesh_mpm_action_rx_event sta PLINK_OPEN =
      some (spec_open_event plink_free_count sta 0) := by
    unfold mesh_mpm_action_rx_event spec_open_event
    simp only [PLINK_OPEN, if_true]
    by_cases h : sta.peer_lid = 0 <;> simp [h, hf]
  have hc : mesh_mpm_action_rx_event sta PLINK_CONFIRM =
      some (spec_confirm_event plink_free_count sta 0 0, sta) := by
    unfold mesh_mpm_action_rx_event spec_confirm_event
    simp only [PLINK_OPEN, PLINK_CONFIRM]
    by_cases h : sta.my_lid = 0 <;> by_cases h1 : sta.peer_lid = 0 <;> simp [h, h1, hf]
  refine ⟨ho, hc, hf, ?_, ?_, ?_, ?_, ?_⟩
  · rw [ho]
    unfold spec_open_event
    by_cases h : sta.peer_lid = 0 <;> simp [h, hf]
  · intro h
    rw [ho]
    simp [spec_open_event, h, hf]
  · rw [hc]
    unfold spec_confirm_event
    by_cases h : sta.my_lid = 0 <;> by_cases h1 : sta.peer_lid = 0 <;> simp [h, h1, hf]
  · intro h
    rw [hc]
    simp only [not_or, not_not] at h
    simp [spec_confirm_event, h.1, h.2, hf]
  · intro K wpa_s rx p hcat hlen hget hsta hnb
    constructor
    · intro hact
      exact mesh_mpm_action_rx_dispatch K wpa_s rx p sta _ _ hcat hlen hget hsta hnb
        (by rw [hact, ho])
    · intro hact
      exact mesh_mpm_action_rx_dispatch K wpa_s rx p sta _ _ hcat hlen hget hsta hnb
        (by rw [hact, hc])

/-- C5 as stated fails: scenario A, second step. The sample peer has no
peer_lid stored and an OPEN frame arrives that carries plid 1 (after the action
field and two capability bytes, a Mesh Peering Management element, ID 117, with
protocol 1 and the sender's link ID 1). The rule of the specification stores
peer_lid = 1; the code stores 0. -/
theorem mesh_mpm_action_rx_event_rule_counterexample :
    spec_open_event plink_free_count (sample_sta PLINK_LISTEN) 1 =
      (OPN_ACPT, { sample_sta PLINK_LISTEN with peer_lid := 1 }) ∧
    mesh_mpm_action_rx_event (sample_sta PLINK_LISTEN) PLINK_OPEN =
      some (OPN_ACPT, { sample_sta PLINK_LISTEN with peer_lid := 0 }) ∧
    mesh_mpm_action_rx_event (sample_sta PLINK_LISTEN) PLINK_OPEN ≠
      some (spec_open_event plink_free_count (sample_sta PLINK_LISTEN) 1) ∧
    (mesh_mpm_action_rx hostap_defs (sample_wpa_s_with (sample_sta PLINK_LISTEN))
        { sa := sample_peer, category := 15, data := [PLINK_OPEN, 0, 0, 117, 4, 1, 0, 1, 0] }
      ).map (fun w => w.bss0.sta_pool.map (fun r => r.peer_lid)) = some [0] := by
  refine ⟨by decide, by decide, by decide, by decide⟩

/-- C6 (amended): mesh_mpm_action_rx derives the event of an OPEN frame without
consulting the SAE session of the peer: the event is the same whether the
session is absent or present and whatever its state; it is OPN_ACPT exactly
when the stored peer_lid is 0, OPN_IGNR otherwise, and never OPN_RJCT. An OPEN
frame from a non-BLOCKED peer with stored peer_lid 0 is handed to mesh_mpm_fsm
as OPN_ACPT whatever the SAE session of the record. -/
theorem mesh_mpm_action_rx_open_ignores_sae (sta : sta_info) (sae : Option sae_data) :
    (mesh_mpm_action_rx_event { sta with sae := sae } PLINK_OPEN).map Prod.fst =
        (mesh_mpm_action_rx_event sta PLINK_OPEN).map Prod.fst ∧
    (mesh_mpm_action_rx_event sta PLINK_OPEN).map Prod.fst =
        some (if sta.peer_lid = 0 then OPN_ACPT else OPN_IGNR) ∧
    (mesh_mpm_action_rx_event sta PLINK_OPEN).map Prod.fst ≠ some OPN_RJCT ∧
    (∀ (K : mesh_defs) (wpa_s : wpa_supplicant) (rx : rx_action) (p : Nat),
      rx.category = K.WLAN_ACTION_SELF_PROTECTED → 5 ≤ rx.data.length →
      byte_at rx.data 0 = PLINK_OPEN →
      mesh_get_sta K wpa_s.bss0 rx.sa = some (some p) →
      sta_deref wpa_s.bss0 p = some { sta with sae := sae } →
      sta.plink_state ≠ PLINK_BLOCKED → sta.peer_lid = 0 →
      mesh_mpm_action_rx K wpa_s rx =
        some (mesh_mpm_fsm_at K wpa_s p { sta with sae := sae, peer_lid := 0 } OPN_ACPT)) := by
  have hf : plink_free_count ≠ 0 := by decide
  have h : ∀ s : sta_info, (mesh_mpm_action_rx_event s PLINK_OPEN).map Prod.fst =
      some (if s.peer_lid = 0 then OPN_ACPT else OPN_IGNR) := by
    intro s
    unfold mesh_mpm_action_rx_event
    simp only [PLINK_OPEN, if_true]
    by_cases h : s.peer_lid = 0 <;> simp [h, hf]
  refine ⟨by rw [h, h], h sta, ?_, ?_⟩
  · rw [h]
    by_cases h0 : sta.peer_lid = 0 <;> simp [h0]
  · intro K wpa_s rx p hcat hlen hact hget hsta hnb h0
    refine mesh_mpm_action_rx_dispatch K wpa_s rx p _ _ _ hcat hlen hget hsta hnb ?_
    rw [hact]
    unfold mesh_mpm_action_rx_event
    simp [PLINK_OPEN, h0, hf]

/-- C6 as stated fails: the sample peer has no SAE session, is in LISTEN, and
an OPEN frame arrives from it. The code derives OPN_ACPT and mesh_mpm_fsm
answers with an OPEN and a CONFIRM. -/
theorem mesh_mpm_action_rx_open_ignores_sae_counterexample :
    (sample_sta PLINK_LISTEN).sae = none ∧
    (mesh_mpm_action_rx_event (sample_sta PLINK_LISTEN) PLINK_OPEN).map Prod.fst =
      some OPN_ACPT ∧
    (mesh_mpm_action_rx hostap_defs (sample_wpa_s_with (sample_sta PLINK_LISTEN))
        (sample_rx PLINK_OPEN)).map (fun w => w.drv) =
      some [plink_frame_tx hostap_defs sample_wpa_s (sample_sta PLINK_LISTEN) PLINK_OPEN,
            plink_frame_tx hostap_defs sample_wpa_s (sample_sta PLINK_LISTEN) PLINK_CONFIRM] := by
  refine ⟨rfl, by decide, by decide⟩

/-! ## Creation of a peer record -/

theorem flags_or_and_left (a b : Nat) : ((0 ||| a) ||| b) &&& a = a := by
  apply Nat.eq_of_testBit_eq
  intro i
  simp only [Nat.testBit_and, Nat.testBit_or, Nat.zero_testBit]
  cases a.testBit i <;> cases b.testBit i <;> rfl

theorem flags_or_and_right (a b : Nat) : ((0 ||| a) ||| b) &&& b = b := by
  apply Nat.eq_of_testBit_eq
  intro i
  simp only [Nat.testBit_and, Nat.testBit_or, Nat.zero_testBit]
  cases a.testBit i <;> cases b.testBit i <;> rfl

/-- C2 (amended): for every peer address not yet in the peer table, with the
table below capacity, the record allocated, and elements that carry a valid
supported-rates set, wpa_mesh_new_mesh_peer creates the record (zero-initialised
but for the address and the merged rates), calls the driver sta_add with
plink_state LISTEN and with flags containing both WMM and AUTHORIZED, then
forces the record to ESTAB with a second sta_add call, and returns with the
record's plink_state = ESTAB. -/
theorem wpa_mesh_new_mesh_peer_creates (K : mesh_defs) (wpa_s : wpa_supplicant)
    (addr : List Nat) (elems : ieee802_11_elems) (sr : List Nat)
    (hnew : mesh_get_sta K wpa_s.bss0 addr = some none)
    (hroom : wpa_s.bss0.num_sta < wpa_s.bss0.max_num_sta)
    (hmem : next_alloc_ok wpa_s)
    (hsr : elems.supp_rates = some sr)
    (hlen : sr.length + (elems.ext_supp_rates.getD []).length ≤ K.sizeof_supported_rates) :
    ∃ w1 r flags,
      wpa_mesh_new_mesh_peer K wpa_s addr elems = some w1 ∧
      r = { sta_info_zero K with
            addr := os_memcpy addr ETH_ALEN
            supported_rates := sr ++ elems.ext_supp_rates.getD []
            plink_state := PLINK_ESTAB } ∧
      w1.bss0.sta_pool = wpa_s.bss0.sta_pool ++ [r] ∧
      w1.bss0.num_sta = wpa_s.bss0.num_sta + 1 ∧
      r.plink_state = PLINK_ESTAB ∧
      w1.drv = wpa_s.drv ++
        [drv_call.sta_add
           { addr := addr, aid := 1, supp_rates := r.supported_rates, listen_interval := 100,
             flags := flags, set := 0, plink_state := PLINK_LISTEN },
         drv_call.sta_add
           { addr := r.addr, aid := 0, supp_rates := [], listen_interval := 0,
             flags := 0, set := 1, plink_state := PLINK_ESTAB }] ∧
      flags &&& K.WPA_STA_WMM = K.WPA_STA_WMM ∧
      flags &&& K.WPA_STA_AUTHORIZED = K.WPA_STA_AUTHORIZED := by
  have hroom1 : ¬ wpa_s.bss0.num_sta ≥ wpa_s.bss0.max_num_sta := not_le.mpr hroom
  have hlen1 : ¬ sr.length + (elems.ext_supp_rates.getD []).length > K.sizeof_supported_rates :=
    not_lt.mpr hlen
  have htake : List.take K.sizeof_supported_rates (sr ++ elems.ext_supp_rates.getD []) =
      sr ++ elems.ext_supp_rates.getD [] :=
    List.take_of_length_le (by rw [List.length_append]; exact hlen)
  unfold next_alloc_ok at hmem
  have h : wpa_mesh_new_mesh_peer K wpa_s addr elems =
      some { wpa_s with
        alloc_count := wpa_s.alloc_count + 1
        drv := wpa_s.drv ++
          [drv_call.sta_add
             { addr := addr, aid := 1, supp_rates := sr ++ elems.ext_supp_rates.getD [],
               listen_interval := 100,
               flags := (0 ||| K.WPA_STA_WMM) ||| K.WPA_STA_AUTHORIZED,
               set := 0, plink_state := PLINK_LISTEN },
           drv_call.sta_add
             { addr := os_memcpy addr ETH_ALEN, aid := 0, supp_rates := [],
               listen_interval := 0, flags := 0, set := 1, plink_state := PLINK_ESTAB }]
        bss0 :=
          { wpa_s.bss0 with
            sta_pool := wpa_s.bss0.sta_pool ++
              [{ sta_info_zero K with
                 addr := os_memcpy addr ETH_ALEN
                 supported_rates := sr ++ elems.ext_supp_rates.getD []
                 plink_state := PLINK_ESTAB }]
            sta_list := wpa_s.bss0.sta_pool.length :: wpa_s.bss0.sta_list
            num_sta := wpa_s.bss0.num_sta + 1
            sta_hash := fun h =>
              if h = K.STA_HASH (os_memcpy addr ETH_ALEN) then
                wpa_s.bss0.sta_pool.length :: wpa_s.bss0.sta_hash h
              else wpa_s.bss0.sta_hash h } } := by
    simp only [wpa_mesh_new_mesh_peer, mesh_sta_add, hnew, hroom1, if_false, os_alloc, hmem,
      Bool.not_false, Bool.not_true, mesh_sta_hash_add, sta_deref, copy_supp_rates, hsr,
      merge_byte_arrays, Option.getD_some, htake, hlen1, wpa_mesh_set_plink_state,
      wpa_drv_sta_add, sta_store, List.getElem?_concat_length, Bool.false_eq_true]
    simp
  exact ⟨_, _, _, h, rfl, rfl, rfl, rfl, rfl, flags_or_and_left _ _, flags_or_and_right _ _⟩

/-- Creation at a concrete input: scenario A, first step, on the sample
interface. -/
theorem wpa_mesh_new_mesh_peer_creates_witness :
    mesh_get_sta hostap_defs sample_wpa_s.bss0 sample_peer = some none ∧
    sample_wpa_s.bss0.num_sta < sample_wpa_s.bss0.max_num_sta ∧
    next_alloc_ok sample_wpa_s ∧
    (wpa_mesh_new_mesh_peer hostap_defs sample_wpa_s sample_peer sample_elems).isSome = true :=
  ⟨rfl, by decide, rfl,
    (wpa_mesh_new_mesh_peer_creates hostap_defs sample_wpa_s sample_peer sample_elems
      [0x82, 0x84, 0x8b, 0x96, 0x0c, 0x12, 0x18, 0x24] rfl (by decide) rfl rfl
      (by decide)).elim (fun _ h => h.elim (fun _ h1 => h1.elim (fun _ h2 => by rw [h2.1]; rfl)))⟩

/-- C2 as stated fails: scenario A, first step. The sample peer is unknown, the
table has room and the elements carry eight rates; the record is created and
sta_add is called with flags 3 = WMM | AUTHORIZED and plink_state LISTEN, but
the function returns with the record in ESTAB, not LISTEN. -/
theorem wpa_mesh_new_mesh_peer_creates_counterexample :
    mesh_get_sta hostap_defs sample_wpa_s.bss0 sample_peer = some none ∧
    sample_wpa_s.bss0.num_sta < sample_wpa_s.bss0.max_num_sta ∧
    (wpa_mesh_new_mesh_peer hostap_defs sample_wpa_s sample_peer sample_elems).map
        (fun w => w.bss0.sta_pool.map (fun r => r.plink_state)) = some [PLINK_ESTAB] ∧
    (wpa_mesh_new_mesh_peer hostap_defs sample_wpa_s sample_peer sample_elems).map
        (fun w => w.bss0.sta_pool.map (fun r => r.plink_state)) ≠ some [PLINK_LISTEN] := by
  refine ⟨rfl, by decide, by decide, by decide⟩

/-! ## Reachable states -/

theorem mesh_mpm_send_plink_action_bss0 (K : mesh_defs) (wpa_s : wpa_supplicant)
    (sta : sta_info) (type reason : Nat) :
    (mesh_mpm_send_plink_action K wpa_s sta type reason).bss0 = wpa_s.bss0 := by
  unfold mesh_mpm_send_plink_action os_alloc wpa_drv_send_action
  cases wpa_s.alloc_fail wpa_s.alloc_count <;> rfl

theorem mesh_mpm_fsm_bss0 (K : mesh_defs) (wpa_s : wpa_supplicant) (sta : sta_info)
    (ev : plink_event) : (mesh_mpm_fsm K wpa_s sta ev).1.bss0 = wpa_s.bss0 := by
  unfold mesh_mpm_fsm
  cases sta.plink_state <;> cases ev <;>
    simp only [mesh_mpm_send_plink_action_bss0]

theorem mesh_mpm_fsm_unpeered (K : mesh_defs) (wpa_s : wpa_supplicant) (sta : sta_info)
    (ev : plink_event) (h : sta_unpeered K sta) :
    sta_unpeered K (mesh_mpm_fsm K wpa_s sta ev).2 := by
  unfold mesh_mpm_fsm
  cases sta.plink_state <;> cases ev <;> exact h

theorem mesh_mpm_action_rx_event_unpeered (K : mesh_defs) (sta sta1 : sta_info) (a : Nat)
    (ev : plink_event) (hev : mesh_mpm_action_rx_event sta a = some (ev, sta1))
    (h : sta_unpeered K sta) : sta_unpeered K sta1 := by
  unfold mesh_mpm_action_rx_event at hev
  dsimp only at hev
  split_ifs at hev <;> simp only [Option.some.injEq, Prod.mk.injEq] at hev <;>
    first
      | (obtain ⟨_, rfl⟩ := hev; exact h)
      | (obtain ⟨_, rfl⟩ := hev; exact ⟨h.1, rfl, h.2.2.1, h.2.2.2⟩)

theorem sta_store_unpeered (K : mesh_defs) (data : hostapd_data) (p : Nat) (sta1 : sta_info)
    (hinv : ∀ sta ∈ data.sta_pool, sta_unpeered K sta) (h1 : sta_unpeered K sta1) :
    ∀ sta ∈ (sta_store data p sta1).sta_pool, sta_unpeered K sta := by
  intro sta hmem
  unfold sta_store at hmem
  rcases List.mem_or_eq_of_mem_set hmem with h | h
  · exact hinv sta h
  · rw [h]; exact h1

theorem sta_deref_mem (data : hostapd_data) (p : Nat) (sta : sta_info)
    (h : sta_deref data p = some sta) : sta ∈ data.sta_pool := by
  unfold sta_deref at h
  exact List.getElem?_mem h

theorem mesh_mpm_action_rx_unpeered (K : mesh_defs) (w w1 : wpa_supplicant) (rx : rx_action)
    (h : mesh_mpm_action_rx K w rx = some w1)
    (hinv : ∀ sta ∈ w.bss0.sta_pool, sta_unpeered K sta) :
    ∀ sta ∈ w1.bss0.sta_pool, sta_unpeered K sta := by
  unfold mesh_mpm_action_rx at h
  dsimp only at h
  by_cases hc : rx.category ≠ K.WLAN_ACTION_SELF_PROTECTED
  · rw [if_pos hc, Option.some.injEq] at h
    subst h; exact hinv
  rw [if_neg hc] at h
  by_cases hl : rx.data.length < 1 + 2 + 2
  · rw [if_pos hl, Option.some.injEq] at h
    subst h; exact hinv
  rw [if_neg hl] at h
  cases hg : mesh_get_sta K w.bss0 rx.sa with
  | none => simp [hg] at h
  | some o =>
    cases o with
    | none =>
      simp only [hg, Option.some.injEq] at h
      subst h; exact hinv
    | some p =>
      simp only [hg] at h
      cases hd : sta_deref w.bss0 p with
      | none => simp [hd] at h
      | some sta =>
        simp only [hd] at h
        by_cases hb : sta.plink_state = PLINK_BLOCKED
        · simp only [hb, if_true, Option.some.injEq] at h
          subst h; exact hinv
        simp only [hb, if_false] at h
        cases he : mesh_mpm_action_rx_event sta (byte_at rx.data 0) with
        | none =>
          simp only [he, Option.some.injEq] at h
          subst h; exact hinv
        | some r =>
          obtain ⟨ev, sta1⟩ := r
          simp only [he, Option.some.injEq] at h
          subst h
          have hs1 : sta_unpeered K sta1 :=
            mesh_mpm_action_rx_event_unpeered K sta sta1 _ ev he
              (hinv sta (sta_deref_mem _ _ _ hd))
          unfold mesh_mpm_fsm_at
          apply sta_store_unpeered
          · rw [mesh_mpm_fsm_bss0]; exact hinv
          · exact mesh_mpm_fsm_unpeered K w sta1 ev hs1

theorem sta_info_zero_unpeered (K : mesh_defs) (addr : List Nat) :
    sta_unpeered K { sta_info_zero K with addr := addr } :=
  ⟨rfl, rfl, rfl, rfl⟩

theorem mesh_sta_add_unpeered (K : mesh_defs) (w w1 : wpa_supplicant) (addr : List Nat)
    (o : Option Nat) (h : mesh_sta_add K w addr = some (o, w1))
    (hinv : ∀ sta ∈ w.bss0.sta_pool, sta_unpeered K sta) :
    ∀ sta ∈ w1.bss0.sta_pool, sta_unpeered K sta := by
  unfold mesh_sta_add at h
  dsimp only at h
  cases hg : mesh_get_sta K w.bss0 addr with
  | none => simp [hg] at h
  | some q =>
    cases q with
    | some p =>
      simp only [hg, Option.some.injEq, Prod.mk.injEq] at h
      obtain ⟨_, rfl⟩ := h; exact hinv
    | none =>
      simp only [hg] at h
      by_cases hr : w.bss0.num_sta ≥ w.bss0.max_num_sta
      · simp only [hr, if_true, Option.some.injEq, Prod.mk.injEq] at h
        obtain ⟨_, rfl⟩ := h; exact hinv
      simp only [hr, if_false] at h
      unfold os_alloc at h
      dsimp only at h
      cases ha : w.alloc_fail w.alloc_count with
      | true =>
        simp only [ha, Bool.not_true, Bool.not_false, if_true, Option.some.injEq,
          Prod.mk.injEq] at h
        obtain ⟨_, rfl⟩ := h; exact hinv
      | false =>
        simp only [ha, Bool.not_true, Bool.not_false, Bool.false_eq_true, if_false,
          Option.some.injEq, Prod.mk.injEq] at h
        obtain ⟨_, rfl⟩ := h
        intro sta hmem
        simp only [mesh_sta_hash_add, List.mem_append, List.mem_singleton] at hmem
        rcases hmem with hm | hm
        · exact hinv sta hm
        · rw [hm]; exact sta_info_zero_unpeered K _

theorem copy_supp_rates_unpeered (K : mesh_defs) (sta sta1 : sta_info)
    (elems : ieee802_11_elems) (h : copy_supp_rates K sta elems = some sta1)
    (hs : sta_unpeered K sta) : sta_unpeered K sta1 := by
  unfold copy_supp_rates at h
  cases hr : elems.supp_rates with
  | none => simp [hr] at h
  | some sr =>
    simp only [hr] at h
    split_ifs at h
    simp only [Option.some.injEq] at h
    subst h; exact hs

theorem wpa_mesh_new_mesh_peer_unpeered (K : mesh_defs) (w w1 : wpa_supplicant)
    (addr : List Nat) (elems : ieee802_11_elems)
    (h : wpa_mesh_new_mesh_peer K w addr elems = some w1)
    (hinv : ∀ sta ∈ w.bss0.sta_pool, sta_unpeered K sta) :
    ∀ sta ∈ w1.bss0.sta_pool, sta_unpeered K sta := by
  unfold wpa_mesh_new_mesh_peer at h
  cases ha : mesh_sta_add K w addr with
  | none => simp [ha] at h
  | some r =>
    obtain ⟨o, w2⟩ := r
    have hinv2 := mesh_sta_add_unpeered K w w2 addr o ha hinv
    cases o with
    | none =>
      simp only [ha, Option.some.injEq] at h
      subst h; exact hinv2
    | some p =>
      simp only [ha] at h
      cases hd : sta_deref w2.bss0 p with
      | none => simp [hd] at h
      | some sta =>
        simp only [hd] at h
        cases hc : copy_supp_rates K sta elems with
        | none =>
          simp only [hc, Option.some.injEq] at h
          subst h; exact hinv2
        | some sta1 =>
          simp only [hc, wpa_mesh_set_plink_state, wpa_drv_sta_add, Option.some.injEq] at h
          subst h
          have hs1 := copy_supp_rates_unpeered K sta sta1 elems hc
            (hinv2 sta (sta_deref_mem _ _ _ hd))
          exact sta_store_unpeered K _ p _ hinv2 hs1

theorem mesh_auth_timer_unpeered (K : mesh_defs) (L : sae_lib) (w w1 : wpa_supplicant)
    (user_data : Option Nat) (h : mesh_auth_timer K L w user_data = some w1)
    (hinv : ∀ sta ∈ w.bss0.sta_pool, sta_unpeered K sta) : w1 = w := by
  unfold mesh_auth_timer at h
  cases user_data with
  | none =>
    simp only [Option.some.injEq] at h
    exact h.symm
  | some p =>
    simp only at h
    cases hd : sta_deref w.bss0 p with
    | none => simp [hd] at h
    | some sta =>
      have hs := (hinv sta (sta_deref_mem _ _ _ hd)).2.2.1
      simp [hd, hs] at h

theorem mesh_step_unpeered (K : mesh_defs) (L : sae_lib) (w w1 : wpa_supplicant)
    (hs : mesh_step K L w w1) (hinv : ∀ sta ∈ w.bss0.sta_pool, sta_unpeered K sta) :
    ∀ sta ∈ w1.bss0.sta_pool, sta_unpeered K sta := by
  cases hs with
  | new_mesh_peer addr elems h => exact wpa_mesh_new_mesh_peer_unpeered K w w1 addr elems h hinv
  | action_rx rx h => exact mesh_mpm_action_rx_unpeered K w w1 rx h hinv
  | auth_timer user_data h =>
    rw [mesh_auth_timer_unpeered K L w w1 user_data h hinv]; exact hinv

theorem sample_new_peer_reachable (w1 : wpa_supplicant)
    (h : wpa_mesh_new_mesh_peer hostap_defs sample_wpa_s sample_peer sample_elems = some w1) :
    mesh_reachable hostap_defs sample_sae_lib w1 :=
  mesh_reachable.step sample_wpa_s w1
    (mesh_reachable.init sample_wpa_s ⟨rfl, rfl, fun _ => rfl, rfl⟩)
    (mesh_step.new_mesh_peer sample_wpa_s w1 sample_peer sample_elems h)

/-- C3 (amended): in every state reachable from an empty peer table by any
sequence of wpa_mesh_new_mesh_peer, mesh_mpm_action_rx and mesh_auth_timer
calls, every peer record, in ESTAB or in any other state, has my_lid = 0 and
peer_lid = 0, has no SAE session, and its mtk is the zero-initialised buffer:
no link ID is ever assigned and the mtk is never derived, and
mesh_rsn_derive_mtk cannot be applied to the record for want of a PMK. -/
theorem mesh_reachable_unpeered (K : mesh_defs) (L : sae_lib) (w : wpa_supplicant)
    (h : mesh_reachable K L w) :
    ∀ sta ∈ w.bss0.sta_pool,
      sta.my_lid = 0 ∧ sta.peer_lid = 0 ∧ sta.sae = none ∧
      sta.mtk = List.replicate K.sizeof_mtk 0 ∧
      ∀ (S : suite_defs) (C : crypto_lib) (w1 : wpa_supplicant),
        mesh_rsn_derive_mtk K S C w1 sta = none := by
  have hinv : ∀ sta ∈ w.bss0.sta_pool, sta_unpeered K sta := by
    induction h with
    | init w he =>
      intro sta hmem
      rw [he.1] at hmem
      cases hmem
    | step w w1 _ hs ih => exact mesh_step_unpeered K L w w1 hs ih
  intro sta hmem
  obtain ⟨h1, h2, h3, h4⟩ := hinv sta hmem
  refine ⟨h1, h2, h3, h4, ?_⟩
  intro S C w1
  unfold mesh_rsn_derive_mtk
  simp only [h3]

/-- The invariant at a concrete reachable state: the sample interface after the
sample peer was announced. -/
theorem mesh_reachable_unpeered_witness :
    ∃ w1, wpa_mesh_new_mesh_peer hostap_defs sample_wpa_s sample_peer sample_elems = some w1 ∧
      mesh_reachable hostap_defs sample_sae_lib w1 ∧
      ∀ sta ∈ w1.bss0.sta_pool, sta.my_lid = 0 ∧ sta.peer_lid = 0 ∧ sta.sae = none :=
  ⟨_, rfl, sample_new_peer_reachable _ rfl, fun sta hmem =>
    have h := mesh_reachable_unpeered hostap_defs sample_sae_lib _
      (sample_new_peer_reachable _ rfl) sta hmem
    ⟨h.1, h.2.1, h.2.2.1⟩⟩

/-- C3 as stated fails: from the empty peer table of the sample interface, one
call of wpa_mesh_new_mesh_peer for the sample peer gives a reachable state
whose only record is in ESTAB with my_lid = 0, peer_lid = 0, no SAE session and
an all-zero mtk. -/
theorem mesh_reachable_unpeered_counterexample :
    peer_table_empty sample_wpa_s ∧
    ∃ w1, wpa_mesh_new_mesh_peer hostap_defs sample_wpa_s sample_peer sample_elems = some w1 ∧
      mesh_reachable hostap_defs sample_sae_lib w1 ∧
      w1.bss0.sta_pool.map (fun r => (r.plink_state, r.my_lid, r.peer_lid, r.sae, r.mtk)) =
        [(PLINK_ESTAB, 0, 0, none, List.replicate 16 0)] :=
  ⟨⟨rfl, rfl, fun _ => rfl, rfl⟩, _, rfl, sample_new_peer_reachable _ rfl, by decide⟩

/-! ## The HOLDING state -/

/-- C11: for every peer in HOLDING, each of the events OPN_ACPT, CNF_ACPT,
OPN_RJCT and CNF_RJCT makes mesh_mpm_fsm (the frame buffer being allocated)
transmit exactly one CLOSE frame and leaves the record, hence plink_state =
HOLDING, as it was; the event CLS_ACPT sets plink_state = LISTEN, changes
nothing else and transmits no frame. -/
theorem mesh_mpm_fsm_holding (K : mesh_defs) (wpa_s : wpa_supplicant) (sta : sta_info)
    (hst : sta.plink_state = PLINK_HOLDING) (hmem : next_alloc_ok wpa_s) :
    (∀ ev, ev = OPN_ACPT ∨ ev = CNF_ACPT ∨ ev = OPN_RJCT ∨ ev = CNF_RJCT →
      (mesh_mpm_fsm K wpa_s sta ev).1.drv =
        wpa_s.drv ++ [plink_frame_tx K wpa_s sta PLINK_CLOSE] ∧
      (mesh_mpm_fsm K wpa_s sta ev).2 = sta ∧
      (mesh_mpm_fsm K wpa_s sta ev).2.plink_state = PLINK_HOLDING) ∧
    mesh_mpm_fsm K wpa_s sta CLS_ACPT = (wpa_s, { sta with plink_state := PLINK_LISTEN }) ∧
    (mesh_mpm_fsm K wpa_s sta CLS_ACPT).1.drv = wpa_s.drv := by
  have e := mesh_mpm_send_plink_action_sent K wpa_s sta PLINK_CLOSE 0 hmem
  have hc : mesh_mpm_fsm K wpa_s sta CLS_ACPT =
      (wpa_s, { sta with plink_state := PLINK_LISTEN }) := by
    unfold mesh_mpm_fsm
    simp only [hst, mesh_mpm_fsm_restart]
  refine ⟨?_, hc, by rw [hc]⟩
  intro ev hev
  rcases hev with h | h | h | h <;> subst h <;> unfold mesh_mpm_fsm <;>
    simp only [hst] <;> rw [e] <;> simp [hst]

/-- The HOLDING state at a concrete input: the sample peer in HOLDING receives
OPN_ACPT and then CLS_ACPT. -/
theorem mesh_mpm_fsm_holding_witness :
    (sample_sta PLINK_HOLDING).plink_state = PLINK_HOLDING ∧
    next_alloc_ok sample_wpa_s ∧
    (mesh_mpm_fsm hostap_defs sample_wpa_s (sample_sta PLINK_HOLDING) OPN_ACPT).1.drv =
      [plink_frame_tx hostap_defs sample_wpa_s (sample_sta PLINK_HOLDING) PLINK_CLOSE] ∧
    (mesh_mpm_fsm hostap_defs sample_wpa_s (sample_sta PLINK_HOLDING) OPN_ACPT).2 =
      sample_sta PLINK_HOLDING ∧
    mesh_mpm_fsm hostap_defs sample_wpa_s (sample_sta PLINK_HOLDING) CLS_ACPT =
      (sample_wpa_s, sample_sta PLINK_LISTEN) :=
  have h := mesh_mpm_fsm_holding hostap_defs sample_wpa_s (sample_sta PLINK_HOLDING) rfl rfl
  ⟨rfl, rfl, (h.1 OPN_ACPT (Or.inl rfl)).1, (h.1 OPN_ACPT (Or.inl rfl)).2.1, h.2.1⟩

/-! ## Lemmas on memory comparison and copy -/

theorem byte_at_zero (a : List Nat) : byte_at a 0 = a.headD 0 := by
  cases a <;> rfl

theorem byte_at_succ (a : List Nat) (i : Nat) : byte_at a (i + 1) = byte_at a.tail i := by
  cases a <;> rfl

theorem os_memcpy_succ (a : List Nat) (n : Nat) :
    os_memcpy a (n + 1) = a.headD 0 :: os_memcpy a.tail n := by
  unfold os_memcpy
  rw [List.range_succ_eq_map, List.map_cons, List.map_map, byte_at_zero]
  congr 1
  apply List.map_congr_left
  intro i _
  exact byte_at_succ a i

theorem os_memcpy_length (a : List Nat) (n : Nat) : (os_memcpy a n).length = n := by
  simp [os_memcpy]

theorem os_memcpy_of_length (n : Nat) : ∀ a : List Nat, a.length = n → os_memcpy a n = a := by
  induction n with
  | zero =>
    intro a h
    rw [List.length_eq_zero] at h
    subst h; rfl
  | succ n ih =>
    intro a h
    cases a with
    | nil => cases h
    | cons x xs =>
      rw [os_memcpy_succ]
      simp only [List.headD_cons, List.tail_cons]
      rw [ih xs (by simpa using h)]

theorem os_memcmp_swap (n : Nat) : ∀ a b : List Nat, os_memcmp b a n = - os_memcmp a b n := by
  induction n with
  | zero => intro a b; simp [os_memcmp]
  | succ n ih =>
    intro a b
    unfold os_memcmp
    by_cases h : a.headD 0 = b.headD 0
    · rw [if_pos h, if_pos h.symm]; exact ih a.tail b.tail
    · rw [if_neg h, if_neg (Ne.symm h)]; omega

theorem os_memcmp_eq_zero (n : Nat) :
    ∀ a b : List Nat, os_memcmp a b n = 0 → os_memcpy a n = os_memcpy b n := by
  induction n with
  | zero => intro a b _; rfl
  | succ n ih =>
    intro a b h
    unfold os_memcmp at h
    by_cases hh : a.headD 0 = b.headD 0
    · rw [if_pos hh] at h
      rw [os_memcpy_succ, os_memcpy_succ, hh, ih _ _ h]
    · rw [if_neg hh] at h
      exact absurd (by omega) hh

theorem os_memcmp_lt_iff (n : Nat) :
    ∀ a b : List Nat, a.length = n → b.length = n → (os_memcmp a b n < 0 ↔ a < b) := by
  induction n with
  | zero =>
    intro a b ha hb
    rw [List.length_eq_zero] at ha hb
    subst ha hb
    simp [os_memcmp]
  | succ n ih =>
    intro a b ha hb
    cases a with
    | nil => cases ha
    | cons x xs =>
      cases b with
      | nil => cases hb
      | cons y ys =>
        have hxs : xs.length = n := by simpa using ha
        have hys : ys.length = n := by simpa using hb
        unfold os_memcmp
        simp only [List.headD_cons, List.tail_cons]
        by_cases hxy : x = y
        · subst hxy
          rw [if_pos rfl, ih xs ys hxs hys]
          constructor
          · intro h; exact List.Lex.cons h
          · intro h
            cases h with
            | cons h3 => exact h3
            | rel h1 => exact absurd h1 (lt_irrefl x)
        · rw [if_neg hxy]
          constructor
          · intro h
            have hlt : x < y := by omega
            exact List.Lex.rel hlt
          · intro h
            cases h with
            | cons _ => exact absurd rfl hxy
            | rel h1 =>
              have hlt : x < y := h1
              omega

theorem sorted_pair_symm (a b : List Nat) (n : Nat) :
    os_memcpy (if os_memcmp a b n < 0 then (a, b) else (b, a)).1 n
        ++ os_memcpy (if os_memcmp a b n < 0 then (a, b) else (b, a)).2 n =
      os_memcpy (if os_memcmp b a n < 0 then (b, a) else (a, b)).1 n
        ++ os_memcpy (if os_memcmp b a n < 0 then (b, a) else (a, b)).2 n := by
  have hs := os_memcmp_swap n a b
  rcases lt_trichotomy (os_memcmp a b n) 0 with h | h | h
  · have h' : ¬ os_memcmp b a n < 0 := by omega
    rw [if_pos h, if_neg h']
  · have h' : ¬ os_memcmp b a n < 0 := by omega
    have h0 : ¬ os_memcmp a b n < 0 := by omega
    rw [if_neg h0, if_neg h']
    simp only [os_memcmp_eq_zero n a b h]
  · have h' : os_memcmp b a n < 0 := by omega
    have h0 : ¬ os_memcmp a b n < 0 := by omega
    rw [if_neg h0, if_pos h']

theorem lid_pair_symm (l1 l2 : Nat) :
    (if l1 < l2 then (lid_bytes l1, lid_bytes l2) else (lid_bytes l2, lid_bytes l1)) =
      (if l2 < l1 then (lid_bytes l2, lid_bytes l1) else (lid_bytes l1, lid_bytes l2)) := by
  rcases lt_trichotomy l1 l2 with h | h | h
  · rw [if_pos h, if_neg (by omega)]
  · subst h; rfl
  · rw [if_neg (by omega), if_pos h]

theorem mesh_rsn_aek_context_symm (S : suite_defs) (rsnM rsnP : mesh_rsn)
    (staM staP : sta_info) (h1 : staM.addr = rsnP.auth_addr) (h2 : staP.addr = rsnM.auth_addr) :
    mesh_rsn_aek_context S rsnM staM = mesh_rsn_aek_context S rsnP staP := by
  unfold mesh_rsn_aek_context
  dsimp only
  rw [h1, h2, List.append_assoc, List.append_assoc, sorted_pair_symm]

theorem mesh_rsn_mtk_context_symm (S : suite_defs) (wM wP : wpa_supplicant)
    (staM staP : sta_info) (h1 : staM.addr = wP.own_addr) (h2 : staP.addr = wM.own_addr)
    (h3 : staP.my_nonce = staM.peer_nonce) (h4 : staP.peer_nonce = staM.my_nonce)
    (h5 : staP.my_lid = staM.peer_lid) (h6 : staP.peer_lid = staM.my_lid) :
    mesh_rsn_mtk_context S wM staM = mesh_rsn_mtk_context S wP staP := by
  unfold mesh_rsn_mtk_context
  dsimp only
  rw [h1, h2, h3, h4, h5, h6, lid_pair_symm staM.my_lid staM.peer_lid]
  simp only [List.append_assoc]
  rw [sorted_pair_symm wM.own_addr wP.own_addr]
  have hn := sorted_pair_symm staM.my_nonce staM.peer_nonce 32
  rw [← List.append_assoc, hn, List.append_assoc]

/-! ## Key schedule -/

/-- C12: AEK and MTK derivation are symmetric under swapping the local and peer
roles. For all MAC addresses M and P, nonces n1 and n2, link IDs l1 and l2 and
every PMK, the PRF context that mesh_rsn_derive_aek and mesh_rsn_derive_mtk
build with (M, n1, l1) as local and (P, n2, l2) as peer is equal, byte for
byte, to the one built with (P, n2, l2) as local and (M, n1, l1) as peer, and
so are the derived keys; nothing is assumed of the MACs, nonces and link IDs,
so the cases in which two of them are equal are covered. -/
theorem mesh_rsn_keys_symmetric (K : mesh_defs) (S : suite_defs) (C : crypto_lib)
    (M P n1 n2 : List Nat) (l1 l2 : Nat) (pmk : List Nat)
    (rsnM rsnP : mesh_rsn) (wM wP : wpa_supplicant) (baseM baseP : sta_info)
    (sessM sessP : sae_data) :
    mesh_rsn_aek_context S { rsnM with auth_addr := M } (peer_record baseM sessM P n1 n2 l1 l2 pmk) =
      mesh_rsn_aek_context S { rsnP with auth_addr := P }
        (peer_record baseP sessP M n2 n1 l2 l1 pmk) ∧
    mesh_rsn_mtk_context S { wM with own_addr := M } (peer_record baseM sessM P n1 n2 l1 l2 pmk) =
      mesh_rsn_mtk_context S { wP with own_addr := P }
        (peer_record baseP sessP M n2 n1 l2 l1 pmk) ∧
    (mesh_rsn_derive_aek K S C { rsnM with auth_addr := M }
        (peer_record baseM sessM P n1 n2 l1 l2 pmk)).map (fun r => r.aek) =
      (mesh_rsn_derive_aek K S C { rsnP with auth_addr := P }
        (peer_record baseP sessP M n2 n1 l2 l1 pmk)).map (fun r => r.aek) ∧
    (mesh_rsn_derive_mtk K S C { wM with own_addr := M }
        (peer_record baseM sessM P n1 n2 l1 l2 pmk)).map (fun r => r.2.mtk) =
      (mesh_rsn_derive_mtk K S C { wP with own_addr := P }
        (peer_record baseP sessP M n2 n1 l2 l1 pmk)).map (fun r => r.2.mtk) ∧
    (mesh_rsn_derive_aek K S C { rsnM with auth_addr := M }
        (peer_record baseM sessM P n1 n2 l1 l2 pmk)).isSome = true ∧
    (mesh_rsn_derive_mtk K S C { wM with own_addr := M }
        (peer_record baseM sessM P n1 n2 l1 l2 pmk)).isSome = true := by
  have ha := mesh_rsn_aek_context_symm S { rsnM with auth_addr := M } { rsnP with auth_addr := P }
    (peer_record baseM sessM P n1 n2 l1 l2 pmk) (peer_record baseP sessP M n2 n1 l2 l1 pmk)
    rfl rfl
  have hm := mesh_rsn_mtk_context_symm S { wM with own_addr := M } { wP with own_addr := P }
    (peer_record baseM sessM P n1 n2 l1 l2 pmk) (peer_record baseP sessP M n2 n1 l2 l1 pmk)
    rfl rfl rfl rfl rfl rfl
  refine ⟨ha, hm, ?_, ?_, rfl, rfl⟩
  · unfold mesh_rsn_derive_aek
    rw [ha]
    rfl
  · unfold mesh_rsn_derive_mtk
    rw [hm]
    rfl

theorem sorted_pair_lex (a b : List Nat) (n : Nat) (ha : a.length = n) (hb : b.length = n) :
    os_memcpy (if os_memcmp a b n < 0 then (a, b) else (b, a)).1 n = lex_min a b ∧
    os_memcpy (if os_memcmp a b n < 0 then (a, b) else (b, a)).2 n = lex_max a b := by
  unfold lex_min lex_max
  by_cases h : os_memcmp a b n < 0
  · have h' := (os_memcmp_lt_iff n a b ha hb).mp h
    rw [if_pos h, if_pos h', if_pos h']
    exact ⟨os_memcpy_of_length n a ha, os_memcpy_of_length n b hb⟩
  · have h' : ¬ a < b := fun hlt => h ((os_memcmp_lt_iff n a b ha hb).mpr hlt)
    rw [if_neg h, if_neg h', if_neg h']
    exact ⟨os_memcpy_of_length n b hb, os_memcpy_of_length n a ha⟩

theorem lex_min_length (a b : List Nat) (n : Nat) (ha : a.length = n) (hb : b.length = n) :
    (lex_min a b).length = n ∧ (lex_max a b).length = n := by
  unfold lex_min lex_max
  by_cases h : a < b
  · rw [if_pos h, if_pos h]; exact ⟨ha, hb⟩
  · rw [if_neg h, if_neg h]; exact ⟨hb, ha⟩

theorem RSN_SELECTOR_PUT_length (val : Nat) : (RSN_SELECTOR_PUT val).length = 4 := rfl

/-- C13: for every local MAC M and peer MAC P (6 bytes each), the context
mesh_rsn_derive_aek passes to the SHA-256 PRF, keyed with the PMK of the SAE
session under the label "AEK Derivation", is exactly 16 bytes: the 4-byte suite
selector, then the lexicographically smaller of M and P (6 bytes), then the
lexicographically larger (6 bytes). -/
theorem mesh_rsn_derive_aek_context (K : mesh_defs) (S : suite_defs) (C : crypto_lib)
    (rsn : mesh_rsn) (sta : sta_info) (sae : sae_data)
    (hM : rsn.auth_addr.length = 6) (hP : sta.addr.length = 6)
    (hsae : sta.sae = some sae) :
    mesh_rsn_aek_context S rsn sta =
      spec_aek_context (RSN_SELECTOR_PUT (S.wpa_cipher_to_suite 0 S.WPA_CIPHER_GCMP))
        rsn.auth_addr sta.addr ∧
    (mesh_rsn_aek_context S rsn sta).length = 16 ∧
    (RSN_SELECTOR_PUT (S.wpa_cipher_to_suite 0 S.WPA_CIPHER_GCMP)).length = 4 ∧
    (lex_min rsn.auth_addr sta.addr).length = 6 ∧
    (lex_max rsn.auth_addr sta.addr).length = 6 ∧
    mesh_rsn_derive_aek K S C rsn sta =
      some { sta with
        aek := C.sha256_prf sae.pmk ("AEK Derivation")
          (spec_aek_context (RSN_SELECTOR_PUT (S.wpa_cipher_to_suite 0 S.WPA_CIPHER_GCMP))
            rsn.auth_addr sta.addr) K.sizeof_aek } := by
  have hp := sorted_pair_lex rsn.auth_addr sta.addr 6 hM hP
  have hl := lex_min_length rsn.auth_addr sta.addr 6 hM hP
  have hctx : mesh_rsn_aek_context S rsn sta =
      spec_aek_context (RSN_SELECTOR_PUT (S.wpa_cipher_to_suite 0 S.WPA_CIPHER_GCMP))
        rsn.auth_addr sta.addr := by
    unfold mesh_rsn_aek_context spec_aek_context
    dsimp only [ETH_ALEN]
    rw [hp.1, hp.2]
  refine ⟨hctx, ?_, rfl, hl.1, hl.2, ?_⟩
  · rw [hctx]
    unfold spec_aek_context
    simp only [List.length_append, hl.1, hl.2, RSN_SELECTOR_PUT_length]
  · unfold mesh_rsn_derive_aek
    simp only [hsae, hctx]

/-- The AEK context at a concrete input: the sample interface 02:00:00:00:00:01
and the sample peer 02:11:22:33:44:55; the selector 00-0F-AC:8 is followed by
the interface's address (the smaller one) and the peer's. -/
theorem mesh_rsn_derive_aek_context_witness :
    sample_rsn.auth_addr.length = 6 ∧ sample_keyed_sta.addr.length = 6 ∧
    mesh_rsn_aek_context hostap_suites sample_rsn sample_keyed_sta =
      [0x00, 0x0f, 0xac, 0x08, 2, 0, 0, 0, 0, 1, 2, 0x11, 0x22, 0x33, 0x44, 0x55] ∧
    spec_aek_context
        (RSN_SELECTOR_PUT (hostap_suites.wpa_cipher_to_suite 0 hostap_suites.WPA_CIPHER_GCMP))
        sample_rsn.auth_addr sample_keyed_sta.addr =
      [0x00, 0x0f, 0xac, 0x08, 2, 0, 0, 0, 0, 1, 2, 0x11, 0x22, 0x33, 0x44, 0x55] :=
  have h := mesh_rsn_derive_aek_context hostap_defs hostap_suites sample_crypto sample_rsn
    sample_keyed_sta { sae_data_zero with state := SAE_ACCEPTED, pmk := List.replicate 32 9 }
    rfl rfl rfl
  ⟨rfl, rfl, by decide, h.1 ▸ (by decide)⟩

theorem lid_bytes_eq_be16 (l : Nat) (h : l < 65536) : lid_bytes l = be16 l := by
  unfold lid_bytes be16
  have h1 : (l >>> 8) &&& 0xff = l / 256 := by
    have e := Nat.and_pow_two_sub_one_eq_mod (l >>> 8) 8
    have e2 : l >>> 8 = l / 256 := by rw [Nat.shiftRight_eq_div_pow]
    rw [e2] at e
    have e3 : (l / 256) % 2 ^ 8 = l / 256 := Nat.mod_eq_of_lt (by omega)
    rw [e3] at e
    rw [e2]
    exact e
  have h2 : l &&& 0xff = l % 256 := Nat.and_pow_two_sub_one_eq_mod l 8
  rw [h1, h2]

theorem pair_lex_lt_iff (a b c d : Nat) :
    [a, b] < [c, d] ↔ a < c ∨ (a = c ∧ b < d) := by
  constructor
  · intro h
    cases h with
    | rel h1 => exact Or.inl h1
    | cons h1 =>
      cases h1 with
      | rel h2 => exact Or.inr ⟨rfl, h2⟩
      | cons h2 => cases h2
  · intro h
    rcases h with h | ⟨h1, h2⟩
    · exact List.Lex.rel h
    · subst h1
      exact List.Lex.cons (List.Lex.rel h2)

theorem be16_lt_iff (l1 l2 : Nat) : l1 < l2 ↔ be16 l1 < be16 l2 := by
  unfold be16
  rw [pair_lex_lt_iff]
  constructor
  · intro h
    by_cases hd : l1 / 256 = l2 / 256
    · exact Or.inr ⟨hd, by omega⟩
    · exact Or.inl (by omega)
  · intro h
    rcases h with h | ⟨ha, hb⟩ <;> omega

/-- C14: for every peer record with 32-byte nonces, 16-bit link IDs and 6-byte
addresses, the context mesh_rsn_derive_mtk passes to the SHA-256 PRF (keyed
with the PMK, label "Temporal Key Derivation") is exactly 84 bytes laid out as:
lexicographically smaller nonce, larger nonce, smaller link ID as 2 big-endian
bytes, larger link ID as 2 big-endian bytes, 4-byte suite selector,
lexicographically smaller MAC, larger MAC. The numeric comparison of the link
IDs picks the same order as the lexicographic comparison of their big-endian
encodings. -/
theorem mesh_rsn_derive_mtk_context (K : mesh_defs) (S : suite_defs) (C : crypto_lib)
    (wpa_s : wpa_supplicant) (sta : sta_info) (sae : sae_data)
    (hn1 : sta.my_nonce.length = 32) (hn2 : sta.peer_nonce.length = 32)
    (hl1 : sta.my_lid < 65536) (hl2 : sta.peer_lid < 65536)
    (hM : wpa_s.own_addr.length = 6) (hP : sta.addr.length = 6)
    (hsae : sta.sae = some sae) :
    mesh_rsn_mtk_context S wpa_s sta =
      spec_mtk_context (RSN_SELECTOR_PUT (S.wpa_cipher_to_suite 0 S.WPA_CIPHER_GCMP))
        sta.my_nonce sta.peer_nonce sta.my_lid sta.peer_lid wpa_s.own_addr sta.addr ∧
    (mesh_rsn_mtk_context S wpa_s sta).length = 84 ∧
    (lex_min sta.my_nonce sta.peer_nonce).length = 32 ∧
    (lex_max sta.my_nonce sta.peer_nonce).length = 32 ∧
    (sta.my_lid < sta.peer_lid ↔ be16 sta.my_lid < be16 sta.peer_lid) ∧
    (sta.peer_lid < sta.my_lid ↔ be16 sta.peer_lid < be16 sta.my_lid) ∧
    be16 (min sta.my_lid sta.peer_lid) = lex_min (be16 sta.my_lid) (be16 sta.peer_lid) ∧
    be16 (max sta.my_lid sta.peer_lid) = lex_max (be16 sta.my_lid) (be16 sta.peer_lid) ∧
    mesh_rsn_derive_mtk K S C wpa_s sta =
      some (0, { sta with
        mtk := C.sha256_prf sae.pmk ("Temporal Key Derivation")
          (spec_mtk_context (RSN_SELECTOR_PUT (S.wpa_cipher_to_suite 0 S.WPA_CIPHER_GCMP))
            sta.my_nonce sta.peer_nonce sta.my_lid sta.peer_lid wpa_s.own_addr sta.addr)
          K.sizeof_mtk }) := by
  have hn := sorted_pair_lex sta.my_nonce sta.peer_nonce 32 hn1 hn2
  have ha := sorted_pair_lex wpa_s.own_addr sta.addr 6 hM hP
  have hnl := lex_min_length sta.my_nonce sta.peer_nonce 32 hn1 hn2
  have hal := lex_min_length wpa_s.own_addr sta.addr 6 hM hP
  have hb := be16_lt_iff sta.my_lid sta.peer_lid
  have hb' := be16_lt_iff sta.peer_lid sta.my_lid
  have hlid : os_memcpy (if sta.my_lid < sta.peer_lid then
          (lid_bytes sta.my_lid, lid_bytes sta.peer_lid)
        else (lid_bytes sta.peer_lid, lid_bytes sta.my_lid)).1 2 =
        be16 (min sta.my_lid sta.peer_lid) ∧
      os_memcpy (if sta.my_lid < sta.peer_lid then
          (lid_bytes sta.my_lid, lid_bytes sta.peer_lid)
        else (lid_bytes sta.peer_lid, lid_bytes sta.my_lid)).2 2 =
        be16 (max sta.my_lid sta.peer_lid) := by
    by_cases h : sta.my_lid < sta.peer_lid
    · rw [if_pos h, Nat.min_eq_left (Nat.le_of_lt h), Nat.max_eq_right (Nat.le_of_lt h),
        lid_bytes_eq_be16 _ hl1, lid_bytes_eq_be16 _ hl2]
      exact ⟨os_memcpy_of_length 2 _ rfl, os_memcpy_of_length 2 _ rfl⟩
    · rw [if_neg h, Nat.min_eq_right (Nat.le_of_not_lt h), Nat.max_eq_left (Nat.le_of_not_lt h),
        lid_bytes_eq_be16 _ hl1, lid_bytes_eq_be16 _ hl2]
      exact ⟨os_memcpy_of_length 2 _ rfl, os_memcpy_of_length 2 _ rfl⟩
  have hmin : be16 (min sta.my_lid sta.peer_lid) =
      lex_min (be16 sta.my_lid) (be16 sta.peer_lid) := by
    unfold lex_min
    by_cases h : sta.my_lid < sta.peer_lid
    · rw [if_pos (hb.mp h), Nat.min_eq_left (Nat.le_of_lt h)]
    · rw [if_neg (fun hh => h (hb.mpr hh)), Nat.min_eq_right (Nat.le_of_not_lt h)]
  have hmax : be16 (max sta.my_lid sta.peer_lid) =
      lex_max (be16 sta.my_lid) (be16 sta.peer_lid) := by
    unfold lex_max
    by_cases h : sta.my_lid < sta.peer_lid
    · rw [if_pos (hb.mp h), Nat.max_eq_right (Nat.le_of_lt h)]
    · rw [if_neg (fun hh => h (hb.mpr hh)), Nat.max_eq_left (Nat.le_of_not_lt h)]
  have hctx : mesh_rsn_mtk_context S wpa_s sta =
      spec_mtk_context (RSN_SELECTOR_PUT (S.wpa_cipher_to_suite 0 S.WPA_CIPHER_GCMP))
        sta.my_nonce sta.peer_nonce sta.my_lid sta.peer_lid wpa_s.own_addr sta.addr := by
    unfold mesh_rsn_mtk_context spec_mtk_context
    dsimp only [ETH_ALEN]
    rw [hn.1, hn.2, ha.1, ha.2, hlid.1, hlid.2]
  refine ⟨hctx, ?_, hnl.1, hnl.2, hb, hb', hmin, hmax, ?_⟩
  · rw [hctx]
    unfold spec_mtk_context
    simp only [List.length_append, hnl.1, hnl.2, hal.1, hal.2, RSN_SELECTOR_PUT_length, be16,
      List.length_cons, List.length_nil]
  · unfold mesh_rsn_derive_mtk
    simp only [hsae, hctx]

/-- The MTK context at a concrete input: the sample record with nonces 7.. and
5.., link IDs 0x0102 and 0x00ff, between 02:00:00:00:00:01 and
02:11:22:33:44:55. -/
theorem mesh_rsn_derive_mtk_context_witness :
    sample_keyed_sta.my_lid < 65536 ∧ sample_keyed_sta.peer_lid < 65536 ∧
    mesh_rsn_mtk_context hostap_suites sample_wpa_s sample_keyed_sta =
      List.replicate 32 5 ++ List.replicate 32 7 ++ [0x00, 0xff] ++ [0x01, 0x02]
        ++ [0x00, 0x0f, 0xac, 0x08] ++ [2, 0, 0, 0, 0, 1] ++ [2, 0x11, 0x22, 0x33, 0x44, 0x55] ∧
    (mesh_rsn_mtk_context hostap_suites sample_wpa_s sample_keyed_sta).length = 84 :=
  have h := mesh_rsn_derive_mtk_context hostap_defs hostap_suites sample_crypto sample_wpa_s
    sample_keyed_sta { sae_data_zero with state := SAE_ACCEPTED, pmk := List.replicate 32 9 }
    rfl rfl (by decide) (by decide) rfl rfl rfl
  ⟨by decide, by decide, by decide, h.2.1⟩

/-! ## AMPE frame codec -/

theorem ampe_ie_plain_length (A : ampe_defs) (S : suite_defs) (rsn : mesh_rsn)
    (sta : sta_info) : (ampe_ie_plain A S rsn sta).length = 98 := by
  simp [ampe_ie_plain, os_memcpy_length, RSN_SELECTOR_PUT_length]

theorem mesh_rsn_protect_frame_eq (A : ampe_defs) (S : suite_defs) (V : aes_siv_lib)
    (wpa_s : wpa_supplicant) (rsn : mesh_rsn) (sta : sta_info) (cat : Nat) (buf : wpabuf)
    (hroom : 116 ≤ wpabuf_tailroom buf) (hmem : next_two_allocs_ok wpa_s)
    (hcat : cat ≤ buf.data.length)
    (hlen : (protect_frame_ct A S V rsn sta cat buf).length = 114) :
    mesh_rsn_protect_frame A S V wpa_s rsn sta cat buf =
      some (if protect_frame_status A S V rsn sta cat buf ≠ 0 then -A.ENOMEM else 0,
        after_two_allocs wpa_s,
        { buf with
          data := buf.data ++ [A.WLAN_EID_MIC, 16] ++ protect_frame_ct A S V rsn sta cat buf }) := by
  obtain ⟨h1, h2⟩ := hmem
  have hr1 : ¬ (AES_BLOCK_SIZE + 2 + sizeof_ampe_ie + 2 > wpabuf_tailroom buf) := by
    simp only [AES_BLOCK_SIZE, sizeof_ampe_ie]; omega
  have hc : ¬ cat > buf.data.length := by omega
  have hcp : os_memcpy (protect_frame_ct A S V rsn sta cat buf)
      (2 + sizeof_ampe_ie + AES_BLOCK_SIZE) = protect_frame_ct A S V rsn sta cat buf :=
    os_memcpy_of_length _ _ (by rw [hlen]; rfl)
  have hp1 : wpabuf_put_data buf [A.WLAN_EID_MIC, AES_BLOCK_SIZE] =
      some { buf with data := buf.data ++ [A.WLAN_EID_MIC, AES_BLOCK_SIZE] } := by
    unfold wpabuf_put_data
    rw [if_neg (by simp only [List.length_cons, List.length_nil]; omega)]
  have hp2 : wpabuf_put_data { buf with data := buf.data ++ [A.WLAN_EID_MIC, AES_BLOCK_SIZE] }
      (protect_frame_ct A S V rsn sta cat buf) =
      some { buf with
        data := buf.data ++ [A.WLAN_EID_MIC, AES_BLOCK_SIZE]
          ++ protect_frame_ct A S V rsn sta cat buf } := by
    unfold wpabuf_put_data
    rw [if_neg (by
      unfold wpabuf_tailroom at hroom ⊢
      simp only [List.length_append, List.length_cons, List.length_nil, hlen]; omega)]
  unfold protect_frame_ct at hcp hp2
  unfold mesh_rsn_protect_frame
  rw [if_neg hr1]
  simp only [os_alloc, h1, h2, Bool.not_false, Bool.not_true, Bool.false_eq_true, if_false,
    hp1]
  rw [if_neg hc]
  simp only [hcp, hp2, protect_frame_status, protect_frame_ct, after_two_allocs]
  split_ifs <;> rfl

/-- C15: for every buffer with at least 116 bytes of tailroom (the two
temporary buffers being allocated, the category byte lying in the buffer, and
aes_siv_encrypt leaving the 16 + 98 bytes its contract promises),
mesh_rsn_protect_frame appends exactly 116 bytes: the MIC IE header (EID=MIC,
LEN=16) followed by the 114-byte AES-SIV output for the plaintext AMPE IE, and
that plaintext is EID=AMPE, LEN=96, the pairwise suite selector (4), the
sender's my_nonce (32), the stored peer_nonce (32), the local MGTK (16), 8 zero
bytes of key RSC and 4 bytes 0xff of key expiration. With less than 116 bytes
of tailroom it returns -EINVAL and leaves the buffer (and the machine)
unchanged. -/
theorem mesh_rsn_protect_frame_appends (A : ampe_defs) (S : suite_defs) (V : aes_siv_lib)
    (wpa_s : wpa_supplicant) (rsn : mesh_rsn) (sta : sta_info) (cat : Nat) (buf : wpabuf)
    (hroom : 116 ≤ wpabuf_tailroom buf) (hmem : next_two_allocs_ok wpa_s)
    (hcat : cat ≤ buf.data.length)
    (hlen : (protect_frame_ct A S V rsn sta cat buf).length =
      (ampe_ie_plain A S rsn sta).length + 16) :
    (∃ ret w1 buf1,
      mesh_rsn_protect_frame A S V wpa_s rsn sta cat buf = some (ret, w1, buf1) ∧
      buf1.data = buf.data ++ [A.WLAN_EID_MIC, 16] ++ protect_frame_ct A S V rsn sta cat buf ∧
      buf1.data.length = buf.data.length + 116 ∧
      buf1.size = buf.size ∧
      (ret = 0 ∨ ret = -A.ENOMEM) ∧
      (protect_frame_status A S V rsn sta cat buf = 0 → ret = 0)) ∧
    (protect_frame_ct A S V rsn sta cat buf).length = 114 ∧
    protect_frame_ct A S V rsn sta cat buf =
      (V.aes_siv_encrypt sta.aek (ampe_ie_plain A S rsn sta)
        [os_memcpy rsn.auth_addr 6, os_memcpy sta.addr 6, buf.data.drop cat]).2 ∧
    ampe_ie_plain A S rsn sta =
      [A.WLAN_EID_AMPE, 96]
        ++ RSN_SELECTOR_PUT (S.wpa_cipher_to_suite S.WPA_PROTO_RSN S.WPA_CIPHER_CCMP)
        ++ os_memcpy sta.my_nonce 32 ++ os_memcpy sta.peer_nonce 32 ++ os_memcpy rsn.mgtk 16
        ++ [0, 0, 0, 0, 0, 0, 0, 0] ++ [0xff, 0xff, 0xff, 0xff] ∧
    (ampe_ie_plain A S rsn sta).length = 98 ∧
    (∀ (w0 : wpa_supplicant) (buf0 : wpabuf), wpabuf_tailroom buf0 < 116 →
      mesh_rsn_protect_frame A S V w0 rsn sta cat buf0 = some (-A.EINVAL, w0, buf0)) := by
  have hl : (protect_frame_ct A S V rsn sta cat buf).length = 114 := by
    rw [hlen, ampe_ie_plain_length]
  have he := mesh_rsn_protect_frame_eq A S V wpa_s rsn sta cat buf hroom hmem hcat hl
  refine ⟨⟨_, _, _, he, rfl, ?_, rfl, ?_, ?_⟩, hl, ?_, rfl, ampe_ie_plain_length A S rsn sta, ?_⟩
  · simp only [List.length_append, hl, List.length_cons, List.length_nil]
  · by_cases h : protect_frame_status A S V rsn sta cat buf = 0
    · exact Or.inl (by simp [h])
    · exact Or.inr (by simp [h])
  · intro h; simp [h]
  · unfold protect_frame_ct protect_frame_aad
    rw [os_memcpy_of_length _ (buf.data.drop cat) (by simp)]
    rfl
  · intro w0 buf0 h0
    unfold mesh_rsn_protect_frame
    have : AES_BLOCK_SIZE + 2 + sizeof_ampe_ie + 2 > wpabuf_tailroom buf0 := by
      simp only [AES_BLOCK_SIZE, sizeof_ampe_ie]; omega
    simp only [this, if_true]

/-- The sender's side at a concrete input: the sample buffer of 4 bytes with
room for 200, category byte at offset 0, the sample sender record and RSN
context; 116 bytes are appended and the status is 0. -/
theorem mesh_rsn_protect_frame_appends_witness :
    116 ≤ wpabuf_tailroom sample_buf ∧ next_two_allocs_ok sample_wpa_s ∧
    (∃ ret w1 buf1,
      mesh_rsn_protect_frame hostap_ampe_defs hostap_suites sample_siv sample_wpa_s sample_rsn
        sample_sender_sta 0 sample_buf = some (ret, w1, buf1) ∧
      buf1.data.length = sample_buf.data.length + 116 ∧ ret = 0) :=
  have h := mesh_rsn_protect_frame_appends hostap_ampe_defs hostap_suites sample_siv
    sample_wpa_s sample_rsn sample_sender_sta 0 sample_buf (by decide) ⟨rfl, rfl⟩ (by decide)
    (by decide)
  ⟨by decide, ⟨rfl, rfl⟩,
    h.1.elim (fun ret h1 => h1.elim (fun w1 h2 => h2.elim (fun buf1 h3 =>
      ⟨ret, w1, buf1, h3.1, h3.2.2.1, h3.2.2.2.2.2 (by decide)⟩)))⟩

theorem byte_at_os_memcpy (a : List Nat) (n i : Nat) (h : i < n) :
    byte_at (os_memcpy a n) i = byte_at a i := by
  unfold os_memcpy byte_at
  simp [List.getD_eq_getElem?_getD, h]

theorem byte_at_drop (a : List Nat) (k i : Nat) : byte_at (a.drop k) i = byte_at a (k + i) := by
  unfold byte_at
  simp [List.getD_eq_getElem?_getD]

theorem os_memcpy_congr (a b : List Nat) (n : Nat)
    (h : ∀ i, i < n → byte_at a i = byte_at b i) : os_memcpy a n = os_memcpy b n := by
  unfold os_memcpy
  apply List.map_congr_left
  intro i hi
  exact h i (List.mem_range.mp hi)

theorem os_memcpy_idem (a : List Nat) (n : Nat) : os_memcpy (os_memcpy a n) n = os_memcpy a n :=
  os_memcpy_of_length n _ (os_memcpy_length a n)

theorem os_memcmp_of_eq (n : Nat) :
    ∀ a b : List Nat, os_memcpy a n = os_memcpy b n → os_memcmp a b n = 0 := by
  induction n with
  | zero => intro a b _; rfl
  | succ n ih =>
    intro a b h
    rw [os_memcpy_succ, os_memcpy_succ] at h
    injection h with h1 h2
    unfold os_memcmp
    rw [if_pos h1]
    exact ih _ _ h2

theorem os_memcmp_eq_zero_iff (n : Nat) (a b : List Nat) :
    os_memcmp a b n = 0 ↔ os_memcpy a n = os_memcpy b n :=
  ⟨os_memcmp_eq_zero n a b, os_memcmp_of_eq n a b⟩

theorem ampe_fields_of_buf (pt : List Nat) (m : Nat) (hm : 86 ≤ m) :
    ampe_local_nonce (os_memcpy pt m) = ampe_local_nonce pt ∧
    ampe_peer_nonce (os_memcpy pt m) = ampe_peer_nonce pt ∧
    ampe_mgtk (os_memcpy pt m) = ampe_mgtk pt := by
  unfold ampe_local_nonce ampe_peer_nonce ampe_mgtk
  refine ⟨?_, ?_, ?_⟩ <;>
    (apply os_memcpy_congr
     intro i hi
     rw [byte_at_drop, byte_at_drop, byte_at_os_memcpy _ _ _ (by omega)])

theorem os_memcpy_append_left (n : Nat) :
    ∀ a b : List Nat, a.length = n → os_memcpy (a ++ b) n = a := by
  induction n with
  | zero =>
    intro a b h
    rw [List.length_eq_zero] at h
    subst h; rfl
  | succ n ih =>
    intro a b h
    cases a with
    | nil => cases h
    | cons x xs =>
      rw [os_memcpy_succ]
      simp only [List.cons_append, List.headD_cons, List.tail_cons]
      rw [ih xs b (by simpa using h)]

theorem ampe_ie_plain_fields (A : ampe_defs) (S : suite_defs) (rsn : mesh_rsn)
    (sta : sta_info) :
    byte_at (ampe_ie_plain A S rsn sta) 0 = A.WLAN_EID_AMPE ∧
    byte_at (ampe_ie_plain A S rsn sta) 1 = sizeof_ampe_ie ∧
    ampe_local_nonce (ampe_ie_plain A S rsn sta) = os_memcpy sta.my_nonce 32 ∧
    ampe_peer_nonce (ampe_ie_plain A S rsn sta) = os_memcpy sta.peer_nonce 32 ∧
    ampe_mgtk (ampe_ie_plain A S rsn sta) = os_memcpy rsn.mgtk 16 := by
  refine ⟨rfl, rfl, ?_, ?_, ?_⟩
  · unfold ampe_local_nonce ampe_ie_plain RSN_SELECTOR_PUT
    simp only [List.append_assoc, List.cons_append, List.nil_append, List.drop_succ_cons,
      List.drop_zero, Nat.reduceAdd]
    exact os_memcpy_append_left 32 _ _ (os_memcpy_length _ _)
  · unfold ampe_peer_nonce ampe_ie_plain RSN_SELECTOR_PUT
    simp only [List.append_assoc, List.cons_append, List.nil_append, List.drop_succ_cons,
      List.drop_zero, Nat.reduceAdd]
    rw [List.drop_append_eq_append_drop, List.drop_of_length_le (by simp [os_memcpy_length]),
      os_memcpy_length, List.nil_append]
    simp only [Nat.sub_self, List.drop_zero]
    exact os_memcpy_append_left 32 _ _ (os_memcpy_length _ _)
  · unfold ampe_mgtk ampe_ie_plain RSN_SELECTOR_PUT
    simp only [List.append_assoc, List.cons_append, List.nil_append, List.drop_succ_cons,
      List.drop_zero, Nat.reduceAdd]
    rw [List.drop_append_eq_append_drop, List.drop_of_length_le (by simp [os_memcpy_length]),
      os_memcpy_length, List.nil_append]
    simp only [Nat.reduceSub]
    rw [List.drop_append_eq_append_drop, List.drop_of_length_le (by simp [os_memcpy_length]),
      os_memcpy_length, List.nil_append]
    simp only [Nat.sub_self, List.drop_zero]
    exact os_memcpy_append_left 16 _ _ (os_memcpy_length _ _)

theorem ampe_peer_nonce_length (b : List Nat) : (ampe_peer_nonce b).length = 32 :=
  os_memcpy_length _ _

theorem mesh_rsn_process_ampe_eq (A : ampe_defs) (V : aes_siv_lib) (wpa_s : wpa_supplicant)
    (sta : sta_info) (elems : ieee802_11_elems) (frame : List Nat)
    (cat start elems_len : Nat) (rsn : mesh_rsn) (mic crypt_len : Nat) (pt : List Nat)
    (hrsn : wpa_s.mesh_rsn = some rsn) (hmic : elems.mic = some mic)
    (hml : 16 ≤ elems.mic_len) (hcl : mic + crypt_len = start + elems_len)
    (h86 : 86 ≤ crypt_len) (hmem : next_two_allocs_ok wpa_s) (hcat : cat + 2 ≤ mic)
    (hdec : V.aes_siv_decrypt sta.aek (process_ampe_crypt frame mic crypt_len)
      (process_ampe_aad rsn sta frame cat mic) = (0, pt))
    (heid : byte_at pt 0 = A.WLAN_EID_AMPE) (hlen : sizeof_ampe_ie ≤ byte_at pt 1) :
    mesh_rsn_process_ampe A V wpa_s sta elems frame cat start elems_len =
      if ampe_peer_nonce pt ≠ List.replicate 32 0 ∧
          ampe_peer_nonce pt ≠ os_memcpy sta.my_nonce 32 then
        some (-1, after_two_allocs wpa_s, sta)
      else
        some (0, after_two_allocs wpa_s,
          { sta with peer_nonce := ampe_local_nonce pt, mgtk := ampe_mgtk pt }) := by
  obtain ⟨h1, h2⟩ := hmem
  have e : start + elems_len - mic = crypt_len := by omega
  have hf := ampe_fields_of_buf pt crypt_len h86
  have hz : os_memcmp (ampe_peer_nonce pt) (List.replicate 32 0) 32 ≠ 0 ↔
      ampe_peer_nonce pt ≠ List.replicate 32 0 := by
    rw [ne_eq, ne_eq, os_memcmp_eq_zero_iff,
      os_memcpy_of_length 32 _ (ampe_peer_nonce_length pt),
      os_memcpy_of_length 32 (List.replicate 32 0) (by simp)]
  have hn : os_memcmp (ampe_peer_nonce pt) sta.my_nonce 32 ≠ 0 ↔
      ampe_peer_nonce pt ≠ os_memcpy sta.my_nonce 32 := by
    rw [ne_eq, ne_eq, os_memcmp_eq_zero_iff,
      os_memcpy_of_length 32 _ (ampe_peer_nonce_length pt)]
  unfold mesh_rsn_process_ampe
  simp only [hrsn, hmic, e]
  rw [if_neg (by simp only [AES_BLOCK_SIZE]; omega), if_neg (by omega)]
  rw [if_neg (by omega)]
  simp only [os_alloc, h1, h2, Bool.not_false, Bool.not_true, Bool.false_eq_true, if_false]
  rw [if_neg (by omega)]
  simp only [hdec]
  rw [if_neg (by simp), byte_at_os_memcpy _ _ _ (by omega), byte_at_os_memcpy _ _ _ (by omega),
    if_neg (by rw [heid]; simp only [ne_eq, not_true_eq_false, false_or]; omega),
    if_neg (by omega), hf.1, hf.2.1, hf.2.2]
  simp only [hz, hn, after_two_allocs]
  by_cases hc : ampe_peer_nonce pt ≠ List.replicate 32 0 ∧
      ampe_peer_nonce pt ≠ os_memcpy sta.my_nonce 32
  · rw [if_pos hc, if_pos hc]
  · rw [if_neg hc, if_neg hc, if_neg (by omega)]

/-- C17: for every frame that decrypts and authenticates successfully (status 0
with plaintext `pt`) and carries a well-formed AMPE IE (EID AMPE, length at
least 96, the element lying inside the plaintext), mesh_rsn_process_ampe
returns failure (-1, record unchanged) whenever the peer_nonce field of the IE
is neither 32 zero bytes nor equal to the receiver's my_nonce for that peer,
and accepts the frame (status 0, peer_nonce and mgtk taken from the IE) when it
is one of the two. -/
theorem mesh_rsn_process_ampe_nonce (A : ampe_defs) (V : aes_siv_lib) (wpa_s : wpa_supplicant)
    (sta : sta_info) (elems : ieee802_11_elems) (frame : List Nat)
    (cat start elems_len : Nat) (rsn : mesh_rsn) (mic crypt_len : Nat) (pt : List Nat)
    (hrsn : wpa_s.mesh_rsn = some rsn) (hmic : elems.mic = some mic)
    (hml : 16 ≤ elems.mic_len) (hcl : mic + crypt_len = start + elems_len)
    (hmem : next_two_allocs_ok wpa_s) (hcat : cat + 2 ≤ mic)
    (hdec : V.aes_siv_decrypt sta.aek (process_ampe_crypt frame mic crypt_len)
      (process_ampe_aad rsn sta frame cat mic) = (0, pt))
    (heid : byte_at pt 0 = A.WLAN_EID_AMPE) (hlen : sizeof_ampe_ie ≤ byte_at pt 1)
    (hwf : 2 + sizeof_ampe_ie ≤ pt.length) (hfit : pt.length ≤ crypt_len) :
    (ampe_peer_nonce pt ≠ List.replicate 32 0 ∧
        ampe_peer_nonce pt ≠ os_memcpy sta.my_nonce 32 →
      mesh_rsn_process_ampe A V wpa_s sta elems frame cat start elems_len =
        some (-1, after_two_allocs wpa_s, sta)) ∧
    (ampe_peer_nonce pt = List.replicate 32 0 ∨
        ampe_peer_nonce pt = os_memcpy sta.my_nonce 32 →
      mesh_rsn_process_ampe A V wpa_s sta elems frame cat start elems_len =
        some (0, after_two_allocs wpa_s,
          { sta with peer_nonce := ampe_local_nonce pt, mgtk := ampe_mgtk pt })) := by
  have h86 : 86 ≤ crypt_len := by
    unfold sizeof_ampe_ie at hwf; omega
  have he := mesh_rsn_process_ampe_eq A V wpa_s sta elems frame cat start elems_len rsn mic
    crypt_len pt hrsn hmic hml hcl h86 hmem hcat hdec heid hlen
  constructor
  · intro h
    rw [he, if_pos h]
  · intro h
    rw [he, if_neg (by
      intro hc
      rcases h with h | h
      · exact hc.1 h
      · exact hc.2 h)]

theorem process_ampe_kept {b : hostapd_data} {r ret : Int} {w w1 : wpa_supplicant}
    {sta sta1 : sta_info} (h : some (r, w, sta) = some (ret, w1, sta1)) (hb : w.bss0 = b) :
    sta1 = sta ∧ w1.bss0 = b := by
  simp only [Option.some.injEq, Prod.mk.injEq] at h
  obtain ⟨_, hw, hs⟩ := h
  exact ⟨hs.symm, by rw [← hw, hb]⟩

theorem process_ampe_zero {ret : Int} {w w1 : wpa_supplicant} {sta sta1 : sta_info}
    (h : some ((0 : Int), w, sta) = some (ret, w1, sta1)) (hret : ret ≠ 0) : False := by
  simp only [Option.some.injEq, Prod.mk.injEq] at h
  exact hret h.1.symm

/-- C18: mesh_rsn_process_ampe is atomic on error: whenever it returns a
non-zero status, whatever the reason (MIC element absent or shorter than 16
bytes, encrypted region shorter than 2 bytes, allocation failure, AES-SIV
verification failure, decrypted EID not AMPE or IE length below 96, invalid
peer nonce), the peer record it returns is the one it was given: peer_nonce,
mgtk, my_nonce, link IDs and plink_state keep their previous values, and the
peer table of the machine is untouched. -/
theorem mesh_rsn_process_ampe_atomic (A : ampe_defs) (V : aes_siv_lib)
    (wpa_s w1 : wpa_supplicant) (sta sta1 : sta_info) (elems : ieee802_11_elems)
    (frame : List Nat) (cat start elems_len : Nat) (ret : Int)
    (h : mesh_rsn_process_ampe A V wpa_s sta elems frame cat start elems_len =
      some (ret, w1, sta1))
    (hret : ret ≠ 0) :
    sta1 = sta ∧ w1.bss0 = wpa_s.bss0 := by
  unfold mesh_rsn_process_ampe at h
  cases hr : wpa_s.mesh_rsn with
  | none => rw [hr] at h; exact Option.noConfusion h
  | some rsn =>
    cases hm : elems.mic with
    | none => rw [hr, hm] at h; exact process_ampe_kept h rfl
    | some mic =>
      rw [hr, hm] at h
      dsimp only at h
      by_cases c1 : elems.mic_len < AES_BLOCK_SIZE
      · rw [if_pos c1] at h; exact process_ampe_kept h rfl
      rw [if_neg c1] at h
      by_cases c2 : start + elems_len < mic
      · rw [if_pos c2] at h; exact Option.noConfusion h
      rw [if_neg c2] at h
      by_cases c3 : start + elems_len - mic < 2
      · rw [if_pos c3] at h; exact process_ampe_kept h rfl
      rw [if_neg c3] at h
      by_cases c4 : (!(os_alloc wpa_s).1) = true
      · rw [if_pos c4] at h; exact process_ampe_kept h rfl
      rw [if_neg c4] at h
      by_cases c5 : (!(os_alloc (os_alloc wpa_s).2).1) = true
      · rw [if_pos c5] at h; exact process_ampe_kept h rfl
      rw [if_neg c5] at h
      by_cases c6 : mic < cat + 2
      · rw [if_pos c6] at h; exact Option.noConfusion h
      rw [if_neg c6] at h
      split at h
      · exact process_ampe_kept h rfl
      split at h
      · exact process_ampe_kept h rfl
      split at h
      · exact Option.noConfusion h
      split at h
      · exact process_ampe_kept h rfl
      split at h
      · exact Option.noConfusion h
      · exact absurd (process_ampe_zero h hret) id

/-- Atomicity at a concrete input: the sample frame arrives at the sample peer
but the element view has no MIC element; the status is -1 and the record is
returned as it was. -/
theorem mesh_rsn_process_ampe_atomic_witness :
    mesh_rsn_process_ampe hostap_ampe_defs sample_siv sample_receiver_wpa_s sample_receiver_sta
        sample_elems sample_frame 0 2 118 =
      some (-1, sample_receiver_wpa_s, sample_receiver_sta) ∧
    (-1 : Int) ≠ 0 ∧
    sample_receiver_sta = sample_receiver_sta ∧
    sample_receiver_wpa_s.bss0 = sample_receiver_wpa_s.bss0 :=
  ⟨rfl, by decide,
    mesh_rsn_process_ampe_atomic hostap_ampe_defs sample_siv sample_receiver_wpa_s
      sample_receiver_wpa_s sample_receiver_sta sample_receiver_sta sample_elems sample_frame
      0 2 118 (-1) rfl (by decide)⟩

theorem byte_at_append_left (a b : List Nat) (i : Nat) (h : i < a.length) :
    byte_at (a ++ b) i = byte_at a i := by
  unfold byte_at
  simp [List.getD_eq_getElem?_getD, List.getElem?_append_left h]

theorem byte_at_append_right (a b : List Nat) (i : Nat) :
    byte_at (a ++ b) (a.length + i) = byte_at b i := by
  unfold byte_at
  simp [List.getD_eq_getElem?_getD, List.getElem?_append_right]

theorem rx_frame_aad (pre data tail : List Nat) (c : Nat) (hc : c ≤ data.length) :
    os_memcpy ((pre ++ (data ++ tail)).drop (pre.length + c))
        (pre.length + data.length + 2 - 2 - (pre.length + c)) =
      os_memcpy (data.drop c) (data.length - c) := by
  have hl : pre.length + data.length + 2 - 2 - (pre.length + c) = data.length - c := by omega
  rw [hl]
  apply os_memcpy_congr
  intro i hi
  rw [byte_at_drop, byte_at_drop, Nat.add_assoc, byte_at_append_right,
    byte_at_append_left _ _ _ (by omega)]

theorem rx_frame_crypt (pre data hdr ct : List Nat) (n : Nat) (hh : hdr.length = 2)
    (hn : ct.length = n) :
    os_memcpy ((pre ++ (data ++ hdr ++ ct)).drop (pre.length + data.length + 2)) n = ct := by
  rw [← os_memcpy_of_length n ct hn]
  apply os_memcpy_congr
  intro i _
  rw [os_memcpy_of_length n ct hn, byte_at_drop]
  have e : pre.length + data.length + 2 + i = pre.length + ((data ++ hdr).length + i) := by
    rw [List.length_append, hh]; omega
  rw [e, byte_at_append_right, byte_at_append_right]

/-- C16: round trip of the AMPE codec. Assume that aes_siv_decrypt inverts
aes_siv_encrypt under equal key and equal AAD vector, and that the output of
aes_siv_encrypt is 16 bytes longer than its input. Let sender S protect a frame
(tailroom, allocations and encryption succeeding) for receiver R; let R share
the AEK, let S's stored peer_nonce be all-zero or equal to R's my_nonce, and let
R receive a frame (after any bytes `pre`) whose element region ends right after
the bytes written by mesh_rsn_protect_frame. Then the three AAD components R
builds in mesh_rsn_process_ampe (S's MAC, R's MAC, the frame from the category
byte up to the MIC IE header) equal the three S used, the region R decrypts is
exactly the ciphertext S appended, and mesh_rsn_process_ampe returns 0 having
set R's peer_nonce to S's my_nonce and R's mgtk to S's group key. -/
theorem mesh_rsn_ampe_roundtrip (A : ampe_defs) (Sd : suite_defs) (V : aes_siv_lib)
    (wS wR : wpa_supplicant) (rsnS rsnR : mesh_rsn) (staS staR : sta_info)
    (catS : Nat) (bufS : wpabuf) (elems : ieee802_11_elems) (pre : List Nat)
    (start elems_len : Nat)
    (hinv : ∀ key pw aad, (V.aes_siv_encrypt key pw aad).1 = 0 →
      V.aes_siv_decrypt key (V.aes_siv_encrypt key pw aad).2 aad = (0, pw))
    (hout : ∀ key pw aad, (V.aes_siv_encrypt key pw aad).2.length = pw.length + 16)
    (hroom : 116 ≤ wpabuf_tailroom bufS) (hmemS : next_two_allocs_ok wS)
    (hcatS : catS ≤ bufS.data.length)
    (henc : protect_frame_status A Sd V rsnS staS catS bufS = 0)
    (hrsnR : wR.mesh_rsn = some rsnR) (hmemR : next_two_allocs_ok wR)
    (hkey : staR.aek = staS.aek)
    (haddrS : staS.addr = rsnR.auth_addr) (haddrR : staR.addr = rsnS.auth_addr)
    (hnonce : os_memcpy staS.peer_nonce 32 = List.replicate 32 0 ∨
      os_memcpy staS.peer_nonce 32 = os_memcpy staR.my_nonce 32)
    (hmic : elems.mic = some (pre.length + bufS.data.length + 2))
    (hml : 16 ≤ elems.mic_len)
    (hend : start + elems_len =
      (pre ++ (bufS.data ++ [A.WLAN_EID_MIC, 16]
        ++ protect_frame_ct A Sd V rsnS staS catS bufS)).length) :
    mesh_rsn_protect_frame A Sd V wS rsnS staS catS bufS =
      some (0, after_two_allocs wS,
        { bufS with
          data := bufS.data ++ [A.WLAN_EID_MIC, 16]
            ++ protect_frame_ct A Sd V rsnS staS catS bufS }) ∧
    process_ampe_aad rsnR staR
        (pre ++ (bufS.data ++ [A.WLAN_EID_MIC, 16]
          ++ protect_frame_ct A Sd V rsnS staS catS bufS))
        (pre.length + catS) (pre.length + bufS.data.length + 2) =
      protect_frame_aad rsnS staS catS bufS ∧
    process_ampe_crypt
        (pre ++ (bufS.data ++ [A.WLAN_EID_MIC, 16]
          ++ protect_frame_ct A Sd V rsnS staS catS bufS))
        (pre.length + bufS.data.length + 2) 114 =
      protect_frame_ct A Sd V rsnS staS catS bufS ∧
    mesh_rsn_process_ampe A V wR staR elems
        (pre ++ (bufS.data ++ [A.WLAN_EID_MIC, 16]
          ++ protect_frame_ct A Sd V rsnS staS catS bufS))
        (pre.length + catS) start elems_len =
      some (0, after_two_allocs wR,
        { staR with
          peer_nonce := os_memcpy staS.my_nonce 32
          mgtk := os_memcpy rsnS.mgtk 16 }) := by
  have hl : (protect_frame_ct A Sd V rsnS staS catS bufS).length = 114 := by
    unfold protect_frame_ct
    rw [hout, ampe_ie_plain_length]
  have hS := mesh_rsn_protect_frame_eq A Sd V wS rsnS staS catS bufS hroom hmemS hcatS hl
  rw [henc] at hS
  have haad : process_ampe_aad rsnR staR
      (pre ++ (bufS.data ++ [A.WLAN_EID_MIC, 16]
        ++ protect_frame_ct A Sd V rsnS staS catS bufS))
      (pre.length + catS) (pre.length + bufS.data.length + 2) =
      protect_frame_aad rsnS staS catS bufS := by
    unfold process_ampe_aad protect_frame_aad
    rw [haddrR, haddrS, List.append_assoc, rx_frame_aad pre bufS.data _ catS hcatS]
  have hcr : process_ampe_crypt
      (pre ++ (bufS.data ++ [A.WLAN_EID_MIC, 16]
        ++ protect_frame_ct A Sd V rsnS staS catS bufS))
      (pre.length + bufS.data.length + 2) 114 =
      protect_frame_ct A Sd V rsnS staS catS bufS := by
    unfold process_ampe_crypt
    exact rx_frame_crypt pre bufS.data _ _ 114 rfl hl
  have hf := ampe_ie_plain_fields A Sd rsnS staS
  have hdec : V.aes_siv_decrypt staR.aek
      (process_ampe_crypt
        (pre ++ (bufS.data ++ [A.WLAN_EID_MIC, 16]
          ++ protect_frame_ct A Sd V rsnS staS catS bufS))
        (pre.length + bufS.data.length + 2) 114)
      (process_ampe_aad rsnR staR
        (pre ++ (bufS.data ++ [A.WLAN_EID_MIC, 16]
          ++ protect_frame_ct A Sd V rsnS staS catS bufS))
        (pre.length + catS) (pre.length + bufS.data.length + 2)) =
      (0, ampe_ie_plain A Sd rsnS staS) := by
    rw [haad, hcr, hkey]
    exact hinv _ _ _ henc
  have hcl : pre.length + bufS.data.length + 2 + 114 = start + elems_len := by
    rw [hend]
    simp only [List.length_append, hl, List.length_cons, List.length_nil]
    omega
  have he := mesh_rsn_process_ampe_eq A V wR staR elems _ (pre.length + catS) start elems_len
    rsnR (pre.length + bufS.data.length + 2) 114 (ampe_ie_plain A Sd rsnS staS) hrsnR hmic hml
    hcl (by omega) hmemR (by omega) hdec hf.1 (by rw [hf.2.1])
  refine ⟨by simpa using hS, haad, hcr, ?_⟩
  rw [he, hf.2.2.1, hf.2.2.2.1, hf.2.2.2.2, if_neg (by
    intro hc
    rcases hnonce with h | h
    · exact hc.1 h
    · exact hc.2 h)]

theorem sample_siv_tag_length (key pw : List Nat) (aad : List (List Nat)) :
    (sample_siv_tag key pw aad).length = 16 := rfl

theorem sample_siv_inverts (key pw : List Nat) (aad : List (List Nat)) :
    sample_siv.aes_siv_decrypt key (sample_siv.aes_siv_encrypt key pw aad).2 aad = (0, pw) := by
  have hd : (sample_siv_tag key pw aad ++ pw).drop 16 = pw := by
    rw [← sample_siv_tag_length key pw aad, List.drop_left']
    rfl
  have ht : (sample_siv_tag key pw aad ++ pw).take 16 = sample_siv_tag key pw aad := by
    rw [← sample_siv_tag_length key pw aad, List.take_left']
    rfl
  show (if (sample_siv_tag key pw aad ++ pw).length < 16 then ((-1 : Int), [])
    else if (sample_siv_tag key pw aad ++ pw).take 16 =
        sample_siv_tag key ((sample_siv_tag key pw aad ++ pw).drop 16) aad then
      (0, (sample_siv_tag key pw aad ++ pw).drop 16)
    else (-1, [])) = (0, pw)
  rw [if_neg (by rw [List.length_append, sample_siv_tag_length]; omega), hd, ht, if_pos rfl]

theorem sample_siv_output_length (key pw : List Nat) (aad : List (List Nat)) :
    (sample_siv.aes_siv_encrypt key pw aad).2.length = pw.length + 16 := by
  show (sample_siv_tag key pw aad ++ pw).length = pw.length + 16
  rw [List.length_append, sample_siv_tag_length]
  omega

/-- The round trip at a concrete input: station 02:00:00:00:00:01 protects the
sample buffer for peer 02:11:22:33:44:55 with the stand-in cipher; the peer
processes the frame and ends with the sender's nonce (32 bytes 7) as peer_nonce
and the sender's group key (16 bytes 0xaa) as mgtk. -/
theorem mesh_rsn_ampe_roundtrip_witness :
    116 ≤ wpabuf_tailroom sample_buf ∧
    next_two_allocs_ok sample_wpa_s ∧ next_two_allocs_ok sample_receiver_wpa_s ∧
    sample_receiver_sta.aek = sample_sender_sta.aek ∧
    (mesh_rsn_process_ampe hostap_ampe_defs sample_siv sample_receiver_wpa_s sample_receiver_sta
        sample_rx_elems
        ([] ++ (sample_buf.data ++ [hostap_ampe_defs.WLAN_EID_MIC, 16]
          ++ protect_frame_ct hostap_ampe_defs hostap_suites sample_siv sample_rsn
              sample_sender_sta 0 sample_buf))
        (([] : List Nat).length + 0) 2 118).map (fun r => (r.1, r.2.2.peer_nonce, r.2.2.mgtk)) =
      some (0, List.replicate 32 7, List.replicate 16 0xaa) := by
  have h := mesh_rsn_ampe_roundtrip hostap_ampe_defs hostap_suites sample_siv sample_wpa_s
    sample_receiver_wpa_s sample_rsn sample_receiver_rsn sample_sender_sta sample_receiver_sta
    0 sample_buf sample_rx_elems [] 2 118
    (fun key pw aad _ => sample_siv_inverts key pw aad) sample_siv_output_length
    (by decide) ⟨rfl, rfl⟩ (by decide) rfl rfl ⟨rfl, rfl⟩ rfl rfl rfl (Or.inl (by decide))
    rfl (by decide) (by decide)
  refine ⟨by decide, ⟨rfl, rfl⟩, ⟨rfl, rfl⟩, rfl, ?_⟩
  rw [h.2.2.2]
  decide

set_option maxRecDepth 100000 in
theorem sample_frame_decrypts :
    sample_siv.aes_siv_decrypt sample_receiver_sta.aek (process_ampe_crypt sample_frame 6 114)
        (process_ampe_aad sample_receiver_rsn sample_receiver_sta sample_frame 0 6) =
      (0, ampe_ie_plain hostap_ampe_defs hostap_suites sample_rsn sample_sender_sta) := rfl

/-- The nonce check at a concrete input: the sample frame at the sample peer
decrypts to the sender's AMPE element, whose peer_nonce field is 32 zero
bytes; the frame is accepted. -/
theorem mesh_rsn_process_ampe_nonce_witness :
    sample_siv.aes_siv_decrypt sample_receiver_sta.aek (process_ampe_crypt sample_frame 6 114)
        (process_ampe_aad sample_receiver_rsn sample_receiver_sta sample_frame 0 6) =
      (0, ampe_ie_plain hostap_ampe_defs hostap_suites sample_rsn sample_sender_sta) ∧
    ampe_peer_nonce (ampe_ie_plain hostap_ampe_defs hostap_suites sample_rsn sample_sender_sta) =
      List.replicate 32 0 ∧
    (mesh_rsn_process_ampe hostap_ampe_defs sample_siv sample_receiver_wpa_s sample_receiver_sta
        sample_rx_elems sample_frame 0 2 118).map (fun r => r.1) = some 0 := by
  have hdec := sample_frame_decrypts
  have hz : ampe_peer_nonce
      (ampe_ie_plain hostap_ampe_defs hostap_suites sample_rsn sample_sender_sta) =
      List.replicate 32 0 := by decide
  have h := mesh_rsn_process_ampe_nonce hostap_ampe_defs sample_siv sample_receiver_wpa_s
    sample_receiver_sta sample_rx_elems sample_frame 0 2 118 sample_receiver_rsn 6 114
    (ampe_ie_plain hostap_ampe_defs hostap_suites sample_rsn sample_sender_sta)
    rfl rfl (by decide) (by decide) ⟨rfl, rfl⟩ (by decide) hdec (by decide) (by decide)
    (by decide) (by decide)
  refine ⟨hdec, hz, ?_⟩
  rw [h.2 (Or.inl hz)]
  rfl

/-! ## The authentication timer -/

theorem mesh_rsn_sae_group_bss0 (L : sae_lib) (wpa_s : wpa_supplicant) (sae : sae_data)
    (ret : Int) (w1 : wpa_supplicant) (sae1 : sae_data)
    (h : mesh_rsn_sae_group L wpa_s sae = some (ret, w1, sae1)) : w1.bss0 = wpa_s.bss0 := by
  unfold mesh_rsn_sae_group at h
  dsimp only at h
  split at h
  · cases h
  · split at h
    · cases h
    · split at h
      · cases h
        rfl
      · split at h
        · cases h
        · split at h
          · cases h
          · cases h
            rfl

theorem mesh_rsn_build_sae_commit_bss0 (L : sae_lib) (wpa_s : wpa_supplicant)
    (ssid : Option wpa_ssid) (sta : sta_info) (sae : sae_data)
    (buf : Option (List Nat)) (w1 : wpa_supplicant) (sae1 : sae_data)
    (h : mesh_rsn_build_sae_commit L wpa_s ssid sta sae = some (buf, w1, sae1)) :
    w1.bss0 = wpa_s.bss0 := by
  unfold mesh_rsn_build_sae_commit at h
  split at h
  · cases h
  · split at h
    · cases h
      rfl
    · split at h
      · cases h
      · rename_i ret w2 sae2 hg
        have hb := mesh_rsn_sae_group_bss0 L wpa_s sae ret w2 sae2 hg
        dsimp only at h
        split at h
        · cases h
          exact hb
        · split at h
          · cases h
            exact hb
          · split at h
            · cases h
            · simp only [os_alloc] at h
              split at h
              · cases h
                exact hb
              · cases h
                exact hb

theorem mesh_rsn_send_auth_bss0 (K : mesh_defs) (wpa_s : wpa_supplicant) (dst src : List Nat)
    (auth_transaction resp : Nat) (data : List Nat) :
    (mesh_rsn_send_auth K wpa_s dst src auth_transaction resp data).bss0 = wpa_s.bss0 := by
  unfold mesh_rsn_send_auth
  simp only [os_alloc, wpa_drv_send_mlme]
  split <;> rfl

theorem mesh_rsn_auth_sae_sta_commit_keeps (K : mesh_defs) (L : sae_lib)
    (wpa_s : wpa_supplicant) (p : Nat) (sta : sta_info) (sae : sae_data)
    (r : Int) (w1 : wpa_supplicant) (sta1 : sta_info)
    (h : mesh_rsn_auth_sae_sta_commit K L wpa_s p sta sae = some (r, w1, sta1)) :
    w1.bss0 = wpa_s.bss0 ∧ sta1.plink_state = sta.plink_state ∧
      sta1.sae_auth_retry = sta.sae_auth_retry ∧
      (r = 0 → ∃ sae1, sta1.sae = some sae1 ∧ sae1.state = SAE_COMMITTED) := by
  unfold mesh_rsn_auth_sae_sta_commit at h
  dsimp only at h
  split at h
  · cases h
  · rename_i w2 sae2 hb
    have hb2 := mesh_rsn_build_sae_commit_bss0 L wpa_s _ sta sae _ w2 sae2 hb
    cases h
    exact ⟨hb2, rfl, rfl, fun h0 => absurd h0 (by decide)⟩
  · rename_i buf w2 sae2 hb
    have hb2 := mesh_rsn_build_sae_commit_bss0 L wpa_s _ sta sae _ w2 sae2 hb
    cases h
    refine ⟨?_, rfl, rfl, fun _ => ⟨_, rfl, rfl⟩⟩
    simp only [eloop_register_timeout, mesh_rsn_send_auth_bss0, wpa_supplicant_set_state]
    exact hb2

theorem mesh_rsn_auth_sae_sta_keeps (K : mesh_defs) (L : sae_lib)
    (wpa_s : wpa_supplicant) (p : Nat) (sta : sta_info)
    (r : Int) (w1 : wpa_supplicant) (sta1 : sta_info)
    (h : mesh_rsn_auth_sae_sta K L wpa_s p sta = some (r, w1, sta1)) :
    w1.bss0 = wpa_s.bss0 ∧ sta1.plink_state = sta.plink_state ∧
      sta1.sae_auth_retry = sta.sae_auth_retry ∧
      (r = 0 → ∃ sae1, sta1.sae = some sae1 ∧ sae1.state = SAE_COMMITTED) := by
  unfold mesh_rsn_auth_sae_sta at h
  split at h
  · exact mesh_rsn_auth_sae_sta_commit_keeps K L wpa_s p sta _ r w1 sta1 h
  · simp only [os_alloc] at h
    split at h
    · cases h
      exact ⟨rfl, rfl, rfl, fun h0 => absurd h0 (by decide)⟩
    · exact mesh_rsn_auth_sae_sta_commit_keeps K L
        { wpa_s with alloc_count := wpa_s.alloc_count + 1 } p sta _ r w1 sta1 h


theorem mesh_auth_timer_retry_eq (K : mesh_defs) (L : sae_lib) (wpa_s : wpa_supplicant)
    (p : Nat) (sta : sta_info) (sae : sae_data)
    (hmem : sta_deref wpa_s.bss0 p = some sta) (hsae : sta.sae = some sae)
    (hst : sae.state ≠ SAE_ACCEPTED) (hlt : sta.sae_auth_retry < 3) :
    mesh_auth_timer K L wpa_s (some p) =
      (mesh_rsn_auth_sae_sta K L wpa_s p sta).map (fun r =>
        { r.2.1 with
          bss0 := sta_store r.2.1.bss0 p
            { r.2.2 with sae_auth_retry := r.2.2.sae_auth_retry + 1 } }) := by
  unfold mesh_auth_timer
  simp only [hmem, hsae]
  rw [if_pos hst, if_pos (by simpa [MESH_AUTH_RETRY] using hlt)]
  cases mesh_rsn_auth_sae_sta K L wpa_s p sta <;> rfl

theorem mesh_auth_timer_block_eq (K : mesh_defs) (L : sae_lib) (wpa_s : wpa_supplicant)
    (p : Nat) (sta : sta_info) (sae : sae_data)
    (hmem : sta_deref wpa_s.bss0 p = some sta) (hsae : sta.sae = some sae)
    (hst : sae.state ≠ SAE_ACCEPTED) (hge : ¬ sta.sae_auth_retry < 3) :
    mesh_auth_timer K L wpa_s (some p) =
      some { wpa_s with
        bss0 := sta_store wpa_s.bss0 p
          { sta with plink_state := PLINK_BLOCKED
                     sae := some { sae with state := SAE_NOTHING }
                     sae_auth_retry := sta.sae_auth_retry + 1 } } := by
  unfold mesh_auth_timer
  simp only [hmem, hsae]
  rw [if_pos hst, if_neg (by simpa [MESH_AUTH_RETRY] using hge)]

/-- C19: for every peer record with an SAE session that is not ACCEPTED, one
expiry of mesh_auth_timer does the following. When sae_auth_retry < 3 it runs
mesh_rsn_auth_sae_sta on the record (it returns exactly when that call returns)
and stores the record that call leaves, with plink_state as before the tick and
sae_auth_retry one higher; the driver log and the timeouts are the ones the
call leaves. Otherwise it returns with plink_state = BLOCKED, the session state
NOTHING, sae_auth_retry one higher, everything else in the record and the
driver log as before, so no AUTH frame is sent. -/
theorem mesh_auth_timer_retry_or_block (K : mesh_defs) (L : sae_lib) (wpa_s : wpa_supplicant)
    (p : Nat) (sta : sta_info) (sae : sae_data)
    (hmem : sta_deref wpa_s.bss0 p = some sta) (hsae : sta.sae = some sae)
    (hst : sae.state ≠ SAE_ACCEPTED) :
    (sta.sae_auth_retry < 3 →
      (mesh_auth_timer K L wpa_s (some p)).isSome =
        (mesh_rsn_auth_sae_sta K L wpa_s p sta).isSome ∧
      ∀ r w1 sta1, mesh_rsn_auth_sae_sta K L wpa_s p sta = some (r, w1, sta1) →
        ∃ w2, mesh_auth_timer K L wpa_s (some p) = some w2 ∧
          sta_deref w2.bss0 p =
            some { sta1 with sae_auth_retry := sta.sae_auth_retry + 1 } ∧
          sta1.plink_state = sta.plink_state ∧
          w2.drv = w1.drv ∧ w2.timeouts = w1.timeouts) ∧
    (¬ sta.sae_auth_retry < 3 →
      ∃ w2, mesh_auth_timer K L wpa_s (some p) = some w2 ∧
        sta_deref w2.bss0 p =
          some { sta with plink_state := PLINK_BLOCKED
                          sae := some { sae with state := SAE_NOTHING }
                          sae_auth_retry := sta.sae_auth_retry + 1 } ∧
        w2.drv = wpa_s.drv ∧ auth_frames w2.drv = auth_frames wpa_s.drv) := by
  refine ⟨fun hlt => ?_, fun hge => ?_⟩
  · have e := mesh_auth_timer_retry_eq K L wpa_s p sta sae hmem hsae hst hlt
    refine ⟨?_, fun r w1 sta1 h => ?_⟩
    · rw [e]
      cases mesh_rsn_auth_sae_sta K L wpa_s p sta <;> rfl
    · have hk := mesh_rsn_auth_sae_sta_keeps K L wpa_s p sta r w1 sta1 h
      rw [h] at e
      refine ⟨_, e, ?_, hk.2.1, rfl, rfl⟩
      have hm1 : sta_deref w1.bss0 p = some sta := by rw [hk.1]; exact hmem
      show sta_deref (sta_store w1.bss0 p _) p = _
      rw [sta_deref_store w1.bss0 p sta _ hm1, hk.2.2.1]
  · have e := mesh_auth_timer_block_eq K L wpa_s p sta sae hmem hsae hst hge
    exact ⟨_, e, sta_deref_store wpa_s.bss0 p sta _ hmem, rfl, rfl⟩

/-- The tick at a concrete input: the fresh record of the sample peer (session
COMMITTED, no retry counted) on the sample secured mesh. -/
theorem mesh_auth_timer_retry_or_block_witness :
    sta_deref sample_auth_wpa_s.bss0 0 = some sample_auth_sta ∧
    (sample_auth_sta.sae_auth_retry < 3 ∧
      (mesh_auth_timer hostap_defs sample_sae_lib sample_auth_wpa_s (some 0)).isSome =
        (mesh_rsn_auth_sae_sta hostap_defs sample_sae_lib sample_auth_wpa_s 0
          sample_auth_sta).isSome) ∧
    ((mesh_auth_timer hostap_defs sample_sae_lib sample_auth_wpa_s (some 0)).bind
        (fun w => sta_deref w.bss0 0)).map
        (fun r => (r.plink_state, r.sae.map (fun s => s.state), r.sae_auth_retry)) =
      some (PLINK_LISTEN, some SAE_COMMITTED, 1) :=
  ⟨rfl, ⟨by decide,
    ((mesh_auth_timer_retry_or_block hostap_defs sample_sae_lib sample_auth_wpa_s 0 sample_auth_sta
      { sae_data_zero with state := SAE_COMMITTED } rfl rfl (by decide)).1 (by decide)).1⟩,
    by decide⟩


theorem mesh_auth_timer_retry_step (K : mesh_defs) (L : sae_lib) (wpa_s : wpa_supplicant)
    (p : Nat) (sta : sta_info) (sae : sae_data)
    (hmem : sta_deref wpa_s.bss0 p = some sta) (hsae : sta.sae = some sae)
    (hst : sae.state ≠ SAE_ACCEPTED) (hlt : sta.sae_auth_retry < 3)
    (hok : auth_start_status K L wpa_s p = some 0) :
    ∃ w2 sta2 sae2, mesh_auth_timer K L wpa_s (some p) = some w2 ∧
      sta_deref w2.bss0 p = some sta2 ∧ sta2.plink_state = sta.plink_state ∧
      sta2.sae_auth_retry = sta.sae_auth_retry + 1 ∧
      sta2.sae = some sae2 ∧ sae2.state = SAE_COMMITTED := by
  unfold auth_start_status at hok
  rw [hmem, Option.some_bind] at hok
  cases hs : mesh_rsn_auth_sae_sta K L wpa_s p sta with
  | none =>
    rw [hs] at hok
    cases hok
  | some res =>
    obtain ⟨r, w1, sta1⟩ := res
    rw [hs] at hok
    have hr : r = 0 := Option.some.inj hok
    have hk := mesh_rsn_auth_sae_sta_keeps K L wpa_s p sta r w1 sta1 hs
    obtain ⟨sae1, hs1, hc1⟩ := hk.2.2.2 hr
    have e := mesh_auth_timer_retry_eq K L wpa_s p sta sae hmem hsae hst hlt
    rw [hs] at e
    have hm1 : sta_deref w1.bss0 p = some sta := by rw [hk.1]; exact hmem
    refine ⟨_, _, sae1, e, sta_deref_store w1.bss0 p sta _ hm1, hk.2.1, ?_, hs1, hc1⟩
    show sta1.sae_auth_retry + 1 = sta.sae_auth_retry + 1
    rw [hk.2.2.1]

theorem mesh_auth_timer_ticks_retry (K : mesh_defs) (L : sae_lib) (w0 : wpa_supplicant)
    (p : Nat) (sta0 : sta_info) (sae0 : sae_data)
    (hmem : sta_deref w0.bss0 p = some sta0) (hsae : sta0.sae = some sae0)
    (hst : sae0.state = SAE_COMMITTED) (hretry : sta0.sae_auth_retry = 0)
    (hok : ∀ n, n < 3 → ∀ w, mesh_auth_timer_ticks K L p n w0 = some w →
      auth_start_status K L w p = some 0) :
    ∀ n, n ≤ 3 → ∃ w sta sae, mesh_auth_timer_ticks K L p n w0 = some w ∧
      sta_deref w.bss0 p = some sta ∧ sta.plink_state = sta0.plink_state ∧
      sta.sae_auth_retry = n ∧ sta.sae = some sae ∧ sae.state = SAE_COMMITTED := by
  intro n
  induction n with
  | zero => exact fun _ => ⟨w0, sta0, sae0, rfl, hmem, rfl, hretry, hsae, hst⟩
  | succ n ih =>
    intro hn
    obtain ⟨w, sta, sae, ht, hm, hp, hr, hs, hc⟩ := ih (by omega)
    have hne : sae.state ≠ SAE_ACCEPTED := by rw [hc]; decide
    obtain ⟨w2, sta2, sae2, e, hm2, hp2, hr2, hs2, hc2⟩ :=
      mesh_auth_timer_retry_step K L w p sta sae hm hs hne (by omega)
        (hok n (by omega) w ht)
    refine ⟨w2, sta2, sae2, ?_, hm2, hp2.trans hp, by omega, hs2, hc2⟩
    show (mesh_auth_timer_ticks K L p n w0).bind _ = some w2
    rw [ht]
    exact e

theorem mesh_auth_timer_ticks_blocked (K : mesh_defs) (L : sae_lib) (w0 w3 : wpa_supplicant)
    (p : Nat) (sta3 : sta_info) (sae3 : sae_data)
    (ht : mesh_auth_timer_ticks K L p 3 w0 = some w3)
    (hmem : sta_deref w3.bss0 p = some sta3) (hsae : sta3.sae = some sae3)
    (hst : sae3.state ≠ SAE_ACCEPTED) (hretry : sta3.sae_auth_retry = 3) :
    ∀ n, ∃ w sta sae, mesh_auth_timer_ticks K L p (n + 4) w0 = some w ∧
      sta_deref w.bss0 p = some sta ∧ sta.plink_state = PLINK_BLOCKED ∧
      sta.sae_auth_retry = n + 4 ∧ sta.sae = some sae ∧ sae.state = SAE_NOTHING ∧
      w.drv = w3.drv := by
  intro n
  induction n with
  | zero =>
    have e := mesh_auth_timer_block_eq K L w3 p sta3 sae3 hmem hsae hst (by omega)
    refine ⟨{ w3 with
        bss0 := sta_store w3.bss0 p
          { sta3 with plink_state := PLINK_BLOCKED
                      sae := some { sae3 with state := SAE_NOTHING }
                      sae_auth_retry := sta3.sae_auth_retry + 1 } },
      { sta3 with plink_state := PLINK_BLOCKED
                  sae := some { sae3 with state := SAE_NOTHING }
                  sae_auth_retry := sta3.sae_auth_retry + 1 },
      { sae3 with state := SAE_NOTHING }, ?_,
      sta_deref_store w3.bss0 p sta3 _ hmem, rfl, ?_, rfl, rfl, rfl⟩
    · show (mesh_auth_timer_ticks K L p 3 w0).bind _ = _
      rw [ht]
      exact e
    · show sta3.sae_auth_retry + 1 = 0 + 4
      omega
  | succ n ih =>
    obtain ⟨w, sta, sae, hw, hm, _, hr, hs, hc, hd⟩ := ih
    have hne : sae.state ≠ SAE_ACCEPTED := by rw [hc]; decide
    have e := mesh_auth_timer_block_eq K L w p sta sae hm hs hne (by omega)
    refine ⟨{ w with
        bss0 := sta_store w.bss0 p
          { sta with plink_state := PLINK_BLOCKED
                     sae := some { sae with state := SAE_NOTHING }
                     sae_auth_retry := sta.sae_auth_retry + 1 } },
      { sta with plink_state := PLINK_BLOCKED
                 sae := some { sae with state := SAE_NOTHING }
                 sae_auth_retry := sta.sae_auth_retry + 1 },
      { sae with state := SAE_NOTHING }, ?_,
      sta_deref_store w.bss0 p sta _ hm, rfl, ?_, rfl, rfl, hd⟩
    · show (mesh_auth_timer_ticks K L p (n + 4) w0).bind _ = _
      rw [hw]
      exact e
    · show sta.sae_auth_retry + 1 = n + 1 + 4
      omega

/-- C20 as stated fails: on the sample secured mesh the fresh record of the
sample peer (session COMMITTED, sae_auth_retry = 0) sees three timer ticks, on
each of which the re-invoked mesh_rsn_auth_sae_sta returns 0 and sends an AUTH
frame; after the three ticks the record is in LISTEN, not BLOCKED, its session
is COMMITTED, not NOTHING, and sae_auth_retry = 3. -/
theorem mesh_auth_timer_three_ticks_counterexample :
    sta_deref sample_auth_wpa_s.bss0 0 = some sample_auth_sta ∧
    sample_auth_sta.sae_auth_retry = 0 ∧
    (List.range 3).map (fun n =>
        (mesh_auth_timer_ticks hostap_defs sample_sae_lib 0 n sample_auth_wpa_s).bind
          (fun w => auth_start_status hostap_defs sample_sae_lib w 0)) =
      [some 0, some 0, some 0] ∧
    ((mesh_auth_timer_ticks hostap_defs sample_sae_lib 0 3 sample_auth_wpa_s).bind
        (fun w => sta_deref w.bss0 0)).map
        (fun r => (r.plink_state, r.sae.map (fun s => s.state), r.sae_auth_retry)) =
      some (PLINK_LISTEN, some SAE_COMMITTED, 3) ∧
    (mesh_auth_timer_ticks hostap_defs sample_sae_lib 0 3 sample_auth_wpa_s).map
        (fun w => (auth_frames w.drv).length) = some 3 := by
  refine ⟨rfl, rfl, ?_, ?_, ?_⟩ <;> decide

/-- C20, amended: starting from a peer record with sae_auth_retry = 0 whose
session is COMMITTED, with every re-invoked mesh_rsn_auth_sae_sta returning 0
and nothing else touching the machine, the first three mesh_auth_timer ticks
return and leave plink_state as it was at the start, the session COMMITTED and
sae_auth_retry = 3; it is the fourth tick that sets plink_state = BLOCKED and
the session state to NOTHING, and the fourth and every later tick return with
the driver log as it was after the third, so no AUTH frame is sent from then
on. -/
theorem mesh_auth_timer_blocks_fourth_tick (K : mesh_defs) (L : sae_lib)
    (w0 : wpa_supplicant) (p : Nat) (sta0 : sta_info) (sae0 : sae_data)
    (hmem : sta_deref w0.bss0 p = some sta0) (hsae : sta0.sae = some sae0)
    (hst : sae0.state = SAE_COMMITTED) (hretry : sta0.sae_auth_retry = 0)
    (hok : ∀ n, n < 3 → ∀ w, mesh_auth_timer_ticks K L p n w0 = some w →
      auth_start_status K L w p = some 0) :
    ∃ w3 sta3 sae3, mesh_auth_timer_ticks K L p 3 w0 = some w3 ∧
      sta_deref w3.bss0 p = some sta3 ∧ sta3.plink_state = sta0.plink_state ∧
      sta3.sae_auth_retry = 3 ∧ sta3.sae = some sae3 ∧ sae3.state = SAE_COMMITTED ∧
      ∀ n, ∃ w sta sae, mesh_auth_timer_ticks K L p (n + 4) w0 = some w ∧
        sta_deref w.bss0 p = some sta ∧ sta.plink_state = PLINK_BLOCKED ∧
        sta.sae_auth_retry = n + 4 ∧ sta.sae = some sae ∧ sae.state = SAE_NOTHING ∧
        w.drv = w3.drv ∧ auth_frames w.drv = auth_frames w3.drv := by
  obtain ⟨w3, sta3, sae3, ht, hm, hp, hr, hs, hc⟩ :=
    mesh_auth_timer_ticks_retry K L w0 p sta0 sae0 hmem hsae hst hretry hok 3 (le_refl 3)
  have hne : sae3.state ≠ SAE_ACCEPTED := by rw [hc]; decide
  refine ⟨w3, sta3, sae3, ht, hm, hp, hr, hs, hc, fun n => ?_⟩
  obtain ⟨w, sta, sae, h1, h2, h3, h4, h5, h6, h7⟩ :=
    mesh_auth_timer_ticks_blocked K L w0 w3 p sta3 sae3 ht hm hs hne hr n
  exact ⟨w, sta, sae, h1, h2, h3, h4, h5, h6, h7, by rw [h7]⟩


theorem sample_auth_starts_ok (n : Nat) (hn : n < 3) (w : wpa_supplicant)
    (hw : mesh_auth_timer_ticks hostap_defs sample_sae_lib 0 n sample_auth_wpa_s = some w) :
    auth_start_status hostap_defs sample_sae_lib w 0 = some 0 := by
  interval_cases n
  · cases Option.some.inj hw
    rfl
  · cases Option.some.inj hw
    rfl
  · cases Option.some.inj hw
    rfl

/-- The fourth tick at a concrete input: the fresh record of the sample peer on
the sample secured mesh is in LISTEN with session COMMITTED after three ticks,
and BLOCKED with session NOTHING after the fourth, with the three AUTH frames
of the first three ticks in the driver log and none added. -/
theorem mesh_auth_timer_blocks_fourth_tick_witness :
    sta_deref sample_auth_wpa_s.bss0 0 = some sample_auth_sta ∧
    sample_auth_sta.sae_auth_retry = 0 ∧
    (∃ w3 sta3 sae3,
      mesh_auth_timer_ticks hostap_defs sample_sae_lib 0 3 sample_auth_wpa_s = some w3 ∧
      sta_deref w3.bss0 0 = some sta3 ∧ sta3.plink_state = sample_auth_sta.plink_state ∧
      sta3.sae_auth_retry = 3 ∧ sta3.sae = some sae3 ∧ sae3.state = SAE_COMMITTED ∧
      ∀ n, ∃ w sta sae,
        mesh_auth_timer_ticks hostap_defs sample_sae_lib 0 (n + 4) sample_auth_wpa_s = some w ∧
        sta_deref w.bss0 0 = some sta ∧ sta.plink_state = PLINK_BLOCKED ∧
        sta.sae_auth_retry = n + 4 ∧ sta.sae = some sae ∧ sae.state = SAE_NOTHING ∧
        w.drv = w3.drv ∧ auth_frames w.drv = auth_frames w3.drv) ∧
    ((mesh_auth_timer_ticks hostap_defs sample_sae_lib 0 4 sample_auth_wpa_s).bind
        (fun w => sta_deref w.bss0 0)).map
        (fun r => (r.plink_state, r.sae.map (fun s => s.state), r.sae_auth_retry)) =
      some (PLINK_BLOCKED, some SAE_NOTHING, 4) ∧
    (mesh_auth_timer_ticks hostap_defs sample_sae_lib 0 4 sample_auth_wpa_s).map
        (fun w => (auth_frames w.drv).length) = some 3 :=
  ⟨rfl, rfl,
    mesh_auth_timer_blocks_fourth_tick hostap_defs sample_sae_lib sample_auth_wpa_s 0
      sample_auth_sta { sae_data_zero with state := SAE_COMMITTED } rfl rfl rfl rfl
      sample_auth_starts_ok,
    by decide, by decide⟩


/-! ## The SAE group cursor -/

theorem index_within_array_loop_eq (c : Nat) (pre tail : List Int) (hpre : (-1 : Int) ∉ pre)
    (i : Nat) :
    index_within_array_loop (c : Int) (pre ++ -1 :: tail) i =
      if i + pre.length < c then some 0 else some 1 := by
  induction pre generalizing i with
  | nil =>
    simp only [List.nil_append, index_within_array_loop, List.length_nil, Nat.add_zero,
      Nat.cast_lt, if_true]
  | cons a pre ih =>
    have ha : a ≠ -1 := fun h => hpre (by rw [h]; exact List.mem_cons_self _ _)
    have hp : (-1 : Int) ∉ pre := fun h => hpre (List.mem_cons_of_mem _ h)
    show index_within_array_loop (c : Int) (a :: (pre ++ -1 :: tail)) i = _
    simp only [index_within_array_loop, Nat.cast_lt, if_neg ha, List.length_cons]
    by_cases h1 : i < c
    · rw [if_pos h1, ih hp (i + 1)]
      by_cases h2 : i + 1 + pre.length < c
      · rw [if_pos h2, if_pos (by omega)]
      · rw [if_neg h2, if_neg (by omega)]
    · rw [if_neg h1, if_neg (by omega)]

theorem index_within_array_eq (c : Nat) (pre tail : List Int) (hpre : (-1 : Int) ∉ pre) :
    index_within_array (pre ++ -1 :: tail) (c : Int) =
      if pre.length < c then some 0 else some 1 := by
  unfold index_within_array
  rw [index_within_array_loop_eq c pre tail hpre 0, Nat.zero_add]

theorem mesh_rsn_sae_group_loop_scan (L : sae_lib) (rej : List Int) (g : Int)
    (rest : List Int) (idx : Int) (sae : sae_data) (hrej : sae_rejects L sae rej) :
    mesh_rsn_sae_group_loop L (rej ++ g :: rest) idx sae =
      if g < 0 then some (-1, idx + rej.length, sae_after L sae rej)
      else if (L.sae_set_group (sae_after L sae rej) g).1 = 0 then
        some (0, idx + rej.length, (L.sae_set_group (sae_after L sae rej) g).2)
      else mesh_rsn_sae_group_loop L rest (idx + rej.length + 1)
        (L.sae_set_group (sae_after L sae rej) g).2 := by
  induction rej generalizing idx sae with
  | nil =>
    simp only [List.nil_append, mesh_rsn_sae_group_loop, List.length_nil, Nat.cast_zero,
      add_zero, sae_after]
  | cons a rej ih =>
    obtain ⟨h0, h1, h2⟩ := hrej
    show mesh_rsn_sae_group_loop L (a :: (rej ++ g :: rest)) idx sae = _
    simp only [mesh_rsn_sae_group_loop, if_neg (not_lt.mpr h0), if_neg h1, sae_after,
      List.length_cons, Nat.cast_add, Nat.cast_one]
    rw [ih (idx + 1) _ h2]
    have e : idx + 1 + (rej.length : Int) = idx + ((rej.length : Int) + 1) := by ring
    rw [e]

theorem sae_scan_exists (L : sae_lib) (l : List Int) (sae : sae_data)
    (hneg : ∃ g ∈ l, g < 0) :
    ∃ rej g rest, l = rej ++ g :: rest ∧ sae_rejects L sae rej ∧
      (g < 0 ∨ (0 ≤ g ∧ (L.sae_set_group (sae_after L sae rej) g).1 = 0)) := by
  induction l generalizing sae with
  | nil =>
    obtain ⟨g, hg, _⟩ := hneg
    cases hg
  | cons a l ih =>
    by_cases ha : a < 0
    · exact ⟨[], a, l, rfl, trivial, Or.inl ha⟩
    · by_cases hacc : (L.sae_set_group sae a).1 = 0
      · exact ⟨[], a, l, rfl, trivial, Or.inr ⟨not_lt.mp ha, hacc⟩⟩
      · have hneg2 : ∃ g ∈ l, g < 0 := by
          obtain ⟨g, hg, hlt⟩ := hneg
          rcases List.mem_cons.mp hg with h | h
          · exact absurd (h ▸ hlt) ha
          · exact ⟨g, h, hlt⟩
        obtain ⟨rej, g, rest, e, hr, hg⟩ := ih (L.sae_set_group sae a).2 hneg2
        exact ⟨a :: rej, g, rest, by rw [e]; rfl, ⟨not_lt.mp ha, hacc, hr⟩, hg⟩

theorem mesh_rsn_sae_group_eq (L : sae_lib) (wpa_s : wpa_supplicant) (rsn : mesh_rsn)
    (sae : sae_data) (pre tail : List Int) (c : Nat)
    (hg : wpa_s.bss0.sae_groups = some (pre ++ -1 :: tail)) (hpre : (-1 : Int) ∉ pre)
    (hrsn : wpa_s.mesh_rsn = some rsn) (hc : rsn.sae_group_index = (c : Int)) :
    mesh_rsn_sae_group L wpa_s sae =
      if pre.length < c then some (-1, wpa_s, sae)
      else
        (mesh_rsn_sae_group_loop L ((pre ++ -1 :: tail).drop c) (c : Int) sae).map
          (fun r => (r.1, set_sae_group_index wpa_s rsn r.2.1, r.2.2)) := by
  unfold mesh_rsn_sae_group
  simp only [hg, hrsn, hc, Option.getD_some, index_within_array_eq c pre tail hpre]
  by_cases h : pre.length < c
  · simp only [if_pos h, if_true]
  · simp only [if_neg h, one_ne_zero, if_false, Int.toNat_ofNat,
      if_neg (not_lt.mpr (Int.ofNat_nonneg c))]
    cases mesh_rsn_sae_group_loop L ((pre ++ -1 :: tail).drop c) (c : Int) sae <;> rfl


theorem sae_rejects_nonneg (L : sae_lib) (rej : List Int) (sae : sae_data)
    (h : sae_rejects L sae rej) : ∀ x ∈ rej, 0 ≤ x := by
  induction rej generalizing sae with
  | nil => exact fun x hx => absurd hx (List.not_mem_nil x)
  | cons a rej ih =>
    intro x hx
    rcases List.mem_cons.mp hx with e | e
    · rw [e]
      exact h.1
    · exact ih _ h.2.2 x e

theorem scan_index_bounds (l tail rej rest : List Int) (g : Int)
    (e : l ++ -1 :: tail = rej ++ g :: rest) (hrej : ∀ x ∈ rej, 0 ≤ x) :
    rej.length ≤ l.length ∧ (0 ≤ g → rej.length < l.length) ∧
      ((∀ x ∈ l, 0 ≤ x) → g < 0 → rej.length = l.length) := by
  induction l generalizing rej with
  | nil =>
    cases rej with
    | nil =>
      have hg : g = -1 := (List.cons.inj e).1.symm
      exact ⟨le_refl _, fun h0 => absurd h0 (by rw [hg]; decide), fun _ _ => rfl⟩
    | cons x rej =>
      have hx : x = -1 := (List.cons.inj e).1.symm
      exact absurd (hrej x (List.mem_cons_self _ _)) (by rw [hx]; decide)
  | cons a l ih =>
    cases rej with
    | nil =>
      have hg : g = a := (List.cons.inj e).1.symm
      refine ⟨Nat.zero_le _, fun _ => Nat.succ_pos _, fun hl hneg => ?_⟩
      exact absurd (hl a (List.mem_cons_self _ _)) (by rw [← hg]; exact not_le.mpr hneg)
    | cons x rej =>
      have e2 : l ++ -1 :: tail = rej ++ g :: rest := (List.cons.inj e).2
      obtain ⟨h1, h2, h3⟩ := ih rej e2 (fun y hy => hrej y (List.mem_cons_of_mem _ hy))
      refine ⟨Nat.succ_le_succ h1, fun h0 => Nat.succ_lt_succ (h2 h0), fun hl hneg => ?_⟩
      exact congrArg Nat.succ (h3 (fun y hy => hl y (List.mem_cons_of_mem _ hy)) hneg)

theorem set_sae_group_index_self (wpa_s : wpa_supplicant) (rsn : mesh_rsn)
    (hrsn : wpa_s.mesh_rsn = some rsn) :
    set_sae_group_index wpa_s rsn rsn.sae_group_index = wpa_s := by
  cases wpa_s
  cases rsn
  simp only at hrsn
  simp only [set_sae_group_index, hrsn]

theorem mesh_rsn_sae_group_at (L : sae_lib) (wpa_s : wpa_supplicant) (rsn : mesh_rsn)
    (sae : sae_data) (pre tail : List Int) (c : Nat) (rej : List Int) (g : Int)
    (rest : List Int)
    (hg : wpa_s.bss0.sae_groups = some (pre ++ -1 :: tail)) (hpre : (-1 : Int) ∉ pre)
    (hrsn : wpa_s.mesh_rsn = some rsn) (hc : rsn.sae_group_index = (c : Int))
    (hle : c ≤ pre.length) (e : pre.drop c ++ -1 :: tail = rej ++ g :: rest)
    (hrej : sae_rejects L sae rej) :
    (g < 0 → mesh_rsn_sae_group L wpa_s sae =
      some (-1, set_sae_group_index wpa_s rsn ((c : Int) + rej.length), sae_after L sae rej)) ∧
    (0 ≤ g → (L.sae_set_group (sae_after L sae rej) g).1 = 0 →
      mesh_rsn_sae_group L wpa_s sae =
        some (0, set_sae_group_index wpa_s rsn ((c : Int) + rej.length),
          (L.sae_set_group (sae_after L sae rej) g).2)) := by
  have h := mesh_rsn_sae_group_eq L wpa_s rsn sae pre tail c hg hpre hrsn hc
  rw [if_neg (not_lt.mpr hle), List.drop_append_of_le_length hle, e,
    mesh_rsn_sae_group_loop_scan L rej g rest (c : Int) sae hrej] at h
  refine ⟨fun hneg => ?_, fun h0 hacc => ?_⟩
  · rw [if_pos hneg] at h
    exact h
  · rw [if_neg (not_lt.mpr h0), if_pos hacc] at h
    exact h


theorem mesh_rsn_sae_group_again (L : sae_lib) (wpa_s : wpa_supplicant) (rsn : mesh_rsn)
    (pre tail : List Int) (c : Nat) (rej : List Int) (g : Int) (rest : List Int)
    (hg : wpa_s.bss0.sae_groups = some (pre ++ -1 :: tail)) (hpre : (-1 : Int) ∉ pre)
    (hle : c ≤ pre.length) (e : pre.drop c ++ -1 :: tail = rej ++ g :: rest)
    (hnn : ∀ x ∈ rej, 0 ≤ x) :
    (g < 0 → ∀ sae1,
      mesh_rsn_sae_group L (set_sae_group_index wpa_s rsn ((c : Int) + rej.length)) sae1 =
        some (-1, set_sae_group_index wpa_s rsn ((c : Int) + rej.length), sae1)) ∧
    (0 ≤ g → ∀ sae1, (L.sae_set_group sae1 g).1 = 0 →
      mesh_rsn_sae_group L (set_sae_group_index wpa_s rsn ((c : Int) + rej.length)) sae1 =
        some (0, set_sae_group_index wpa_s rsn ((c : Int) + rej.length),
          (L.sae_set_group sae1 g).2)) := by
  have hb := (scan_index_bounds (pre.drop c) tail rej rest g e hnn).1
  rw [List.length_drop] at hb
  have hle1 : c + rej.length ≤ pre.length := by omega
  have e1 : pre.drop (c + rej.length) ++ -1 :: tail = [] ++ g :: rest := by
    have h1 : (pre.drop c ++ -1 :: tail).drop rej.length = (rej ++ g :: rest).drop rej.length :=
      congrArg (List.drop rej.length) e
    rw [List.drop_left, List.drop_append_of_le_length (by rw [List.length_drop]; omega),
      List.drop_drop] at h1
    rw [List.nil_append, ← h1, Nat.add_comm c rej.length]
  have hm : ∀ sae1, sae_rejects L sae1 [] := fun _ => trivial
  have key := fun sae1 =>
    mesh_rsn_sae_group_at L (set_sae_group_index wpa_s rsn ((c : Int) + rej.length))
      { rsn with sae_group_index := (c : Int) + rej.length } sae1 pre tail (c + rej.length)
      [] g rest hg hpre rfl (by simp only [Nat.cast_add]) hle1 e1 (hm sae1)
  refine ⟨fun hneg sae1 => ?_, fun h0 sae1 hacc => ?_⟩
  · have h := (key sae1).1 hneg
    simp only [List.length_nil, Nat.cast_zero, add_zero, Nat.cast_add, sae_after] at h
    exact h
  · have h := (key sae1).2 h0 hacc
    simp only [List.length_nil, Nat.cast_zero, add_zero, Nat.cast_add, sae_after] at h
    exact h

/-- C22 as stated fails: for the -1-terminated list [-2, 19, -1] and cursor 0 no
entry before the cursor is the sentinel and the entry 19, at index 1 before the
sentinel, is accepted by sae_set_group, yet mesh_rsn_sae_group fails with the
cursor left at 0, on the entry -2 and not on the sentinel, and no group
selected. -/
theorem mesh_rsn_sae_group_cursor_counterexample :
    (sample_sae_lib.sae_set_group sae_data_zero 19).1 = 0 ∧
    (mesh_rsn_sae_group sample_sae_lib (sample_group_wpa_s [-2, 19, -1] 0) sae_data_zero).map
        (fun r => (r.1, r.2.1.mesh_rsn.map (fun m => m.sae_group_index), r.2.2.group)) =
      some (-1, some 0, 0) := by
  decide

/-- C22, amended: for every group list with first sentinel at index
`pre.length` and every cursor value c ≥ 0. If the sentinel lies before index c,
mesh_rsn_sae_group fails and leaves machine and session unchanged. Otherwise
the entries from index c on split as `rej ++ g :: rest`, where `rej` are
non-negative entries that sae_set_group rejected in turn and g is the first
entry that is negative (the sentinel or any other negative value) or accepted,
and g is not behind the sentinel. For every such split: when g is negative the
call fails with the cursor on g, which is the sentinel when all entries before
the sentinel are non-negative, and a later call with the same list fails again
with the cursor where it is; when g is accepted the call succeeds with the
cursor on g, an index before the sentinel, the session is the one
sae_set_group left for g, and a later call with the same list starts at the
same index and selects g again when sae_set_group accepts it. In both cases the
cursor is c plus the number of rejected entries, so it never decreases. -/
theorem mesh_rsn_sae_group_cursor (L : sae_lib) (wpa_s : wpa_supplicant) (rsn : mesh_rsn)
    (sae : sae_data) (pre tail : List Int) (c : Nat)
    (hg : wpa_s.bss0.sae_groups = some (pre ++ -1 :: tail)) (hpre : (-1 : Int) ∉ pre)
    (hrsn : wpa_s.mesh_rsn = some rsn) (hc : rsn.sae_group_index = (c : Int)) :
    (pre.length < c → mesh_rsn_sae_group L wpa_s sae = some (-1, wpa_s, sae)) ∧
    (c ≤ pre.length →
      (∃ rej g rest, pre.drop c ++ -1 :: tail = rej ++ g :: rest ∧ sae_rejects L sae rej ∧
        (g < 0 ∨ (0 ≤ g ∧ (L.sae_set_group (sae_after L sae rej) g).1 = 0))) ∧
      ∀ rej g rest, pre.drop c ++ -1 :: tail = rej ++ g :: rest → sae_rejects L sae rej →
        c + rej.length ≤ pre.length ∧
        (g < 0 →
          mesh_rsn_sae_group L wpa_s sae =
            some (-1, set_sae_group_index wpa_s rsn ((c : Int) + rej.length),
              sae_after L sae rej) ∧
          ((∀ x ∈ pre, 0 ≤ x) → c + rej.length = pre.length) ∧
          ∀ sae1,
            mesh_rsn_sae_group L (set_sae_group_index wpa_s rsn ((c : Int) + rej.length))
                sae1 =
              some (-1, set_sae_group_index wpa_s rsn ((c : Int) + rej.length), sae1)) ∧
        (0 ≤ g → (L.sae_set_group (sae_after L sae rej) g).1 = 0 →
          mesh_rsn_sae_group L wpa_s sae =
            some (0, set_sae_group_index wpa_s rsn ((c : Int) + rej.length),
              (L.sae_set_group (sae_after L sae rej) g).2) ∧
          c + rej.length < pre.length ∧
          ∀ sae1, (L.sae_set_group sae1 g).1 = 0 →
            mesh_rsn_sae_group L (set_sae_group_index wpa_s rsn ((c : Int) + rej.length))
                sae1 =
              some (0, set_sae_group_index wpa_s rsn ((c : Int) + rej.length),
                (L.sae_set_group sae1 g).2))) := by
  refine ⟨fun hlt => ?_, fun hle => ⟨?_, fun rej g rest e hrej => ?_⟩⟩
  · rw [mesh_rsn_sae_group_eq L wpa_s rsn sae pre tail c hg hpre hrsn hc, if_pos hlt]
  · exact sae_scan_exists L _ sae ⟨-1, List.mem_append_right _ (List.mem_cons_self _ _),
      by decide⟩
  · have hnn := sae_rejects_nonneg L rej sae hrej
    obtain ⟨b1, b2, b3⟩ := scan_index_bounds (pre.drop c) tail rej rest g e hnn
    rw [List.length_drop] at b1 b2 b3
    have hat := mesh_rsn_sae_group_at L wpa_s rsn sae pre tail c rej g rest hg hpre hrsn hc
      hle e hrej
    have hag := mesh_rsn_sae_group_again L wpa_s rsn pre tail c rej g rest hg hpre hle e hnn
    refine ⟨by omega, fun hneg => ⟨hat.1 hneg, fun hall => ?_, hag.1 hneg⟩,
      fun h0 hacc => ⟨hat.2 h0 hacc, ?_, hag.2 h0⟩⟩
    · have := b3 (fun x hx => hall x (List.mem_of_mem_drop hx)) hneg
      omega
    · have := b2 h0
      omega

/-- The scan at a concrete input: the list [19, 20, 21, -1] with cursor 0 and a
library without group 19; the call rejects 19 and succeeds on 20 with the
cursor on index 1. -/
theorem mesh_rsn_sae_group_cursor_witness :
    (sample_group_wpa_s [19, 20, 21, -1] 0).bss0.sae_groups =
      some ([19, 20, 21] ++ -1 :: []) ∧
    mesh_rsn_sae_group sample_sae_lib_no19 (sample_group_wpa_s [19, 20, 21, -1] 0)
        sae_data_zero =
      some (0, set_sae_group_index (sample_group_wpa_s [19, 20, 21, -1] 0) sample_rsn 1,
        { sae_data_zero with group := 20 }) :=
  ⟨rfl,
    ((((mesh_rsn_sae_group_cursor sample_sae_lib_no19 (sample_group_wpa_s [19, 20, 21, -1] 0)
      sample_rsn sae_data_zero [19, 20, 21] [] 0 rfl (by decide) rfl rfl).2
        (by decide)).2 [19] 20 [21, -1] rfl ⟨by decide, by decide, trivial⟩).2.2
          (by decide) rfl).1⟩


/-- C21 as stated fails: with the list [19, 20, 21, -1], cursor 0 and a library
without group 19, the first call selects group 20 and leaves the cursor at 1;
after the reconfiguration to [21, -1] the next call fails with the cursor still
at 1 and group 21 not selected, although sae_set_group would accept 21. -/
theorem mesh_rsn_sae_group_reconfig_counterexample :
    (mesh_rsn_sae_group sample_sae_lib_no19 (sample_group_wpa_s [19, 20, 21, -1] 0)
        sae_data_zero).map
        (fun r => (r.1, r.2.1.mesh_rsn.map (fun m => m.sae_group_index), r.2.2.group)) =
      some (0, some 1, 20) ∧
    (sample_sae_lib_no19.sae_set_group { sae_data_zero with group := 20 } 21).1 = 0 ∧
    (mesh_rsn_sae_group sample_sae_lib_no19 (sample_group_wpa_s [21, -1] 1)
        { sae_data_zero with group := 20 }).map
        (fun r => (r.1, r.2.1.mesh_rsn.map (fun m => m.sae_group_index), r.2.2.group)) =
      some (-1, some 1, 20) := by
  decide

/-- C21, amended: with the list [19, 20, 21, -1], cursor 0, group 19 rejected
and group 20 accepted, mesh_rsn_sae_group selects 20 and leaves the cursor at
1. After a reconfiguration of the list to [21, -1] the next call, on any
session, validates the cursor (index 1 lies within the new list), does not
reset it, reads the sentinel at index 1 and fails with machine and session
unchanged and without calling sae_set_group, so group 21 is not selected. Only
with the cursor put back to 0 does a call on the new list select group 21
(when sae_set_group accepts it). -/
theorem mesh_rsn_sae_group_reconfig (L : sae_lib) (wpa_s : wpa_supplicant) (rsn : mesh_rsn)
    (sae : sae_data)
    (hg : wpa_s.bss0.sae_groups = some [19, 20, 21, -1])
    (hrsn : wpa_s.mesh_rsn = some rsn) (hc : rsn.sae_group_index = 0)
    (h19 : (L.sae_set_group sae 19).1 ≠ 0)
    (h20 : (L.sae_set_group (L.sae_set_group sae 19).2 20).1 = 0) :
    mesh_rsn_sae_group L wpa_s sae =
      some (0, set_sae_group_index wpa_s rsn 1,
        (L.sae_set_group (L.sae_set_group sae 19).2 20).2) ∧
    (∀ sae1,
      mesh_rsn_sae_group L (set_sae_groups (set_sae_group_index wpa_s rsn 1) [21, -1]) sae1 =
        some (-1, set_sae_groups (set_sae_group_index wpa_s rsn 1) [21, -1], sae1)) ∧
    (∀ sae1, (L.sae_set_group sae1 21).1 = 0 →
      mesh_rsn_sae_group L (set_sae_groups (set_sae_group_index wpa_s rsn 0) [21, -1]) sae1 =
        some (0, set_sae_groups (set_sae_group_index wpa_s rsn 0) [21, -1],
          (L.sae_set_group sae1 21).2)) := by
  refine ⟨?_, fun sae1 => ?_, fun sae1 h21 => ?_⟩
  · exact (mesh_rsn_sae_group_at L wpa_s rsn sae [19, 20, 21] [] 0 [19] 20 [21, -1] hg
      (by decide) hrsn (by rw [hc]; rfl) (by decide) rfl ⟨by decide, h19, trivial⟩).2
      (by decide) h20
  · exact (mesh_rsn_sae_group_at L (set_sae_groups (set_sae_group_index wpa_s rsn 1) [21, -1])
      { rsn with sae_group_index := 1 } sae1 [21] [] 1 [] (-1) [] rfl (by decide) rfl rfl
      (by decide) rfl trivial).1 (by decide)
  · exact (mesh_rsn_sae_group_at L (set_sae_groups (set_sae_group_index wpa_s rsn 0) [21, -1])
      { rsn with sae_group_index := 0 } sae1 [21] [] 0 [] 21 [-1] rfl (by decide) rfl rfl
      (by decide) rfl trivial).2 (by decide) h21

/-- The reconfiguration at a concrete input: the sample interface with a
library that lacks group 19; after the reconfiguration to [21, -1] the call
fails with the cursor at 1. -/
theorem mesh_rsn_sae_group_reconfig_witness :
    (sample_sae_lib_no19.sae_set_group sae_data_zero 19).1 ≠ 0 ∧
    mesh_rsn_sae_group sample_sae_lib_no19
        (set_sae_groups (set_sae_group_index (sample_group_wpa_s [19, 20, 21, -1] 0)
          sample_rsn 1) [21, -1]) { sae_data_zero with group := 20 } =
      some (-1, set_sae_groups (set_sae_group_index (sample_group_wpa_s [19, 20, 21, -1] 0)
          sample_rsn 1) [21, -1], { sae_data_zero with group := 20 }) :=
  ⟨by decide,
    (mesh_rsn_sae_group_reconfig sample_sae_lib_no19 (sample_group_wpa_s [19, 20, 21, -1] 0)
      sample_rsn sae_data_zero rfl rfl rfl (by decide) rfl).2.1 _⟩

theorem mesh_rsn_sae_group_loop_bounded (L : sae_lib) (l tail : List Int) (idx : Int)
    (sae : sae_data) :
    ∃ ret idx1 sae1,
      mesh_rsn_sae_group_loop L (l ++ -1 :: tail) idx sae = some (ret, idx1, sae1) ∧
      mesh_rsn_sae_group_loop L (l ++ [-1]) idx sae = some (ret, idx1, sae1) ∧
      idx ≤ idx1 ∧ idx1 ≤ idx + l.length := by
  induction l generalizing idx sae with
  | nil =>
    exact ⟨-1, idx, sae, by simp [mesh_rsn_sae_group_loop],
      by simp [mesh_rsn_sae_group_loop], le_refl _, by simp⟩
  | cons a l ih =>
    by_cases ha : a < 0
    · refine ⟨-1, idx, sae, ?_, ?_, le_refl _, ?_⟩
      · show mesh_rsn_sae_group_loop L (a :: (l ++ -1 :: tail)) idx sae = _
        simp only [mesh_rsn_sae_group_loop, if_pos ha]
      · show mesh_rsn_sae_group_loop L (a :: (l ++ [-1])) idx sae = _
        simp only [mesh_rsn_sae_group_loop, if_pos ha]
      · have : (0 : Int) ≤ ((a :: l).length : Int) := Int.ofNat_nonneg _
        omega
    · by_cases hacc : (L.sae_set_group sae a).1 = 0
      · refine ⟨0, idx, (L.sae_set_group sae a).2, ?_, ?_, le_refl _, ?_⟩
        · show mesh_rsn_sae_group_loop L (a :: (l ++ -1 :: tail)) idx sae = _
          simp only [mesh_rsn_sae_group_loop, if_neg ha, if_pos hacc]
        · show mesh_rsn_sae_group_loop L (a :: (l ++ [-1])) idx sae = _
          simp only [mesh_rsn_sae_group_loop, if_neg ha, if_pos hacc]
        · have : (0 : Int) ≤ ((a :: l).length : Int) := Int.ofNat_nonneg _
          omega
      · obtain ⟨ret, idx1, sae1, h1, h2, h3, h4⟩ := ih (idx + 1) (L.sae_set_group sae a).2
        refine ⟨ret, idx1, sae1, ?_, ?_, by omega, ?_⟩
        · show mesh_rsn_sae_group_loop L (a :: (l ++ -1 :: tail)) idx sae = _
          simp only [mesh_rsn_sae_group_loop, if_neg ha, if_neg hacc]
          exact h1
        · show mesh_rsn_sae_group_loop L (a :: (l ++ [-1])) idx sae = _
          simp only [mesh_rsn_sae_group_loop, if_neg ha, if_neg hacc]
          exact h2
        · rw [List.length_cons, Nat.cast_add, Nat.cast_one]
          omega

/-- C26: for every group list that contains the sentinel -1, with first
sentinel at index `pre.length`, and every cursor value c ≥ 0, whatever
sae_set_group answers: index_within_array and mesh_rsn_sae_group return, and
they return the same on the list cut off right behind its first sentinel, where
any read of a later index would not return; so they read no entry past the
first sentinel. On return the cursor is at least c and at most the index of the
first sentinel, unless validation rejected it, in which case the call fails
with the cursor as it was. -/
theorem mesh_rsn_sae_group_bounded (L : sae_lib) (wpa_s : wpa_supplicant) (rsn : mesh_rsn)
    (sae : sae_data) (pre tail : List Int) (c : Nat)
    (hg : wpa_s.bss0.sae_groups = some (pre ++ -1 :: tail)) (hpre : (-1 : Int) ∉ pre)
    (hrsn : wpa_s.mesh_rsn = some rsn) (hc : rsn.sae_group_index = (c : Int)) :
    (∃ r, index_within_array (pre ++ -1 :: tail) (c : Int) = some r ∧
      index_within_array (pre ++ [-1]) (c : Int) = some r) ∧
    ∃ ret idx sae1,
      mesh_rsn_sae_group L wpa_s sae = some (ret, set_sae_group_index wpa_s rsn idx, sae1) ∧
      mesh_rsn_sae_group L (set_sae_groups wpa_s (pre ++ [-1])) sae =
        some (ret, set_sae_group_index (set_sae_groups wpa_s (pre ++ [-1])) rsn idx, sae1) ∧
      (c ≤ pre.length → (c : Int) ≤ idx ∧ idx ≤ (pre.length : Int)) ∧
      (pre.length < c → ret = -1 ∧ idx = (c : Int)) := by
  have e1 := mesh_rsn_sae_group_eq L wpa_s rsn sae pre tail c hg hpre hrsn hc
  have e2 := mesh_rsn_sae_group_eq L (set_sae_groups wpa_s (pre ++ [-1])) rsn sae pre [] c rfl
    hpre hrsn hc
  refine ⟨?_, ?_⟩
  · rw [index_within_array_eq c pre tail hpre, index_within_array_eq c pre [] hpre]
    by_cases h : pre.length < c
    · exact ⟨0, by rw [if_pos h], by rw [if_pos h]⟩
    · exact ⟨1, by rw [if_neg h], by rw [if_neg h]⟩
  · by_cases h : pre.length < c
    · rw [if_pos h] at e1 e2
      have hs1 := set_sae_group_index_self wpa_s rsn hrsn
      have hs2 := set_sae_group_index_self (set_sae_groups wpa_s (pre ++ [-1])) rsn hrsn
      rw [hc] at hs1 hs2
      refine ⟨-1, (c : Int), sae, ?_, ?_, fun hle => absurd h (not_lt.mpr hle),
        fun _ => ⟨rfl, rfl⟩⟩
      · rw [hs1]
        exact e1
      · rw [hs2]
        exact e2
    · have hle : c ≤ pre.length := not_lt.mp h
      rw [if_neg h, List.drop_append_of_le_length hle] at e1 e2
      obtain ⟨ret, idx, sae1, h1, h2, h3, h4⟩ :=
        mesh_rsn_sae_group_loop_bounded L (pre.drop c) tail (c : Int) sae
      rw [h1] at e1
      rw [h2] at e2
      refine ⟨ret, idx, sae1, e1, e2, fun _ => ⟨h3, ?_⟩, fun hlt => absurd hlt h⟩
      rw [List.length_drop] at h4
      omega

/-- The bound at a concrete input: the list [19, 20, 21, -1] followed by two
further entries, cursor 0, and a library without group 19. -/
theorem mesh_rsn_sae_group_bounded_witness :
    (sample_group_wpa_s [19, 20, 21, -1, 25, 26] 0).bss0.sae_groups =
      some ([19, 20, 21] ++ -1 :: [25, 26]) ∧
    (∃ r, index_within_array ([19, 20, 21] ++ -1 :: [25, 26]) ((0 : Nat) : Int) = some r ∧
      index_within_array ([19, 20, 21] ++ [-1]) ((0 : Nat) : Int) = some r) :=
  ⟨rfl,
    (mesh_rsn_sae_group_bounded sample_sae_lib_no19
      (sample_group_wpa_s [19, 20, 21, -1, 25, 26] 0) sample_rsn sae_data_zero [19, 20, 21]
      [25, 26] 0 rfl (by decide) rfl rfl).1⟩


/-! ## The peer table -/

theorem sta_deref_append (data data1 : hostapd_data) (x : sta_info)
    (hp : data1.sta_pool = data.sta_pool ++ [x]) (p : Nat) (r : sta_info)
    (h : sta_deref data p = some r) : sta_deref data1 p = some r := by
  have hlt := sta_deref_lt data p r h
  unfold sta_deref at h ⊢
  rw [hp, List.getElem?_append_left hlt]
  exact h

theorem sta_deref_append_new (data data1 : hostapd_data) (x : sta_info)
    (hp : data1.sta_pool = data.sta_pool ++ [x]) :
    sta_deref data1 data.sta_pool.length = some x := by
  unfold sta_deref
  rw [hp]
  simp

theorem mesh_get_sta_chain_append (data data1 : hostapd_data) (x : sta_info)
    (hp : data1.sta_pool = data.sta_pool ++ [x]) (a : List Nat) (l : List Nat)
    (res : Option Nat) (h : mesh_get_sta_chain data a l = some res) :
    mesh_get_sta_chain data1 a l = some res := by
  induction l with
  | nil => exact h
  | cons s l ih =>
    unfold mesh_get_sta_chain at h ⊢
    cases hd : sta_deref data s with
    | none =>
      rw [hd] at h
      cases h
    | some r =>
      rw [hd] at h
      rw [sta_deref_append data data1 x hp s r hd]
      dsimp only at h ⊢
      by_cases hc : os_memcmp r.addr a 6 ≠ 0
      · rw [if_pos hc] at h ⊢
        exact ih h
      · rw [if_neg hc] at h ⊢
        exact h

theorem mesh_get_sta_chain_total (data : hostapd_data) (a : List Nat) (l : List Nat)
    (hv : ∀ p ∈ l, p < data.sta_pool.length) :
    ∃ res, mesh_get_sta_chain data a l = some res ∧
      (∀ p, res = some p → p ∈ l ∧
        ∃ r, sta_deref data p = some r ∧ os_memcmp r.addr a 6 = 0) ∧
      (res = none → ∀ p ∈ l, ∀ r, sta_deref data p = some r → os_memcmp r.addr a 6 ≠ 0) := by
  induction l with
  | nil =>
    exact ⟨none, rfl, fun p hp => Option.noConfusion hp,
      fun _ p hp => absurd hp (List.not_mem_nil p)⟩
  | cons s l ih =>
    obtain ⟨res, h1, h2, h3⟩ := ih (fun p hp => hv p (List.mem_cons_of_mem _ hp))
    have hs : s < data.sta_pool.length := hv s (List.mem_cons_self _ _)
    have hd : sta_deref data s = some (data.sta_pool.get ⟨s, hs⟩) := by
      unfold sta_deref
      exact List.getElem?_eq_getElem hs
    by_cases hc : os_memcmp (data.sta_pool.get ⟨s, hs⟩).addr a 6 ≠ 0
    · refine ⟨res, ?_, fun p hp => ?_, fun hn p hp r hr => ?_⟩
      · unfold mesh_get_sta_chain
        rw [hd]
        dsimp only
        rw [if_pos hc]
        exact h1
      · exact ⟨List.mem_cons_of_mem _ (h2 p hp).1, (h2 p hp).2⟩
      · rcases List.mem_cons.mp hp with e | e
        · rw [e, hd] at hr
          cases hr
          exact hc
        · exact h3 hn p e r hr
    · refine ⟨some s, ?_, fun p hp => ?_, fun hn => Option.noConfusion hn⟩
      · unfold mesh_get_sta_chain
        rw [hd]
        dsimp only
        rw [if_neg hc]
      · cases hp
        exact ⟨List.mem_cons_self _ _, _, hd, not_not.mp hc⟩

theorem mesh_sta_add_found (K : mesh_defs) (wpa_s : wpa_supplicant) (addr : List Nat) (p : Nat)
    (hget : mesh_get_sta K wpa_s.bss0 addr = some (some p)) :
    mesh_sta_add K wpa_s addr = some (some p, wpa_s) := by
  unfold mesh_sta_add
  simp only [hget]

theorem mesh_sta_add_full (K : mesh_defs) (wpa_s : wpa_supplicant) (addr : List Nat)
    (hget : mesh_get_sta K wpa_s.bss0 addr = some none)
    (hfull : wpa_s.bss0.num_sta ≥ wpa_s.bss0.max_num_sta) :
    mesh_sta_add K wpa_s addr = some (none, wpa_s) := by
  unfold mesh_sta_add
  simp only [hget]
  rw [if_pos hfull]

theorem mesh_sta_add_nomem (K : mesh_defs) (wpa_s : wpa_supplicant) (addr : List Nat)
    (hget : mesh_get_sta K wpa_s.bss0 addr = some none)
    (hroom : ¬ wpa_s.bss0.num_sta ≥ wpa_s.bss0.max_num_sta)
    (hmem : wpa_s.alloc_fail wpa_s.alloc_count = true) :
    mesh_sta_add K wpa_s addr =
      some (none, { wpa_s with alloc_count := wpa_s.alloc_count + 1 }) := by
  unfold mesh_sta_add
  simp only [hget]
  rw [if_neg hroom]
  simp only [os_alloc, hmem, Bool.not_true, Bool.not_false, if_true]

theorem mesh_sta_add_new (K : mesh_defs) (wpa_s : wpa_supplicant) (addr : List Nat)
    (hget : mesh_get_sta K wpa_s.bss0 addr = some none)
    (hroom : ¬ wpa_s.bss0.num_sta ≥ wpa_s.bss0.max_num_sta)
    (hmem : next_alloc_ok wpa_s) :
    mesh_sta_add K wpa_s addr =
      some (some wpa_s.bss0.sta_pool.length,
        { wpa_s with
          alloc_count := wpa_s.alloc_count + 1
          bss0 :=
            mesh_sta_hash_add K
              { wpa_s.bss0 with
                sta_pool :=
                  wpa_s.bss0.sta_pool ++ [{ sta_info_zero K with addr := os_memcpy addr ETH_ALEN }]
                sta_list := wpa_s.bss0.sta_pool.length :: wpa_s.bss0.sta_list
                num_sta := wpa_s.bss0.num_sta + 1 }
              wpa_s.bss0.sta_pool.length (os_memcpy addr ETH_ALEN) }) := by
  unfold mesh_sta_add
  unfold next_alloc_ok at hmem
  simp only [hget]
  rw [if_neg hroom]
  simp only [os_alloc, hmem, Bool.not_true, Bool.not_false, Bool.false_eq_true, if_false]


theorem sta_deref_append_old (data data1 : hostapd_data) (x : sta_info)
    (hp : data1.sta_pool = data.sta_pool ++ [x]) (p : Nat) (r : sta_info)
    (hlt : p < data.sta_pool.length) (h : sta_deref data1 p = some r) :
    sta_deref data p = some r := by
  unfold sta_deref at h ⊢
  rw [hp, List.getElem?_append_left hlt] at h
  exact h

theorem peer_table_ok_absent (K : mesh_defs) (data : hostapd_data) (addr : List Nat)
    (hok : peer_table_ok K data) (hnone : mesh_get_sta K data addr = some none) :
    ∀ q ∈ data.sta_list, ∀ r, sta_deref data q = some r → r.addr ≠ addr := by
  intro q hq r hr e
  obtain ⟨ha, hb, hc, _⟩ := hok
  have hq2 := (hc q hq r hr).2
  rw [e] at hq2
  obtain ⟨res, h1, _, h3⟩ := mesh_get_sta_chain_total data addr (data.sta_hash (K.STA_HASH addr))
    (fun p hp => ha p (hb _ p hp))
  unfold mesh_get_sta at hnone
  rw [h1] at hnone
  have hres : res = none := Option.some.inj hnone
  exact h3 hres q hq2 r hr (os_memcmp_of_eq 6 _ _ (by rw [e]))

theorem peer_table_ok_insert (K : mesh_defs) (data : hostapd_data) (addr : List Nat)
    (haddr : addr.length = 6) (hok : peer_table_ok K data)
    (hnone : mesh_get_sta K data addr = some none) :
    peer_table_ok K
      (mesh_sta_hash_add K
        { data with
          sta_pool := data.sta_pool ++ [{ sta_info_zero K with addr := addr }]
          sta_list := data.sta_pool.length :: data.sta_list
          num_sta := data.num_sta + 1 }
        data.sta_pool.length addr) := by
  have habs := peer_table_ok_absent K data addr hok hnone
  obtain ⟨ha, hb, hc, hd⟩ := hok
  have hpool : (mesh_sta_hash_add K
      { data with
        sta_pool := data.sta_pool ++ [{ sta_info_zero K with addr := addr }]
        sta_list := data.sta_pool.length :: data.sta_list
        num_sta := data.num_sta + 1 }
      data.sta_pool.length addr).sta_pool =
      data.sta_pool ++ [{ sta_info_zero K with addr := addr }] := rfl
  have hnew := sta_deref_append_new data _ _ hpool
  refine ⟨fun p hp => ?_, fun h p hp => ?_, fun p hp r hr => ?_, fun p hp q hq r1 r2 h1 h2 e => ?_⟩
  · rw [hpool, List.length_append, List.length_singleton]
    rcases List.mem_cons.mp hp with e | e
    · omega
    · have := ha p e
      omega
  · show p ∈ data.sta_pool.length :: data.sta_list
    have hp2 : p ∈ (if h = K.STA_HASH addr then data.sta_pool.length :: data.sta_hash h
        else data.sta_hash h) := hp
    by_cases hh : h = K.STA_HASH addr
    · rw [if_pos hh] at hp2
      rcases List.mem_cons.mp hp2 with e | e
      · rw [e]
        exact List.mem_cons_self _ _
      · exact List.mem_cons_of_mem _ (hb h p e)
    · rw [if_neg hh] at hp2
      exact List.mem_cons_of_mem _ (hb h p hp2)
  · rcases List.mem_cons.mp hp with e | e
    · rw [e, hnew] at hr
      cases hr
      refine ⟨haddr, ?_⟩
      show p ∈ (if K.STA_HASH addr = K.STA_HASH addr then
        data.sta_pool.length :: data.sta_hash (K.STA_HASH addr)
        else data.sta_hash (K.STA_HASH addr))
      rw [if_pos rfl, e]
      exact List.mem_cons_self _ _
    · have hr0 := sta_deref_append_old data _ _ hpool p r (ha p e) hr
      obtain ⟨hl, hm⟩ := hc p e r hr0
      refine ⟨hl, ?_⟩
      show p ∈ (if K.STA_HASH r.addr = K.STA_HASH addr then
        data.sta_pool.length :: data.sta_hash (K.STA_HASH r.addr)
        else data.sta_hash (K.STA_HASH r.addr))
      by_cases hh : K.STA_HASH r.addr = K.STA_HASH addr
      · rw [if_pos hh]
        exact List.mem_cons_of_mem _ hm
      · rw [if_neg hh]
        exact hm
  · rcases List.mem_cons.mp hp with ep | ep
    · rcases List.mem_cons.mp hq with eq | eq
      · rw [ep, eq]
      · have h20 := sta_deref_append_old data _ _ hpool q r2 (ha q eq) h2
        rw [ep, hnew] at h1
        cases h1
        exact absurd e.symm (habs q eq r2 h20)
    · have h10 := sta_deref_append_old data _ _ hpool p r1 (ha p ep) h1
      rcases List.mem_cons.mp hq with eq | eq
      · rw [eq, hnew] at h2
        cases h2
        exact absurd e (habs p ep r1 h10)
      · have h20 := sta_deref_append_old data _ _ hpool q r2 (ha q eq) h2
        exact hd p ep q eq r1 r2 h10 h20 e

theorem mesh_sta_add_keeps_ok (K : mesh_defs) (wpa_s : wpa_supplicant) (addr : List Nat)
    (haddr : addr.length = 6) (hok : peer_table_ok K wpa_s.bss0) :
    ∃ o w1, mesh_sta_add K wpa_s addr = some (o, w1) ∧ peer_table_ok K w1.bss0 ∧
      w1.bss0.max_num_sta = wpa_s.bss0.max_num_sta ∧
      (wpa_s.bss0.num_sta ≤ wpa_s.bss0.max_num_sta →
        w1.bss0.num_sta ≤ w1.bss0.max_num_sta) := by
  obtain ⟨res, h1, _, _⟩ := mesh_get_sta_chain_total wpa_s.bss0 addr
    (wpa_s.bss0.sta_hash (K.STA_HASH addr)) (fun p hp => hok.1 p (hok.2.1 _ p hp))
  have hget : mesh_get_sta K wpa_s.bss0 addr = some res := h1
  cases res with
  | some p => exact ⟨_, _, mesh_sta_add_found K wpa_s addr p hget, hok, rfl, fun h => h⟩
  | none =>
    by_cases hfull : wpa_s.bss0.num_sta ≥ wpa_s.bss0.max_num_sta
    · exact ⟨_, _, mesh_sta_add_full K wpa_s addr hget hfull, hok, rfl, fun h => h⟩
    · cases hmem : wpa_s.alloc_fail wpa_s.alloc_count with
      | true => exact ⟨_, _, mesh_sta_add_nomem K wpa_s addr hget hfull hmem, hok, rfl, fun h => h⟩
      | false =>
        have e := mesh_sta_add_new K wpa_s addr hget hfull hmem
        have e6 : os_memcpy addr ETH_ALEN = addr := os_memcpy_of_length 6 addr haddr
        rw [e6] at e
        refine ⟨_, _, e, peer_table_ok_insert K wpa_s.bss0 addr haddr hok hget, rfl, fun _ => ?_⟩
        show wpa_s.bss0.num_sta + 1 ≤ wpa_s.bss0.max_num_sta
        omega

theorem mesh_sta_add_run_ok (K : mesh_defs) (addrs : List (List Nat)) :
    ∀ wpa_s : wpa_supplicant, (∀ a ∈ addrs, a.length = 6) → peer_table_ok K wpa_s.bss0 →
      wpa_s.bss0.num_sta ≤ wpa_s.bss0.max_num_sta →
      ∃ w1, mesh_sta_add_run K wpa_s addrs = some w1 ∧ peer_table_ok K w1.bss0 ∧
        w1.bss0.num_sta ≤ w1.bss0.max_num_sta := by
  induction addrs with
  | nil => exact fun wpa_s _ hok hn => ⟨wpa_s, rfl, hok, hn⟩
  | cons a addrs ih =>
    intro wpa_s hlen hok hn
    obtain ⟨o, w1, e, hok1, _, hn1⟩ :=
      mesh_sta_add_keeps_ok K wpa_s a (hlen a (List.mem_cons_self _ _)) hok
    obtain ⟨w2, e2, hok2, hn2⟩ :=
      ih w1 (fun b hb => hlen b (List.mem_cons_of_mem _ hb)) hok1 (hn1 hn)
    refine ⟨w2, ?_, hok2, hn2⟩
    unfold mesh_sta_add_run
    rw [e]
    exact e2


theorem mesh_sta_add_new_lookup (K : mesh_defs) (data : hostapd_data) (addr : List Nat) :
    mesh_get_sta K
        (mesh_sta_hash_add K
          { data with
            sta_pool := data.sta_pool ++ [{ sta_info_zero K with addr := addr }]
            sta_list := data.sta_pool.length :: data.sta_list
            num_sta := data.num_sta + 1 }
          data.sta_pool.length addr) addr = some (some data.sta_pool.length) ∧
    ∀ b, os_memcmp addr b 6 ≠ 0 → ∀ res, mesh_get_sta K data b = some res →
      mesh_get_sta K
        (mesh_sta_hash_add K
          { data with
            sta_pool := data.sta_pool ++ [{ sta_info_zero K with addr := addr }]
            sta_list := data.sta_pool.length :: data.sta_list
            num_sta := data.num_sta + 1 }
          data.sta_pool.length addr) b = some res := by
  have hpool : (mesh_sta_hash_add K
      { data with
        sta_pool := data.sta_pool ++ [{ sta_info_zero K with addr := addr }]
        sta_list := data.sta_pool.length :: data.sta_list
        num_sta := data.num_sta + 1 }
      data.sta_pool.length addr).sta_pool =
      data.sta_pool ++ [{ sta_info_zero K with addr := addr }] := rfl
  have hnew := sta_deref_append_new data _ _ hpool
  refine ⟨?_, fun b hb res hres => ?_⟩
  · show mesh_get_sta_chain _ addr
      (if K.STA_HASH addr = K.STA_HASH addr then
        data.sta_pool.length :: data.sta_hash (K.STA_HASH addr)
        else data.sta_hash (K.STA_HASH addr)) = _
    rw [if_pos rfl]
    unfold mesh_get_sta_chain
    rw [hnew]
    dsimp only
    rw [if_neg (not_not.mpr (os_memcmp_of_eq 6 addr addr rfl))]
  · have hold := mesh_get_sta_chain_append data _ _ hpool b (data.sta_hash (K.STA_HASH b)) res
      hres
    show mesh_get_sta_chain _ b
      (if K.STA_HASH b = K.STA_HASH addr then
        data.sta_pool.length :: data.sta_hash (K.STA_HASH b)
        else data.sta_hash (K.STA_HASH b)) = _
    by_cases hh : K.STA_HASH b = K.STA_HASH addr
    · rw [if_pos hh]
      unfold mesh_get_sta_chain
      rw [hnew]
      dsimp only
      rw [if_pos hb]
      exact hold
    · rw [if_neg hh]
      exact hold

/-- C23: for every peer table and 6-byte address. When mesh_get_sta finds the
address, mesh_sta_add returns that record and leaves the machine unchanged.
When the address is absent and num_sta ≥ max_num_sta, it returns no record and
leaves the machine unchanged. When the address is absent, num_sta <
max_num_sta and the record is allocated, it appends exactly one zero-initialised
record with that address to the pool, links it into the list, increases
num_sta by one and returns its pointer; a following mesh_get_sta for that
address returns the new record, and a lookup of any other address returns what
it returned before. Consequently a well-formed table, in which no two listed
records have the same address, stays well-formed, and num_sta ≤ max_num_sta is
kept, by one call and by every run of calls, all of which return. -/
theorem mesh_sta_add_table (K : mesh_defs) (wpa_s : wpa_supplicant) (addr : List Nat)
    (haddr : addr.length = 6) :
    (∀ p, mesh_get_sta K wpa_s.bss0 addr = some (some p) →
      mesh_sta_add K wpa_s addr = some (some p, wpa_s)) ∧
    (mesh_get_sta K wpa_s.bss0 addr = some none →
      wpa_s.bss0.num_sta ≥ wpa_s.bss0.max_num_sta →
      mesh_sta_add K wpa_s addr = some (none, wpa_s)) ∧
    (mesh_get_sta K wpa_s.bss0 addr = some none →
      wpa_s.bss0.num_sta < wpa_s.bss0.max_num_sta → next_alloc_ok wpa_s →
      ∃ w1, mesh_sta_add K wpa_s addr = some (some wpa_s.bss0.sta_pool.length, w1) ∧
        w1.bss0.sta_pool = wpa_s.bss0.sta_pool ++ [{ sta_info_zero K with addr := addr }] ∧
        w1.bss0.sta_list = wpa_s.bss0.sta_pool.length :: wpa_s.bss0.sta_list ∧
        w1.bss0.num_sta = wpa_s.bss0.num_sta + 1 ∧
        w1.bss0.max_num_sta = wpa_s.bss0.max_num_sta ∧
        mesh_get_sta K w1.bss0 addr = some (some wpa_s.bss0.sta_pool.length) ∧
        ∀ b, os_memcmp addr b 6 ≠ 0 → ∀ res, mesh_get_sta K wpa_s.bss0 b = some res →
          mesh_get_sta K w1.bss0 b = some res) ∧
    (peer_table_ok K wpa_s.bss0 →
      ∃ o w1, mesh_sta_add K wpa_s addr = some (o, w1) ∧ peer_table_ok K w1.bss0 ∧
        (wpa_s.bss0.num_sta ≤ wpa_s.bss0.max_num_sta →
          w1.bss0.num_sta ≤ w1.bss0.max_num_sta)) ∧
    (∀ addrs : List (List Nat), (∀ a ∈ addrs, a.length = 6) → peer_table_ok K wpa_s.bss0 →
      wpa_s.bss0.num_sta ≤ wpa_s.bss0.max_num_sta →
      ∃ w1, mesh_sta_add_run K wpa_s addrs = some w1 ∧ peer_table_ok K w1.bss0 ∧
        w1.bss0.num_sta ≤ w1.bss0.max_num_sta) := by
  refine ⟨fun p h => mesh_sta_add_found K wpa_s addr p h,
    fun h hfull => mesh_sta_add_full K wpa_s addr h hfull, fun h hroom hmem => ?_,
    fun hok => ?_, fun addrs hlen hok hn => mesh_sta_add_run_ok K addrs wpa_s hlen hok hn⟩
  · have e := mesh_sta_add_new K wpa_s addr h (not_le.mpr hroom) hmem
    have e6 : os_memcpy addr ETH_ALEN = addr := os_memcpy_of_length 6 addr haddr
    rw [e6] at e
    have hl := mesh_sta_add_new_lookup K wpa_s.bss0 addr
    exact ⟨_, e, rfl, rfl, rfl, rfl, hl.1, hl.2⟩
  · obtain ⟨o, w1, e, hok1, _, hn1⟩ := mesh_sta_add_keeps_ok K wpa_s addr haddr hok
    exact ⟨o, w1, e, hok1, hn1⟩

/-- The table at a concrete input: the sample peer is added to the empty table
of the sample interface and found by the following lookup. -/
theorem mesh_sta_add_table_witness :
    sample_peer.length = 6 ∧
    mesh_get_sta hostap_defs sample_wpa_s.bss0 sample_peer = some none ∧
    ∃ w1, mesh_sta_add hostap_defs sample_wpa_s sample_peer = some (some 0, w1) ∧
      w1.bss0.sta_pool = [{ sta_info_zero hostap_defs with addr := sample_peer }] ∧
      w1.bss0.num_sta = 1 ∧
      mesh_get_sta hostap_defs w1.bss0 sample_peer = some (some 0) :=
  ⟨rfl, rfl,
    match (mesh_sta_add_table hostap_defs sample_wpa_s sample_peer rfl).2.2.1 rfl
      (by decide) rfl with
    | ⟨w1, h1, h2, _, h4, _, h6, _⟩ => ⟨w1, h1, h2, h4, h6⟩⟩


/-! ## Frames that mesh_mpm_action_rx drops -/

theorem mesh_get_sta_chain_deref (data : hostapd_data) (a : List Nat) (l : List Nat) (p : Nat)
    (h : mesh_get_sta_chain data a l = some (some p)) : ∃ r, sta_deref data p = some r := by
  induction l with
  | nil => cases h
  | cons s l ih =>
    unfold mesh_get_sta_chain at h
    cases hd : sta_deref data s with
    | none =>
      rw [hd] at h
      cases h
    | some r =>
      rw [hd] at h
      dsimp only at h
      by_cases hc : os_memcmp r.addr a 6 ≠ 0
      · rw [if_pos hc] at h
        exact ih h
      · rw [if_neg hc] at h
        cases h
        exact ⟨r, hd⟩

/-- C24: for every received action, mesh_mpm_action_rx returns with the
machine exactly as it was, so no frame is transmitted and no peer record
changes, in each of these cases: the category is not SELF_PROTECTED; the length
is below 5 bytes; the lookup of the sender finds no record; the lookup of the
sender returns and the action subtype is none of OPEN, CONFIRM, CLOSE. -/
theorem mesh_mpm_action_rx_dropped (K : mesh_defs) (wpa_s : wpa_supplicant) (rx : rx_action) :
    (rx.category ≠ K.WLAN_ACTION_SELF_PROTECTED →
      mesh_mpm_action_rx K wpa_s rx = some wpa_s) ∧
    (rx.data.length < 5 → mesh_mpm_action_rx K wpa_s rx = some wpa_s) ∧
    (mesh_get_sta K wpa_s.bss0 rx.sa = some none →
      mesh_mpm_action_rx K wpa_s rx = some wpa_s) ∧
    (byte_at rx.data 0 ≠ PLINK_OPEN → byte_at rx.data 0 ≠ PLINK_CONFIRM →
      byte_at rx.data 0 ≠ PLINK_CLOSE →
      ∀ res, mesh_get_sta K wpa_s.bss0 rx.sa = some res →
        mesh_mpm_action_rx K wpa_s rx = some wpa_s) := by
  have hnone : mesh_get_sta K wpa_s.bss0 rx.sa = some none →
      mesh_mpm_action_rx K wpa_s rx = some wpa_s := by
    intro h
    unfold mesh_mpm_action_rx
    by_cases hc : rx.category ≠ K.WLAN_ACTION_SELF_PROTECTED
    · rw [if_pos hc]
    · rw [if_neg hc]
      by_cases hl : rx.data.length < 1 + 2 + 2
      · rw [if_pos hl]
      · rw [if_neg hl]
        simp only [h]
  refine ⟨fun hc => ?_, fun hl => ?_, hnone, fun h1 h2 h3 res hres => ?_⟩
  · unfold mesh_mpm_action_rx
    rw [if_pos hc]
  · unfold mesh_mpm_action_rx
    by_cases hc : rx.category ≠ K.WLAN_ACTION_SELF_PROTECTED
    · rw [if_pos hc]
    · rw [if_neg hc, if_pos (by omega)]
  · cases res with
    | none => exact hnone hres
    | some p =>
      obtain ⟨r, hr⟩ := mesh_get_sta_chain_deref wpa_s.bss0 rx.sa _ p hres
      have hev : mesh_mpm_action_rx_event r (byte_at rx.data 0) = none := by
        unfold mesh_mpm_action_rx_event
        simp only [if_neg h1, if_neg h2, if_neg h3]
      unfold mesh_mpm_action_rx
      by_cases hc : rx.category ≠ K.WLAN_ACTION_SELF_PROTECTED
      · rw [if_pos hc]
      · rw [if_neg hc]
        by_cases hl : rx.data.length < 1 + 2 + 2
        · rw [if_pos hl]
        · rw [if_neg hl]
          simp only [hres, hr, hev]
          by_cases hb : r.plink_state = PLINK_BLOCKED
          · rw [if_pos hb]
          · rw [if_neg hb]

/-! ## Reads of the recovered AMPE element -/

theorem byte_at_pos_lt (a : List Nat) (i : Nat) (h : 0 < byte_at a i) : i < a.length := by
  by_contra hlt
  unfold byte_at at h
  rw [List.getD_eq_default _ _ (not_lt.mp hlt)] at h
  exact absurd h (by decide)

theorem mesh_rsn_process_ampe_checked (A : ampe_defs) (V : aes_siv_lib) (wpa_s : wpa_supplicant)
    (sta : sta_info) (elems : ieee802_11_elems) (frame : List Nat)
    (cat start elems_len : Nat) (rsn : mesh_rsn) (mic crypt_len : Nat) (pt : List Nat)
    (hrsn : wpa_s.mesh_rsn = some rsn) (hmic : elems.mic = some mic)
    (hml : 16 ≤ elems.mic_len) (hcl : mic + crypt_len = start + elems_len)
    (h2 : 2 ≤ crypt_len) (hmem : next_two_allocs_ok wpa_s) (hcat : cat + 2 ≤ mic)
    (hdec : V.aes_siv_decrypt sta.aek (process_ampe_crypt frame mic crypt_len)
      (process_ampe_aad rsn sta frame cat mic) = (0, pt))
    (heid : byte_at pt 0 = A.WLAN_EID_AMPE) (hlen : sizeof_ampe_ie ≤ byte_at pt 1) :
    mesh_rsn_process_ampe A V wpa_s sta elems frame cat start elems_len =
      if crypt_len < 2 + 4 + 32 + 32 then none
      else if os_memcmp (ampe_peer_nonce (os_memcpy pt crypt_len)) (List.replicate 32 0) 32 ≠ 0 ∧
          os_memcmp (ampe_peer_nonce (os_memcpy pt crypt_len)) sta.my_nonce 32 ≠ 0 then
        some (-1, after_two_allocs wpa_s, sta)
      else if crypt_len < 2 + 4 + 32 + 32 + 16 then none
      else
        some (0, after_two_allocs wpa_s,
          { sta with
            peer_nonce := ampe_local_nonce (os_memcpy pt crypt_len)
            mgtk := ampe_mgtk (os_memcpy pt crypt_len) }) := by
  obtain ⟨h1, h2a⟩ := hmem
  have e : start + elems_len - mic = crypt_len := by omega
  unfold mesh_rsn_process_ampe
  simp only [hrsn, hmic, e]
  rw [if_neg (by simp only [AES_BLOCK_SIZE]; omega), if_neg (by omega)]
  rw [if_neg (by omega)]
  simp only [os_alloc, h1, h2a, Bool.not_false, Bool.not_true, Bool.false_eq_true, if_false]
  rw [if_neg (by omega)]
  simp only [hdec]
  rw [if_neg (by simp), byte_at_os_memcpy _ _ _ (by omega), byte_at_os_memcpy _ _ _ (by omega),
    if_neg (by rw [heid]; simp only [ne_eq, not_true_eq_false, false_or]; omega)]
  rfl


/-- C25: mesh_rsn_process_ampe does not compare the length of the decrypted
plaintext with the fields it reads. For every frame that authenticates with a
plaintext `pt` of crypt_len - 16 bytes whose first byte is EID AMPE and whose
second byte is at least 96, whatever the length of `pt`, the EID/length check
passes and the function goes on to the fields: with crypt_len < 70 the read of
peer_nonce runs past the end of the plaintext buffer; with 70 ≤ crypt_len < 86
and an accepted nonce the copies of local_nonce and mgtk run past its end; with
86 ≤ crypt_len < 114, where the plaintext is shorter than the 2 + 96 bytes of
the element, it returns 0 and stores a peer_nonce and an mgtk read from the
buffer, in part from behind the plaintext. -/
theorem mesh_rsn_process_ampe_short_plaintext (A : ampe_defs) (V : aes_siv_lib)
    (wpa_s : wpa_supplicant) (sta : sta_info) (elems : ieee802_11_elems) (frame : List Nat)
    (cat start elems_len : Nat) (rsn : mesh_rsn) (mic crypt_len : Nat) (pt : List Nat)
    (hrsn : wpa_s.mesh_rsn = some rsn) (hmic : elems.mic = some mic)
    (hml : 16 ≤ elems.mic_len) (hcl : mic + crypt_len = start + elems_len)
    (hmem : next_two_allocs_ok wpa_s) (hcat : cat + 2 ≤ mic)
    (hdec : V.aes_siv_decrypt sta.aek (process_ampe_crypt frame mic crypt_len)
      (process_ampe_aad rsn sta frame cat mic) = (0, pt))
    (hpt : pt.length + 16 = crypt_len)
    (heid : byte_at pt 0 = A.WLAN_EID_AMPE) (hlen : sizeof_ampe_ie ≤ byte_at pt 1) :
    (crypt_len < 70 → pt.length < 2 + sizeof_ampe_ie ∧
      mesh_rsn_process_ampe A V wpa_s sta elems frame cat start elems_len = none) ∧
    (70 ≤ crypt_len → crypt_len < 86 →
      (os_memcmp (ampe_peer_nonce (os_memcpy pt crypt_len)) (List.replicate 32 0) 32 = 0 ∨
        os_memcmp (ampe_peer_nonce (os_memcpy pt crypt_len)) sta.my_nonce 32 = 0) →
      pt.length < 2 + sizeof_ampe_ie ∧
      mesh_rsn_process_ampe A V wpa_s sta elems frame cat start elems_len = none) ∧
    (86 ≤ crypt_len → crypt_len < 114 →
      (ampe_peer_nonce pt = List.replicate 32 0 ∨
        ampe_peer_nonce pt = os_memcpy sta.my_nonce 32) →
      pt.length < 2 + sizeof_ampe_ie ∧
      mesh_rsn_process_ampe A V wpa_s sta elems frame cat start elems_len =
        some (0, after_two_allocs wpa_s,
          { sta with peer_nonce := ampe_local_nonce pt, mgtk := ampe_mgtk pt })) := by
  have hpos : 1 < pt.length :=
    byte_at_pos_lt pt 1 (by unfold sizeof_ampe_ie at hlen; omega)
  have hc := mesh_rsn_process_ampe_checked A V wpa_s sta elems frame cat start elems_len rsn mic
    crypt_len pt hrsn hmic hml hcl (by omega) hmem hcat hdec heid hlen
  refine ⟨fun h70 => ⟨by unfold sizeof_ampe_ie; omega, ?_⟩,
    fun h70 h86 hn => ⟨by unfold sizeof_ampe_ie; omega, ?_⟩,
    fun h86 h114 hn => ⟨by unfold sizeof_ampe_ie; omega, ?_⟩⟩
  · rw [hc, if_pos (by omega)]
  · rw [hc, if_neg (by omega), if_neg (by
      intro hb
      rcases hn with h | h
      · exact hb.1 h
      · exact hb.2 h), if_pos (by omega)]
  · rw [mesh_rsn_process_ampe_eq A V wpa_s sta elems frame cat start elems_len rsn mic
      crypt_len pt hrsn hmic hml hcl h86 hmem hcat hdec heid hlen, if_neg (by
      intro hb
      rcases hn with h | h
      · exact hb.1 h
      · exact hb.2 h)]

/-- The short element at a concrete input: the sample peer receives the frame
with the 18-byte element (crypt_len = 34); the frame authenticates, the
EID/length check passes and the read of the peer_nonce field, bytes 38 to 69 of
a 34-byte buffer, runs past its end. -/
theorem mesh_rsn_process_ampe_short_plaintext_witness :
    sample_short_frame.length = 40 ∧
    sample_siv.aes_siv_decrypt sample_receiver_sta.aek
        (process_ampe_crypt sample_short_frame 6 34)
        (process_ampe_aad sample_receiver_rsn sample_receiver_sta sample_short_frame 0 6) =
      (0, sample_short_plain) ∧
    sample_short_plain.length = 18 ∧
    mesh_rsn_process_ampe hostap_ampe_defs sample_siv sample_receiver_wpa_s
        sample_receiver_sta sample_rx_elems sample_short_frame 0 2 38 = none :=
  ⟨rfl, rfl, rfl,
    ((mesh_rsn_process_ampe_short_plaintext hostap_ampe_defs sample_siv sample_receiver_wpa_s
      sample_receiver_sta sample_rx_elems sample_short_frame 0 2 38 sample_receiver_rsn 6 34
      sample_short_plain rfl rfl (by decide) (by decide) ⟨rfl, rfl⟩ (by decide) rfl rfl rfl
      (by decide)).1 (by decide)).2⟩
